import Mathlib

/-!
# WMF decode engine (`wmf_decoder_impl.cc`)

A shallow embedding of `media::WMFDecoderImpl<StreamType>` from
`platform_media/renderer/decoders/win/wmf_decoder_impl.cc`.

The engine drives an external Media Foundation transform.  Every call that
leaves the engine (a COM method, an `MF*` helper) is recorded in a call
history, and the platform is a record `Env` of functions from that history to
the answer of the next call, so a statement quantified over `Env` holds for
every deterministic platform and transform.  Dereferencing an absent pointer,
a failed `CHECK` and an integer division by zero end the run with a `Fault`.

The two loops of the engine (the search through the offered output types and
the drain loop) need not end on an arbitrary transform; each takes a bound on
its iterations and ends with `Fault.outOfFuel` past it.  `DCHECK`s and logging
are left out, except the lines `IsValidConfig` writes.
-/

namespace WMF

/-! ## Platform scalars -/

/-- A Windows `HRESULT`, read as a signed 32-bit value. -/
abbrev HRESULT := Int

def S_OK : HRESULT := 0
def S_FALSE : HRESULT := 1
/-- Value `0x80004004`. -/
def E_ABORT : HRESULT := -2147467260
/-- Value `0xC00D36BB`. -/
def MF_E_UNEXPECTED : HRESULT := -1072875845
/-- Value `0xC00D36B5`. -/
def MF_E_NOTACCEPTING : HRESULT := -1072875851
/-- Value `0xC00D6D72`. -/
def MF_E_TRANSFORM_NEED_MORE_INPUT : HRESULT := -1072861838
/-- Value `0xC00D6D61`. -/
def MF_E_TRANSFORM_STREAM_CHANGE : HRESULT := -1072861855

/-- The `FAILED(hr)` macro. -/
def FAILED (hr : HRESULT) : Bool := decide (hr < 0)

/-- The `SUCCEEDED(hr)` macro. -/
def SUCCEEDED (hr : HRESULT) : Bool := decide (0 ≤ hr)

/-- Number of values of a 32-bit unsigned (`DWORD`, `uint32_t`). -/
def UINT32_SIZE : Nat := 4294967296

/-- Largest `int`. -/
def INT_MAX : Nat := 2147483647

/-- Reduction of an integer to the signed range of `w` bits (two's complement). -/
def wrapSigned (w : Nat) (x : Int) : Int :=
  (x + 2 ^ (w - 1)) % 2 ^ w - 2 ^ (w - 1)

/-- The template parameter `DemuxerStream::Type`. -/
inductive StreamType
  | AUDIO
  | VIDEO
  deriving DecidableEq, Repr

/-- Values of `DecoderStatus::Codes` the engine reports. -/
inductive DecoderStatus
  | kOk
  | kUnsupportedConfig
  | kFailedToCreateDecoder
  | kMalformedBitstream
  | kPlatformDecodeFailure
  deriving DecidableEq, Repr

/-- The enum `AudioCodec`; only `kAAC` is named by the engine. -/
inductive AudioCodec
  | kAAC
  | other (n : Nat)
  deriving DecidableEq, Repr

/-- The enum `VideoCodec`; only `kH264` is named by the engine. -/
inductive VideoCodec
  | kH264
  | other (n : Nat)
  deriving DecidableEq, Repr

/-- The GUIDs the engine compares or sets. -/
inductive GUID
  | zero
  | MFMediaType_Audio
  | MFMediaType_Video
  | MFAudioFormat_AAC
  | MFAudioFormat_PCM
  | MFAudioFormat_Float
  | MFVideoFormat_H264
  | MFVideoFormat_YV12
  | CMSAACDecMFT
  | CMSH264DecoderMFT
  | IClassFactory
  | other (n : Nat)
  deriving DecidableEq, Repr

/-- Attribute keys of an `IMFMediaType`. -/
inductive AttrKey
  | MF_MT_MAJOR_TYPE
  | MF_MT_SUBTYPE
  | MF_MT_AUDIO_NUM_CHANNELS
  | MF_MT_AUDIO_SAMPLES_PER_SECOND
  | MF_MT_AUDIO_BITS_PER_SAMPLE
  | MF_MT_AAC_PAYLOAD_TYPE
  | MF_MT_USER_DATA
  | MF_MT_INTERLACE_MODE
  | MF_MT_FRAME_SIZE
  deriving DecidableEq, Repr

/-- Value stored under an attribute key. -/
inductive AttrValue
  | guid (g : GUID)
  | uint32 (n : Nat)
  | blob (bytes : List Nat)
  | size (width height : Int)
  deriving DecidableEq, Repr

/-- The attributes set so far on a media type the engine builds. -/
abbrev MediaType := List (AttrKey × AttrValue)

/-- The enum `ChannelLayout`, by its numeric value. -/
abbrev ChannelLayout := Nat

/-- Value of `MFVideoInterlace_MixedInterlaceOrProgressive`. -/
def MFVideoInterlace_MixedInterlaceOrProgressive : Nat := 7

/-- Messages of `IMFTransform::ProcessMessage` the engine sends. -/
inductive MFT_MESSAGE
  | MFT_MESSAGE_COMMAND_FLUSH
  | MFT_MESSAGE_COMMAND_DRAIN
  deriving DecidableEq, Repr

/-- Flag `MFT_OUTPUT_STREAM_PROVIDES_SAMPLES` (`0x100`). -/
def MFT_OUTPUT_STREAM_PROVIDES_SAMPLES : Nat := 256

/-- Flag `MFT_OUTPUT_STREAM_CAN_PROVIDE_SAMPLES` (`0x200`). -/
def MFT_OUTPUT_STREAM_CAN_PROVIDE_SAMPLES : Nat := 512

/-- The fields of `MFT_OUTPUT_STREAM_INFO` and `MFT_INPUT_STREAM_INFO` the engine reads. -/
structure MFT_STREAM_INFO where
  dwFlags : Nat
  cbSize : Nat
  cbAlignment : Nat
  deriving DecidableEq, Repr

/-! ## The data model -/

/-- The struct `DecoderBuffer::TimeInfo`. -/
structure TimeInfo where
  timestamp : Int
  duration : Int
  discard_front : Int
  discard_back : Int
  deriving DecidableEq, Repr

/-- A `DecoderBuffer`: the input unit. -/
structure DecoderBuffer where
  end_of_stream : Bool
  data : List Nat
  time_info : TimeInfo
  deriving DecidableEq, Repr

/-- The `DecoderConfig` of either stream type: `AudioDecoderConfig` reads the
audio fields, `VideoDecoderConfig` the video fields. -/
structure DecoderConfig where
  is_encrypted : Bool
  extra_data : List Nat
  audio_codec : AudioCodec
  channel_layout : ChannelLayout
  channels : Int
  samples_per_second : Int
  codec_delay : Int
  platform_media_ffmpeg_demuxer_ : Bool
  video_codec : VideoCodec
  profile : Int
  coded_width : Int
  coded_height : Int
  deriving DecidableEq, Repr

/-- The value `kNoTimestamp`, the least 64-bit integer. -/
def kNoTimestamp : Int := -9223372036854775808

/-- The enum `SampleFormat`, as far as `ConvertToSampleFormat` names it. -/
inductive SampleFormat
  | kUnknownSampleFormat
  | kSampleFormatU8
  | kSampleFormatS16
  | kSampleFormatS32
  deriving DecidableEq, Repr

/-- What `AudioBuffer::CopyFrom` was given. -/
structure AudioBuffer where
  sample_format : SampleFormat
  channel_layout : ChannelLayout
  channel_count : Int
  sample_rate : Nat
  frame_count : Int
  data : List Nat
  timestamp : Int
  deriving DecidableEq, Repr

/-- What `VideoFrame::WrapExternalYuvData` was given; plane pointers are
offsets into the copied `DataBuffer`. -/
structure VideoFrame where
  y_stride : Int
  u_stride : Int
  v_stride : Int
  y_offset : Int
  u_offset : Int
  v_offset : Int
  data : List Nat
  timestamp : Int
  deriving DecidableEq, Repr

/-- The `OutputType` of either stream type. -/
inductive OutputBuffer
  | audio (b : AudioBuffer)
  | video (f : VideoFrame)
  deriving DecidableEq, Repr

/-- An `OutputCB`, by identity. -/
abbrev OutputCB := Nat

/-- A task posted to `task_runner_`. -/
inductive Task
  | decode_cb (status : DecoderStatus)
  | output_cb (cb : OutputCB) (buffer : OutputBuffer)
  | closure
  deriving DecidableEq, Repr

/-- An `AudioDiscardHelper`: its constructor arguments, the argument of its
last `Reset`, and the buffers it has processed, oldest first. -/
structure AudioDiscardHelper where
  sample_rate : Int
  decoder_delay : Int
  delayed_discard : Bool
  initial_discard : Int
  processed : List (TimeInfo × AudioBuffer)
  deriving DecidableEq, Repr

/-- An `IMFSample` made by `CreateSample`: the size and alignment argument its
buffer was requested with, and what the engine wrote to it. -/
structure IMFSample where
  buffer_size : Nat
  buffer_alignment : Int
  /-- The bytes copied into its buffer by the engine. -/
  data : List Nat
  /-- The argument of `SetSampleTime`. -/
  sample_time : Int
  deriving DecidableEq, Repr

/-- A call that leaves the engine. -/
inductive Call
  | GetProcAddress
  | DllGetClassObject (clsid : GUID)
  | CreateInstance
  | MFCreateMediaType
  | SetGUID (key : AttrKey) (value : GUID)
  | SetUINT32 (key : AttrKey) (value : Int)
  | SetBlob (key : AttrKey) (bytes : List Nat)
  | MFSetAttributeSize (key : AttrKey) (width height : Int)
  | SetInputType (media_type : MediaType)
  | GetOutputAvailableType (index : Nat)
  | GetGUID (key : AttrKey)
  | SetOutputType (index : Nat)
  | GetUINT32 (key : AttrKey)
  | GetOutputStreamInfo
  | GetInputStreamInfo
  | MFCreateSample
  | MFCreateAlignedMemoryBuffer (size : Nat) (alignment : Nat)
  | AddBuffer
  | GetBufferByIndex
  | Lock
  | Unlock
  | SetCurrentLength (length : Nat)
  | SetSampleTime (time : Int)
  | GetSampleTime
  | ConvertToContiguousBuffer
  | ProcessInput (sample : IMFSample)
  | ProcessOutput
  | ProcessMessage (message : MFT_MESSAGE)
  | MFGetStrideForBitmapInfoHeader (width : Int)
  deriving DecidableEq, Repr

/-- The platform: each field answers one kind of call from the history of the
calls made before it.  The enum bounds and the Chromium helpers the engine
uses, whose definitions are outside this file, are fields too. -/
structure Env where
  /-- Whether `platform_media_init::GetWMFLibraryForAAC()` is non-null. -/
  GetWMFLibraryForAAC : List Call → Bool
  /-- Whether `platform_media_init::GetWMFLibraryForH264()` is non-null. -/
  GetWMFLibraryForH264 : List Call → Bool
  /-- Whether `::GetProcAddress(library, "DllGetClassObject")` is non-null. -/
  GetProcAddress : List Call → Bool
  /-- The `HRESULT` of a call made after the given history. -/
  hr : List Call → Call → HRESULT
  /-- The GUID written by `GetGUID`. -/
  guid : List Call → GUID
  /-- The value written by `GetUINT32`. -/
  uint32 : List Call → Nat
  /-- The structure written by `GetOutputStreamInfo` and `GetInputStreamInfo`. -/
  stream_info : List Call → MFT_STREAM_INFO
  /-- The time written by `GetSampleTime`. -/
  sample_time : List Call → Int
  /-- The bytes made visible by `IMFMediaBuffer::Lock`. -/
  locked_data : List Call → List Nat
  /-- The stride written by `MFGetStrideForBitmapInfoHeader`. -/
  stride : List Call → Int
  /-- The enum value `H264PROFILE_MIN`. -/
  H264PROFILE_MIN : Int
  /-- The enum value `H264PROFILE_MAX`. -/
  H264PROFILE_MAX : Int
  ChannelLayoutToChannelCount : ChannelLayout → Int
  GuessChannelLayout : Nat → ChannelLayout
  /-- Whether `VideoFrame::WrapExternalYuvData` returns a frame for the config. -/
  WrapExternalYuvData : DecoderConfig → Bool
  /-- The result of `AudioDiscardHelper::ProcessBuffers` and the buffer as it leaves it. -/
  ProcessBuffers : AudioDiscardHelper → TimeInfo → AudioBuffer → Bool × AudioBuffer

/-- How a run ends without returning. -/
inductive Fault
  | nullDeref
  | checkFailed
  | divByZero
  | outOfFuel
  deriving DecidableEq, Repr

/-- A line written by `LOG_IF(WARNING, ..)` or `VLOG(1)` in `IsValidConfig`. -/
inductive LogLine
  | unsupportedAudioCodec
  | unsupportedEncryptedAudio
  | audioDecoderUnavailable
  | videoDecoderUnavailable
  | unsupportedVideoCodec
  | profileTooLow
  | profileTooHigh
  | unsupportedEncryptedVideo
  deriving DecidableEq, Repr

/-- The members of `WMFDecoderImpl`, with the tasks posted to `task_runner_`
and the history of platform calls. -/
structure Engine where
  config_ : DecoderConfig
  decoder_ : Option Nat
  output_cb_ : Option OutputCB
  queued_input_timing_ : List TimeInfo
  discard_helper_ : Option AudioDiscardHelper
  output_sample_ : Option IMFSample
  output_samples_per_second_ : Nat
  output_channel_layout_ : ChannelLayout
  output_sample_size_ : Nat
  input_stream_info_ : MFT_STREAM_INFO
  tasks : List Task
  calls : List Call
  deriving DecidableEq, Repr

/-! ## Configuration validity -/

/-- `LOG_IF(WARNING, cond) << line`. -/
def logIf (cond : Bool) (line : LogLine) : List LogLine :=
  if cond then [line] else []

/-- `WMFDecoderImpl<StreamType>::IsValidConfig`: the result and the lines logged. -/
def IsValidConfig (E : Env) (st : StreamType) (calls : List Call)
    (config : DecoderConfig) : Bool × List LogLine :=
  match st with
  | StreamType.AUDIO =>
    if config.audio_codec ≠ AudioCodec.kAAC then
      (false, [LogLine.unsupportedAudioCodec])
    else if config.is_encrypted then
      (false, [LogLine.unsupportedEncryptedAudio])
    else
      let isAvailable := E.GetWMFLibraryForAAC calls
      (isAvailable, logIf (!isAvailable) LogLine.audioDecoderUnavailable)
  | StreamType.VIDEO =>
    if !E.GetWMFLibraryForH264 calls then
      (false, [LogLine.videoDecoderUnavailable])
    else
      let log1 := logIf (decide (config.video_codec ≠ VideoCodec.kH264))
        LogLine.unsupportedVideoCodec
      let log2 :=
        if config.video_codec = VideoCodec.kH264 then
          logIf (!decide (config.profile ≥ E.H264PROFILE_MIN)) LogLine.profileTooLow ++
          logIf (!decide (config.profile ≤ E.H264PROFILE_MAX)) LogLine.profileTooHigh
        else []
      if config.is_encrypted then
        (false, log1 ++ log2 ++ [LogLine.unsupportedEncryptedVideo])
      else
        (decide (config.video_codec = VideoCodec.kH264) &&
           decide (config.profile ≥ E.H264PROFILE_MIN) &&
           decide (config.profile ≤ E.H264PROFILE_MAX),
         log1 ++ log2)

/-! ## Creating and configuring the transform -/

/-- One platform call: its `HRESULT`, and the history with the call appended. -/
def invoke (E : Env) (c : Call) (calls : List Call) : HRESULT × List Call :=
  (E.hr calls c, calls ++ [c])

/-- Reduction to a `DWORD`. -/
def dword (n : Nat) : Nat := n % UINT32_SIZE

/-- `CalculateBufferAlignment`, from a `DWORD` to an `int`. -/
def CalculateBufferAlignment (alignment : Nat) : Int :=
  if alignment > 1 then wrapSigned 32 ((alignment : Int) - 1) else 0

/-- `ConvertToSampleFormat`. -/
def ConvertToSampleFormat (sample_size : Nat) : SampleFormat :=
  match sample_size with
  | 1 => SampleFormat.kSampleFormatU8
  | 2 => SampleFormat.kSampleFormatS16
  | 4 => SampleFormat.kSampleFormatS32
  | _ => SampleFormat.kUnknownSampleFormat

/-- `AudioCodecToAudioSubtypeGUID`; past `NOTREACHED()` it returns `GUID()`. -/
def AudioCodecToAudioSubtypeGUID (codec : AudioCodec) : GUID :=
  match codec with
  | .kAAC => GUID.MFAudioFormat_AAC
  | _ => GUID.zero

/-- `WMFDecoderImpl<StreamType>::GetModuleLibrary`: whether the module handle is non-null. -/
def GetModuleLibrary (E : Env) (st : StreamType) (calls : List Call) : Bool :=
  match st with
  | StreamType.AUDIO => E.GetWMFLibraryForAAC calls
  | StreamType.VIDEO => E.GetWMFLibraryForH264 calls

/-- `WMFDecoderImpl<StreamType>::GetMediaObjectGUID`. -/
def GetMediaObjectGUID (st : StreamType) (config : DecoderConfig) : GUID :=
  match st with
  | StreamType.AUDIO =>
    match config.audio_codec with
    | .kAAC => GUID.CMSAACDecMFT
    | _ => GUID.zero
  | StreamType.VIDEO => GUID.CMSH264DecoderMFT

/-- `WMFDecoderImpl<StreamType>::CreateWMFDecoder`: the transform handle, if one
was made, and the history afterwards.  A handle is the length of the history at
its creation, so two transforms never share a handle. -/
def CreateWMFDecoder (E : Env) (st : StreamType) (calls : List Call)
    (config : DecoderConfig) : Option Nat × List Call :=
  let library := GetModuleLibrary E st calls
  if !library then (none, calls)
  else
    let get_class_object := E.GetProcAddress calls
    let calls1 := calls ++ [Call.GetProcAddress]
    if !get_class_object then (none, calls1)
    else
      let (hr, calls2) := invoke E (Call.DllGetClassObject (GetMediaObjectGUID st config)) calls1
      if FAILED hr then (none, calls2)
      else
        let (hr, calls3) := invoke E Call.CreateInstance calls2
        if FAILED hr then (none, calls3)
        else (some calls3.length, calls3)

/-- Byte offset of `pbAudioSpecificConfig` in the packed `HEAACWAVEFORMAT`. -/
def offsetof_pbAudioSpecificConfig : Nat := 30

/-- Byte offset of `wfInfo.wPayloadType` in the packed `HEAACWAVEFORMAT`. -/
def offsetof_wPayloadType : Nat := 18

/-- Overwrite `buf` from byte `offset` on with `bytes` (`memcpy` into a buffer). -/
def writeAt (buf : List Nat) (offset : Nat) (bytes : List Nat) : List Nat :=
  buf.take offset ++ bytes ++ buf.drop (offset + bytes.length)

/-- The blob `SetInputMediaType` (audio) sets as `MF_MT_USER_DATA`: the zeroed
`HEAACWAVEFORMAT` of `format_size` bytes, with the payload type or the extra
data written, from `wfInfo.wPayloadType` on. -/
def userDataBlob (config : DecoderConfig) : List Nat :=
  let format_size := offsetof_pbAudioSpecificConfig +
    (if config.platform_media_ffmpeg_demuxer_ then config.extra_data.length else 0)
  let zeroed := List.replicate format_size 0
  let wave_format :=
    if !config.platform_media_ffmpeg_demuxer_ then
      writeAt zeroed offsetof_wPayloadType [1, 0]
    else
      writeAt zeroed offsetof_pbAudioSpecificConfig config.extra_data
  (wave_format.drop offsetof_wPayloadType).take (format_size - offsetof_wPayloadType)

/-- A setter on the media type under construction: the call, and the attribute
it stores when it succeeds. -/
def setAttr (E : Env) (c : Call) (key : AttrKey) (value : AttrValue)
    (mt : MediaType) (calls : List Call) : HRESULT × MediaType × List Call :=
  let (hr, calls1) := invoke E c calls
  (hr, if FAILED hr then mt else mt ++ [(key, value)], calls1)

/-- The part of `SetInputMediaType` before `decoder_->SetInputType`: the media
type built, or `none` where a step failed, and the history afterwards. -/
def buildInputMediaType (E : Env) (st : StreamType) (config : DecoderConfig)
    (calls : List Call) : Option MediaType × List Call :=
  let (hr, calls) := invoke E Call.MFCreateMediaType calls
  if FAILED hr then (none, calls) else
  match st with
  | StreamType.AUDIO =>
    let (hr, mt, calls) := setAttr E (.SetGUID .MF_MT_MAJOR_TYPE .MFMediaType_Audio)
      .MF_MT_MAJOR_TYPE (.guid .MFMediaType_Audio) [] calls
    if FAILED hr then (none, calls) else
    let subtype := AudioCodecToAudioSubtypeGUID config.audio_codec
    let (hr, mt, calls) := setAttr E (.SetGUID .MF_MT_SUBTYPE subtype)
      .MF_MT_SUBTYPE (.guid subtype) mt calls
    if FAILED hr then (none, calls) else
    let channels := E.ChannelLayoutToChannelCount config.channel_layout
    let (hr, mt, calls) := setAttr E (.SetUINT32 .MF_MT_AUDIO_NUM_CHANNELS channels)
      .MF_MT_AUDIO_NUM_CHANNELS (.uint32 (channels % UINT32_SIZE).toNat) mt calls
    if FAILED hr then (none, calls) else
    let rate := config.samples_per_second
    let (hr, mt, calls) := setAttr E (.SetUINT32 .MF_MT_AUDIO_SAMPLES_PER_SECOND rate)
      .MF_MT_AUDIO_SAMPLES_PER_SECOND (.uint32 (rate % UINT32_SIZE).toNat) mt calls
    if FAILED hr then (none, calls) else
    if config.audio_codec = AudioCodec.kAAC then
      let (hr, mt, calls) :=
        if !config.platform_media_ffmpeg_demuxer_ then
          setAttr E (.SetUINT32 .MF_MT_AAC_PAYLOAD_TYPE 1)
            .MF_MT_AAC_PAYLOAD_TYPE (.uint32 1) mt calls
        else (S_OK, mt, calls)
      if FAILED hr then (none, calls) else
      let blob := userDataBlob config
      let (hr, mt, calls) := setAttr E (.SetBlob .MF_MT_USER_DATA blob)
        .MF_MT_USER_DATA (.blob blob) mt calls
      if FAILED hr then (none, calls) else (some mt, calls)
    else (some mt, calls)
  | StreamType.VIDEO =>
    let (hr, mt, calls) := setAttr E (.SetGUID .MF_MT_MAJOR_TYPE .MFMediaType_Video)
      .MF_MT_MAJOR_TYPE (.guid .MFMediaType_Video) [] calls
    if FAILED hr then (none, calls) else
    let (hr, mt, calls) := setAttr E (.SetGUID .MF_MT_SUBTYPE .MFVideoFormat_H264)
      .MF_MT_SUBTYPE (.guid .MFVideoFormat_H264) mt calls
    if FAILED hr then (none, calls) else
    let mode := MFVideoInterlace_MixedInterlaceOrProgressive
    let (hr, mt, calls) := setAttr E (.SetUINT32 .MF_MT_INTERLACE_MODE mode)
      .MF_MT_INTERLACE_MODE (.uint32 mode) mt calls
    if FAILED hr then (none, calls) else
    let (hr, mt, calls) := setAttr E
      (.MFSetAttributeSize .MF_MT_FRAME_SIZE config.coded_width config.coded_height)
      .MF_MT_FRAME_SIZE (.size config.coded_width config.coded_height) mt calls
    if FAILED hr then (none, calls) else (some mt, calls)

/-- `WMFDecoderImpl<StreamType>::SetInputMediaType`. -/
def SetInputMediaType (E : Env) (st : StreamType) (s : Engine) :
    Except Fault (Bool × Engine) :=
  match buildInputMediaType E st s.config_ s.calls with
  | (none, calls) => .ok (false, { s with calls := calls })
  | (some media_type, calls) =>
    match s.decoder_ with
    | none => .error Fault.nullDeref
    | some _ =>
      let (hr, calls) := invoke E (.SetInputType media_type) calls
      .ok (!FAILED hr, { s with calls := calls })

/-- `WMFDecoderImpl<StreamType>::CreateSample`. -/
def CreateSample (E : Env) (buffer_size : Nat) (buffer_alignment : Int)
    (calls : List Call) : Option IMFSample × List Call :=
  let (hr, calls) := invoke E Call.MFCreateSample calls
  if FAILED hr then (none, calls) else
  let (hr, calls) := invoke E
    (Call.MFCreateAlignedMemoryBuffer buffer_size (buffer_alignment % UINT32_SIZE).toNat) calls
  if FAILED hr then (none, calls) else
  let (hr, calls) := invoke E Call.AddBuffer calls
  if FAILED hr then (none, calls) else
  (some { buffer_size := buffer_size, buffer_alignment := buffer_alignment,
          data := [], sample_time := 0 }, calls)

/-- `WMFDecoderImpl<StreamType>::SetOutputMediaTypeInternal`, on the candidate
offered at `index`. -/
def SetOutputMediaTypeInternal (E : Env) (st : StreamType) (subtype : GUID)
    (index : Nat) (s : Engine) : Except Fault (HRESULT × Engine) :=
  match st with
  | StreamType.AUDIO =>
    if subtype = GUID.MFAudioFormat_PCM then
      match s.decoder_ with
      | none => .error Fault.nullDeref
      | some _ =>
        let (hr, calls) := invoke E (.SetOutputType index) s.calls
        let s := { s with calls := calls }
        if FAILED hr then .ok (hr, s) else
        let rate := dword (E.uint32 s.calls)
        let (hr, calls) := invoke E (.GetUINT32 .MF_MT_AUDIO_SAMPLES_PER_SECOND) s.calls
        let s := { s with calls := calls }
        if FAILED hr then .ok (hr, s) else
        let s := { s with output_samples_per_second_ := rate }
        let output_channel_count := dword (E.uint32 s.calls)
        let (hr, calls) := invoke E (.GetUINT32 .MF_MT_AUDIO_NUM_CHANNELS) s.calls
        let s := { s with calls := calls }
        if FAILED hr then .ok (hr, s) else
        if output_channel_count > INT_MAX then .error Fault.checkFailed else
        let s := { s with output_channel_layout_ :=
          if (output_channel_count : Int) = s.config_.channels then s.config_.channel_layout
          else E.GuessChannelLayout output_channel_count }
        let bits := dword (E.uint32 s.calls)
        let (hr, calls) := invoke E (.GetUINT32 .MF_MT_AUDIO_BITS_PER_SAMPLE) s.calls
        let s := { s with calls := calls }
        if FAILED hr then .ok (hr, s) else
        .ok (S_OK, { s with output_sample_size_ := bits / 8 })
    else .ok (S_FALSE, s)
  | StreamType.VIDEO =>
    if subtype = GUID.MFVideoFormat_YV12 then
      match s.decoder_ with
      | none => .error Fault.nullDeref
      | some _ =>
        let (hr, calls) := invoke E (.SetOutputType index) s.calls
        let s := { s with calls := calls }
        if FAILED hr then .ok (hr, s) else .ok (S_OK, s)
    else .ok (S_FALSE, s)

/-- `WMFDecoderImpl<StreamType>::CalculateOutputBufferSize`. -/
def CalculateOutputBufferSize (st : StreamType) (stream_info : MFT_STREAM_INFO) : Nat :=
  match st with
  | StreamType.AUDIO => stream_info.cbSize
  | StreamType.VIDEO => stream_info.cbSize

/-- How one round of the `for` loop of `SetOutputMediaType` ends. -/
inductive TypeSearch
  /-- `GetOutputAvailableType` failed: the loop condition is false. -/
  | exhausted
  /-- `SetOutputMediaTypeInternal` returned `S_OK`: `break`. -/
  | accepted
  /-- A step failed: `return false`. -/
  | failed
  /-- `SetOutputMediaTypeInternal` returned `S_FALSE`: on to the next candidate. -/
  | next
  deriving DecidableEq, Repr

/-- One round of the `for` loop of `SetOutputMediaType`: the loop condition and
the loop body on candidate `i`. -/
def outputTypeStep (E : Env) (st : StreamType) (i : Nat) (s : Engine) :
    Except Fault (TypeSearch × Engine) :=
  match s.decoder_ with
  | none => .error Fault.nullDeref
  | some _ =>
    let (hr, calls) := invoke E (.GetOutputAvailableType i) s.calls
    let s := { s with calls := calls }
    if !SUCCEEDED hr then .ok (TypeSearch.exhausted, s) else
    let out_subtype := if FAILED (E.hr s.calls (.GetGUID .MF_MT_SUBTYPE)) then GUID.zero
      else E.guid s.calls
    let (hr, calls) := invoke E (.GetGUID .MF_MT_SUBTYPE) s.calls
    let s := { s with calls := calls }
    if FAILED hr then .ok (TypeSearch.failed, s) else
    match SetOutputMediaTypeInternal E st out_subtype i s with
    | .error f => .error f
    | .ok (hr, s) =>
      if hr = S_OK then .ok (TypeSearch.accepted, s)
      else if hr ≠ S_FALSE then .ok (TypeSearch.failed, s)
      else .ok (TypeSearch.next, s)

/-- The `for` loop of `SetOutputMediaType`, from candidate `i` on, for at most
`n` candidates. -/
def outputTypeLoop (E : Env) (st : StreamType) :
    Nat → Nat → Engine → Except Fault (TypeSearch × Engine)
  | 0, _, _ => .error Fault.outOfFuel
  | n + 1, i, s =>
    match outputTypeStep E st i s with
    | .error f => .error f
    | .ok (TypeSearch.next, s) => outputTypeLoop E st n ((i + 1) % UINT32_SIZE) s
    | .ok (exit, s) => .ok (exit, s)

/-- `WMFDecoderImpl<StreamType>::SetOutputMediaType`; `fuel` bounds the number
of candidates examined. -/
def SetOutputMediaType (E : Env) (st : StreamType) (fuel : Nat) (s : Engine) :
    Except Fault (Bool × Engine) :=
  match outputTypeLoop E st fuel 0 s with
  | .error f => .error f
  | .ok (TypeSearch.failed, s) => .ok (false, s)
  | .ok (_, s) =>
    match s.decoder_ with
    | none => .error Fault.nullDeref
    | some _ =>
      let info := E.stream_info s.calls
      let output_stream_info : MFT_STREAM_INFO :=
        { dwFlags := dword info.dwFlags, cbSize := dword info.cbSize,
          cbAlignment := dword info.cbAlignment }
      let (hr, calls) := invoke E Call.GetOutputStreamInfo s.calls
      let s := { s with calls := calls }
      if FAILED hr then .ok (false, s) else
      let s := { s with output_sample_ := none }
      let decoder_creates_samples :=
        (output_stream_info.dwFlags &&&
          (MFT_OUTPUT_STREAM_PROVIDES_SAMPLES ||| MFT_OUTPUT_STREAM_CAN_PROVIDE_SAMPLES)) ≠ 0
      if !decoder_creates_samples then
        let (sample, calls) := CreateSample E (CalculateOutputBufferSize st output_stream_info)
          (CalculateBufferAlignment output_stream_info.cbAlignment) s.calls
        let s := { s with output_sample_ := sample, calls := calls }
        if sample.isNone then .ok (false, s) else .ok (true, s)
      else .ok (true, s)

/-- `WMFDecoderImpl<StreamType>::ConfigureDecoder`.  `input_stream_info_` is
written when `GetInputStreamInfo` succeeds. -/
def ConfigureDecoder (E : Env) (st : StreamType) (fuel : Nat) (s : Engine) :
    Except Fault (Bool × Engine) :=
  match SetInputMediaType E st s with
  | .error f => .error f
  | .ok (false, s) => .ok (false, s)
  | .ok (true, s) =>
    match SetOutputMediaType E st fuel s with
    | .error f => .error f
    | .ok (false, s) => .ok (false, s)
    | .ok (true, s) =>
      match s.decoder_ with
      | none => .error Fault.nullDeref
      | some _ =>
        let info := E.stream_info s.calls
        let (hr, calls) := invoke E Call.GetInputStreamInfo s.calls
        let s := { s with calls := calls }
        if FAILED hr then .ok (false, s) else
        .ok (true, { s with input_stream_info_ :=
          { dwFlags := dword info.dwFlags, cbSize := dword info.cbSize,
            cbAlignment := dword info.cbAlignment } })

/-- `WMFDecoderImpl<StreamType>::ResetTimestampState`. -/
def ResetTimestampState (st : StreamType) (s : Engine) : Engine :=
  match st with
  | StreamType.AUDIO =>
    { s with
      discard_helper_ := some
        { sample_rate := s.config_.samples_per_second
          decoder_delay := s.config_.codec_delay
          delayed_discard := false
          initial_discard := s.config_.codec_delay
          processed := [] }
      queued_input_timing_ := [] }
  | StreamType.VIDEO => s

/-- `WMFDecoderImpl<StreamType>::Initialize`: the statuses `init_cb` was run
with, in order, and the engine afterwards. -/
def Initialize (E : Env) (st : StreamType) (fuel : Nat) (config : DecoderConfig)
    (output_cb : Option OutputCB) (s : Engine) :
    Except Fault (List DecoderStatus × Engine) :=
  if !(IsValidConfig E st s.calls config).1 then
    .ok ([DecoderStatus.kUnsupportedConfig], s)
  else
    let s := { s with config_ := config }
    let (decoder, calls) := CreateWMFDecoder E st s.calls s.config_
    let s := { s with decoder_ := decoder, calls := calls }
    if s.decoder_.isNone then .ok ([DecoderStatus.kFailedToCreateDecoder], s)
    else
      match ConfigureDecoder E st fuel s with
      | .error f => .error f
      | .ok (false, s) => .ok ([DecoderStatus.kFailedToCreateDecoder], s)
      | .ok (true, s) =>
        let s := { s with output_cb_ := output_cb }
        let s := ResetTimestampState st s
        .ok ([DecoderStatus.kOk], s)

/-! ## Decoding -/

/-- The `OutputType` of a stream type. -/
abbrev OutputType (st : StreamType) : Type :=
  match st with
  | StreamType.AUDIO => AudioBuffer
  | StreamType.VIDEO => VideoFrame

/-- An output of a stream type as the argument of the output callback. -/
def toOutputBuffer (st : StreamType) (output : OutputType st) : OutputBuffer :=
  match st, output with
  | StreamType.AUDIO, b => OutputBuffer.audio b
  | StreamType.VIDEO, f => OutputBuffer.video f

/-- Reduction to a `LONG`, a signed 32-bit value. -/
def long (x : Int) : Int := wrapSigned 32 x

/-- The expression `(x + 15) & ~15` on a `LONG`: clearing the low four bits of a
two's complement value subtracts its remainder modulo 16. -/
def alignUp16 (x : Int) : Int :=
  let y := long (x + 15)
  y - y % 16

/-- `WMFDecoderImpl<StreamType>::PrepareInputSample`. -/
def PrepareInputSample (E : Env) (s : Engine) (input : DecoderBuffer)
    (calls : List Call) : Option IMFSample × List Call :=
  let data_size := dword input.data.length
  match CreateSample E data_size (CalculateBufferAlignment s.input_stream_info_.cbAlignment)
      calls with
  | (none, calls) => (none, calls)
  | (some sample, calls) =>
    let (hr, calls) := invoke E Call.GetBufferByIndex calls
    if FAILED hr then (none, calls) else
    let (hr, calls) := invoke E Call.Lock calls
    if FAILED hr then (none, calls) else
    let sample := { sample with data := input.data.take data_size }
    let (hr, calls) := invoke E Call.Unlock calls
    if FAILED hr then (none, calls) else
    let (hr, calls) := invoke E (Call.SetCurrentLength data_size) calls
    if FAILED hr then (none, calls) else
    let time := wrapSigned 64 (input.time_info.timestamp * 10)
    let (hr, calls) := invoke E (Call.SetSampleTime time) calls
    if FAILED hr then (none, calls) else
    (some { sample with sample_time := time }, calls)

/-- `WMFDecoderImpl<StreamType>::RecordInput`. -/
def RecordInput (st : StreamType) (input : DecoderBuffer) (s : Engine) : Engine :=
  match st with
  | StreamType.AUDIO =>
    { s with queued_input_timing_ := s.queued_input_timing_ ++ [input.time_info] }
  | StreamType.VIDEO => s

/-- `WMFDecoderImpl<StreamType>::ProcessInput`. -/
def ProcessInput (E : Env) (st : StreamType) (input : DecoderBuffer) (s : Engine) :
    Except Fault (HRESULT × Engine) :=
  match PrepareInputSample E s input s.calls with
  | (none, calls) => .ok (MF_E_UNEXPECTED, { s with calls := calls })
  | (some sample, calls) =>
    match s.decoder_ with
    | none => .error Fault.nullDeref
    | some _ =>
      let (hr, calls) := invoke E (Call.ProcessInput sample) calls
      let s := { s with calls := calls }
      if SUCCEEDED hr then .ok (hr, RecordInput st input s) else .ok (hr, s)

/-- `WMFDecoderImpl<StreamType>::CreateOutputBufferInternal`.  The audio
division is the unsigned 32-bit one of the source, its result converted to
`int`; the video arithmetic is that of `LONG`.  A null frame from
`WrapExternalYuvData` is dereferenced by `AddDestructionObserver`. -/
def CreateOutputBufferInternal (E : Env) (st : StreamType) (s : Engine)
    (data : List Nat) (data_size : Nat) (timestamp : Int) (calls : List Call) :
    Except Fault (Option (OutputType st) × List Call) :=
  match st with
  | StreamType.AUDIO =>
    if s.output_sample_size_ = 0 then .error Fault.divByZero else
    let channel_count := E.ChannelLayoutToChannelCount s.output_channel_layout_
    let divisor := (channel_count % UINT32_SIZE).toNat
    if divisor = 0 then .error Fault.divByZero else
    let frame_count := wrapSigned 32 ((data_size / s.output_sample_size_ / divisor : Nat) : Int)
    .ok (some
      { sample_format := ConvertToSampleFormat s.output_sample_size_
        channel_layout := s.output_channel_layout_
        channel_count := channel_count
        sample_rate := s.output_samples_per_second_
        frame_count := frame_count
        data := data
        timestamp := kNoTimestamp }, calls)
  | StreamType.VIDEO =>
    let data_buffer := data.take data_size
    let stride := long (E.stride calls)
    let (hr, calls) := invoke E (Call.MFGetStrideForBitmapInfoHeader s.config_.coded_width) calls
    if FAILED hr then .ok (none, calls) else
    let adjusted_stride := alignUp16 stride
    let stride := if stride ≠ adjusted_stride then adjusted_stride else stride
    let rows := long s.config_.coded_height
    let adjusted_rows := alignUp16 rows
    let rows := if rows ≠ adjusted_rows then adjusted_rows else rows
    if !E.WrapExternalYuvData s.config_ then .error Fault.nullDeref else
    .ok (some
      { y_stride := stride
        u_stride := Int.tdiv stride 2
        v_stride := Int.tdiv stride 2
        y_offset := 0
        u_offset := long (long (rows * stride) + Int.tdiv (long (rows * stride)) 4)
        v_offset := long (rows * stride)
        data := data_buffer
        timestamp := timestamp }, calls)

/-- `WMFDecoderImpl<StreamType>::CreateOutputBuffer`, on the sample
`output_data_buffer.pSample`. -/
def CreateOutputBuffer (E : Env) (st : StreamType) (s : Engine)
    (pSample : Option IMFSample) (calls : List Call) :
    Except Fault (Option (OutputType st) × List Call) :=
  match pSample with
  | none => .error Fault.nullDeref
  | some _ =>
    let sample_time := wrapSigned 64 (E.sample_time calls)
    let (hr, calls) := invoke E Call.GetSampleTime calls
    if FAILED hr then .ok (none, calls) else
    let timestamp := Int.tdiv sample_time 10
    let (hr, calls) := invoke E Call.ConvertToContiguousBuffer calls
    if FAILED hr then .ok (none, calls) else
    let data := E.locked_data calls
    let data_size := dword data.length
    let (hr, calls) := invoke E Call.Lock calls
    if FAILED hr then .ok (none, calls) else
    match CreateOutputBufferInternal E st s data data_size timestamp calls with
    | .error f => .error f
    | .ok (output, calls) =>
      let (hr, calls) := invoke E Call.Unlock calls
      if FAILED hr then .ok (none, calls) else .ok (output, calls)

/-- `WMFDecoderImpl<StreamType>::ProcessBuffer`: the result, and the output as
the discard helper leaves it. -/
def ProcessBuffer (E : Env) (st : StreamType) (output : OutputType st) (s : Engine) :
    Except Fault (Bool × OutputType st × Engine) :=
  match st, output with
  | StreamType.AUDIO, (output : AudioBuffer) =>
    match s.queued_input_timing_ with
    | [] => .ok (false, output, s)
    | dequeued_timing :: rest =>
      let s := { s with queued_input_timing_ := rest }
      match s.discard_helper_ with
      | none => .error Fault.nullDeref
      | some helper =>
        let (result, processed) := E.ProcessBuffers helper dequeued_timing output
        let helper : AudioDiscardHelper :=
          { helper with processed := helper.processed ++ [(dequeued_timing, output)] }
        .ok (result, processed, { s with discard_helper_ := some helper })
  | StreamType.VIDEO, output => .ok (true, output, s)

/-- `WMFDecoderImpl<StreamType>::ProcessOutput`; `fuel` bounds the candidates a
renegotiation examines. -/
def ProcessOutput (E : Env) (st : StreamType) (fuel : Nat) (s : Engine) :
    Except Fault (HRESULT × Engine) :=
  match s.output_sample_ with
  | none => .error Fault.nullDeref
  | some _ =>
    let (hr, calls) := invoke E Call.ConvertToContiguousBuffer s.calls
    let s := { s with calls := calls }
    if FAILED hr then .ok (hr, s) else
    let (hr, calls) := invoke E (Call.SetCurrentLength 0) s.calls
    let s := { s with calls := calls }
    if FAILED hr then .ok (hr, s) else
    match s.decoder_ with
    | none => .error Fault.nullDeref
    | some _ =>
      let (hr, calls) := invoke E Call.ProcessOutput s.calls
      let s := { s with calls := calls }
      if hr = S_OK then
        match CreateOutputBuffer E st s s.output_sample_ s.calls with
        | .error f => .error f
        | .ok (none, calls) => .ok (MF_E_UNEXPECTED, { s with calls := calls })
        | .ok (some output_buffer, calls) =>
          match ProcessBuffer E st output_buffer { s with calls := calls } with
          | .error f => .error f
          | .ok (false, _, s) => .ok (hr, s)
          | .ok (true, output_buffer, s) =>
            match s.output_cb_ with
            | some cb =>
              .ok (hr, { s with tasks := s.tasks ++
                [Task.output_cb cb (toOutputBuffer st output_buffer)] })
            | none => .ok (E_ABORT, s)
      else if hr = MF_E_TRANSFORM_NEED_MORE_INPUT then .ok (hr, s)
      else if hr = MF_E_TRANSFORM_STREAM_CHANGE then
        match SetOutputMediaType E st fuel s with
        | .error f => .error f
        | .ok (false, s) => .ok (MF_E_UNEXPECTED, s)
        | .ok (true, s) => .ok (hr, s)
      else .ok (hr, s)

/-- `WMFDecoderImpl<StreamType>::ProcessOutputLoop`, for at most `n` iterations. -/
def ProcessOutputLoop (E : Env) (st : StreamType) (fuel : Nat) :
    Nat → Engine → Except Fault (Bool × Engine)
  | 0, _ => .error Fault.outOfFuel
  | n + 1, s =>
    match ProcessOutput E st fuel s with
    | .error f => .error f
    | .ok (hr, s) =>
      if FAILED hr then
        if hr = MF_E_TRANSFORM_NEED_MORE_INPUT then .ok (true, s)
        else if hr = MF_E_TRANSFORM_STREAM_CHANGE then ProcessOutputLoop E st fuel n s
        else .ok (false, s)
      else ProcessOutputLoop E st fuel n s

/-- `WMFDecoderImpl<StreamType>::Drain`. -/
def Drain (E : Env) (st : StreamType) (fuel : Nat) (s : Engine) :
    Except Fault (Bool × Engine) :=
  match s.decoder_ with
  | none => .error Fault.nullDeref
  | some _ =>
    let (_, calls) := invoke E (Call.ProcessMessage .MFT_MESSAGE_COMMAND_DRAIN) s.calls
    ProcessOutputLoop E st fuel fuel { s with calls := calls }

/-- `task_runner_->PostTask`. -/
def PostTask (task : Task) (s : Engine) : Engine :=
  { s with tasks := s.tasks ++ [task] }

/-- `WMFDecoderImpl<StreamType>::Decode`; `fuel` bounds the iterations of each loop. -/
def Decode (E : Env) (st : StreamType) (fuel : Nat) (buffer : DecoderBuffer)
    (s : Engine) : Except Fault Engine :=
  if buffer.end_of_stream then
    match Drain E st fuel s with
    | .error f => .error f
    | .ok (drained_ok, s) =>
      .ok (PostTask (Task.decode_cb
        (if drained_ok then DecoderStatus.kOk else DecoderStatus.kMalformedBitstream)) s)
  else
    match ProcessInput E st buffer s with
    | .error f => .error f
    | .ok (hr, s) =>
      if SUCCEEDED hr then
        match ProcessOutputLoop E st fuel fuel s with
        | .error f => .error f
        | .ok (looped_ok, s) =>
          .ok (PostTask (Task.decode_cb
            (if looped_ok then DecoderStatus.kOk
             else DecoderStatus.kPlatformDecodeFailure)) s)
      else .ok (PostTask (Task.decode_cb DecoderStatus.kPlatformDecodeFailure) s)

/-- `WMFDecoderImpl<StreamType>::Reset`. -/
def Reset (E : Env) (st : StreamType) (s : Engine) : Except Fault Engine :=
  match s.decoder_ with
  | none => .error Fault.nullDeref
  | some _ =>
    let (_, calls) := invoke E (Call.ProcessMessage .MFT_MESSAGE_COMMAND_FLUSH) s.calls
    let s := ResetTimestampState st { s with calls := calls }
    .ok (PostTask Task.closure s)

/-- The engine as the constructor `WMFDecoderImpl` leaves it. -/
def WMFDecoderImpl : Engine :=
  { config_ :=
      { is_encrypted := false, extra_data := [], audio_codec := AudioCodec.other 0,
        channel_layout := 0, channels := 0, samples_per_second := 0, codec_delay := 0,
        platform_media_ffmpeg_demuxer_ := false, video_codec := VideoCodec.other 0,
        profile := -1, coded_width := 0, coded_height := 0 }
    decoder_ := none
    output_cb_ := none
    queued_input_timing_ := []
    discard_helper_ := none
    output_sample_ := none
    output_samples_per_second_ := 0
    output_channel_layout_ := 0
    output_sample_size_ := 0
    input_stream_info_ := { dwFlags := 0, cbSize := 0, cbAlignment := 0 }
    tasks := []
    calls := [] }

/-! ## Vocabulary of the statements -/

/-- The list `l'` is `l` followed by elements that all satisfy `P`. -/
def ExtendsBy {α : Type} (P : α → Bool) (l l' : List α) : Prop :=
  ∃ extra, l' = l ++ extra ∧ ∀ c ∈ extra, P c = true

/-- Calls made by output-type negotiation (`SetOutputMediaType`). -/
def Call.isOutputNegotiation : Call → Bool
  | .GetOutputAvailableType _ => true
  | .GetGUID _ => true
  | .SetOutputType _ => true
  | .GetUINT32 _ => true
  | .GetOutputStreamInfo => true
  | .MFCreateSample => true
  | .MFCreateAlignedMemoryBuffer _ _ => true
  | .AddBuffer => true
  | _ => false

/-- Calls made by a drain step (`ProcessOutput`), renegotiation included. -/
def Call.isOutputPath (c : Call) : Bool :=
  c.isOutputNegotiation ||
  match c with
  | .ConvertToContiguousBuffer => true
  | .SetCurrentLength _ => true
  | .ProcessOutput => true
  | .GetSampleTime => true
  | .Lock => true
  | .Unlock => true
  | .MFGetStrideForBitmapInfoHeader _ => true
  | _ => false

/-- Calls made while an input sample is built (`PrepareInputSample`). -/
def Call.isInputSample : Call → Bool
  | .MFCreateSample => true
  | .MFCreateAlignedMemoryBuffer _ _ => true
  | .AddBuffer => true
  | .GetBufferByIndex => true
  | .Lock => true
  | .Unlock => true
  | .SetCurrentLength _ => true
  | .SetSampleTime _ => true
  | _ => false

/-- Whether a task runs the output callback. -/
def Task.isOutput : Task → Bool
  | .output_cb _ _ => true
  | _ => false

/-- What output-type negotiation leaves alone: everything but the negotiated
output parameters and the output sample; its calls are negotiation calls. -/
structure NegotiationFrame (s s' : Engine) : Prop where
  config_ : s'.config_ = s.config_
  decoder_ : s'.decoder_ = s.decoder_
  output_cb_ : s'.output_cb_ = s.output_cb_
  queued_input_timing_ : s'.queued_input_timing_ = s.queued_input_timing_
  discard_helper_ : s'.discard_helper_ = s.discard_helper_
  input_stream_info_ : s'.input_stream_info_ = s.input_stream_info_
  tasks : s'.tasks = s.tasks
  calls : ExtendsBy Call.isOutputNegotiation s.calls s'.calls

/-- What draining leaves alone: the config, the transform handle, the output
callback and the input stream info stay; the timing queue only loses entries
from its front; only output-callback tasks are posted; only output-path calls
are made. -/
structure DrainFrame (s s' : Engine) : Prop where
  config_ : s'.config_ = s.config_
  decoder_ : s'.decoder_ = s.decoder_
  output_cb_ : s'.output_cb_ = s.output_cb_
  input_stream_info_ : s'.input_stream_info_ = s.input_stream_info_
  queued_input_timing_ : s'.queued_input_timing_ <:+ s.queued_input_timing_
  tasks : ExtendsBy Task.isOutput s.tasks s'.tasks
  calls : ExtendsBy Call.isOutputPath s.calls s'.calls

/-- Whether `ProcessOutputLoop` goes round again after a step with this result. -/
def loopContinues (hr : HRESULT) : Bool :=
  !FAILED hr || decide (hr = MF_E_TRANSFORM_STREAM_CHANGE)

/-- The results of `k` successive `ProcessOutput` steps, and the engine after them. -/
def pollSteps (E : Env) (st : StreamType) (fuel : Nat) :
    Nat → Engine → Except Fault (List HRESULT × Engine)
  | 0, s => .ok ([], s)
  | k + 1, s =>
    match ProcessOutput E st fuel s with
    | .error f => .error f
    | .ok (hr, s) =>
      match pollSteps E st fuel k s with
      | .error f => .error f
      | .ok (hrs, s) => .ok (hr :: hrs, s)

/-! ## A platform to run the engine on -/

/-- Value `0xC00D36B9`. -/
def MF_E_NO_MORE_TYPES : HRESULT := -1072875847

/-- A platform with an AAC transform that offers one PCM output type (44100 Hz,
2 channels, 16 bits) and wants caller-allocated output samples.  Polled right
after an input, it answers by the first byte of that input: need-more-input for
an empty input, format-changed for byte 255, one unit otherwise; polled at any
other time it needs more input. -/
def examplePlatform : Env :=
  { GetWMFLibraryForAAC := fun _ => true
    GetWMFLibraryForH264 := fun _ => true
    GetProcAddress := fun _ => true
    hr := fun history c =>
      match c with
      | .GetOutputAvailableType i => if i = 0 then S_OK else MF_E_NO_MORE_TYPES
      | .ProcessOutput =>
        match history.reverse with
        | _ :: _ :: Call.ProcessInput sample :: _ =>
          match sample.data with
          | [] => MF_E_TRANSFORM_NEED_MORE_INPUT
          | b :: _ => if b = 255 then MF_E_TRANSFORM_STREAM_CHANGE else S_OK
        | _ => MF_E_TRANSFORM_NEED_MORE_INPUT
      | _ => S_OK
    guid := fun _ => GUID.MFAudioFormat_PCM
    uint32 := fun history =>
      match history.getLast? with
      | some (Call.SetOutputType _) => 44100
      | some (Call.GetUINT32 AttrKey.MF_MT_AUDIO_SAMPLES_PER_SECOND) => 2
      | _ => 16
    stream_info := fun _ => { dwFlags := 0, cbSize := 4096, cbAlignment := 16 }
    sample_time := fun _ => 1000
    locked_data := fun _ => [1, 2, 3, 4, 5, 6, 7, 8]
    stride := fun _ => 300
    H264PROFILE_MIN := 0
    H264PROFILE_MAX := 10
    ChannelLayoutToChannelCount := fun layout =>
      if layout = 3 then 2 else if layout = 2 then 1 else 0
    GuessChannelLayout := fun channels =>
      if channels = 2 then 3 else if channels = 1 then 2 else 0
    WrapExternalYuvData := fun _ => true
    ProcessBuffers := fun _ timing buffer => (true, { buffer with timestamp := timing.timestamp }) }

/-- A stereo 44100 Hz AAC config with 1024 frames of codec delay. -/
def exampleConfig : DecoderConfig :=
  { is_encrypted := false, extra_data := [18, 16], audio_codec := AudioCodec.kAAC,
    channel_layout := 3, channels := 2, samples_per_second := 44100, codec_delay := 1024,
    platform_media_ffmpeg_demuxer_ := false, video_codec := VideoCodec.other 0,
    profile := -1, coded_width := 0, coded_height := 0 }

/-- An input buffer with the given bytes and timestamp. -/
def exampleBuffer (data : List Nat) (timestamp : Int) : DecoderBuffer :=
  { end_of_stream := false, data := data,
    time_info := { timestamp := timestamp, duration := 23220, discard_front := 0,
                   discard_back := 0 } }

/-- The end-of-stream buffer. -/
def exampleEndOfStream : DecoderBuffer :=
  { end_of_stream := true, data := [],
    time_info := { timestamp := 0, duration := 0, discard_front := 0, discard_back := 0 } }

/-- The engine after `Initialize` on `examplePlatform` with `exampleConfig`. -/
def exampleReady : Engine :=
  match Initialize examplePlatform StreamType.AUDIO 4 exampleConfig (some 7) WMFDecoderImpl with
  | .ok (_, s) => s
  | .error _ => WMFDecoderImpl

/-- Calls made by `ProcessInput`: building the input sample and submitting it. -/
def Call.isInputPath (c : Call) : Bool :=
  c.isInputSample ||
  match c with
  | .ProcessInput _ => true
  | _ => false

/-- The platform `examplePlatform` with a transform that offers no output type at all. -/
def exhaustedPlatform : Env :=
  { examplePlatform with
    hr := fun history c =>
      match c with
      | .GetOutputAvailableType _ => MF_E_NO_MORE_TYPES
      | _ => examplePlatform.hr history c }

/-- The platform `examplePlatform` with a transform whose only output type is
floating-point PCM (`MFAudioFormat_Float`). -/
def floatOnlyPlatform : Env :=
  { examplePlatform with guid := fun _ => GUID.MFAudioFormat_Float }

/-- The platform `examplePlatform` with a transform that accepts no input. -/
def rejectingPlatform : Env :=
  { examplePlatform with
    hr := fun history c =>
      match c with
      | .ProcessInput _ => MF_E_NOTACCEPTING
      | _ => examplePlatform.hr history c }

/-- An H.264 config of coded size 300 x 200. -/
def exampleVideoConfig : DecoderConfig :=
  { is_encrypted := false, extra_data := [], audio_codec := AudioCodec.other 0,
    channel_layout := 0, channels := 0, samples_per_second := 0, codec_delay := 0,
    platform_media_ffmpeg_demuxer_ := false, video_codec := VideoCodec.kH264,
    profile := 1, coded_width := 300, coded_height := 200 }

/-- The engine after `ProcessInput` of an input with the given bytes, on
`examplePlatform` from `exampleReady`. -/
def exampleSubmitted (data : List Nat) : Engine :=
  match ProcessInput examplePlatform StreamType.AUDIO (exampleBuffer data 100) exampleReady with
  | .ok (_, s) => s
  | .error _ => WMFDecoderImpl

/-- The engine after one `ProcessOutput` step from `s` on `examplePlatform`. -/
def examplePolled (s : Engine) : Engine :=
  match ProcessOutput examplePlatform StreamType.AUDIO 4 s with
  | .ok (_, s) => s
  | .error _ => WMFDecoderImpl

/-! ## Runs of calls -/

/-- A call on the engine's interface. -/
inductive EngineCall
  | Initialize (config : DecoderConfig) (output_cb : Option OutputCB)
  | Decode (buffer : DecoderBuffer)
  | Reset
  deriving DecidableEq, Repr

/-- One call on the engine; the status an `Initialize` reports is dropped. -/
def applyCall (E : Env) (st : StreamType) (fuel : Nat) :
    EngineCall → Engine → Except Fault Engine
  | .Initialize config output_cb, s =>
    match Initialize E st fuel config output_cb s with
    | .error f => .error f
    | .ok (_, s) => .ok s
  | .Decode buffer, s => Decode E st fuel buffer s
  | .Reset, s => Reset E st s

/-- A sequence of calls on the engine, one after the other. -/
def run (E : Env) (st : StreamType) (fuel : Nat) :
    List EngineCall → Engine → Except Fault Engine
  | [], s => .ok s
  | c :: rest, s =>
    match applyCall E st fuel c s with
    | .error f => .error f
    | .ok s => run E st fuel rest s

/-- A sequence of `Decode` calls, one per buffer. -/
def decodeAll (E : Env) (st : StreamType) (fuel : Nat) (buffers : List DecoderBuffer)
    (s : Engine) : Except Fault Engine :=
  run E st fuel (buffers.map EngineCall.Decode) s

/-- The timings handed to the discard helper since it was made, oldest first. -/
def pairedTimings (s : Engine) : List TimeInfo :=
  match s.discard_helper_ with
  | some helper => helper.processed.map Prod.fst
  | none => []

/-- The number of output-callback tasks posted so far. -/
def dispatched (s : Engine) : Nat :=
  s.tasks.countP Task.isOutput

/-- The timing a `Decode` call of `buffer` queues: that of the buffer when the
transform accepts it, none for end of stream or a failed submission. -/
def acceptedTiming (E : Env) (st : StreamType) (buffer : DecoderBuffer) (s : Engine) :
    List TimeInfo :=
  if buffer.end_of_stream then []
  else
    match ProcessInput E st buffer s with
    | .ok (hr, _) => if SUCCEEDED hr then [buffer.time_info] else []
    | .error _ => []

/-- The timings of the successfully submitted inputs of a sequence of `Decode`
calls, in the order of submission. -/
def acceptedTimings (E : Env) (st : StreamType) (fuel : Nat) :
    List DecoderBuffer → Engine → List TimeInfo
  | [], _ => []
  | buffer :: rest, s =>
    acceptedTiming E st buffer s ++
      match Decode E st fuel buffer s with
      | .ok s => acceptedTimings E st fuel rest s
      | .error _ => []

/-- Whether a call leaves a transform handle in place: every call does, except
an `Initialize` whose config is accepted and whose transform cannot be made. -/
def callKeepsTransform (E : Env) (st : StreamType) (c : EngineCall) (s : Engine) :
    Bool :=
  match c with
  | .Initialize config _ =>
    !(IsValidConfig E st s.calls config).1 ||
      (CreateWMFDecoder E st s.calls config).1.isSome
  | _ => true

/-- Whether every call of a run leaves a transform handle in place. -/
def keepsTransform (E : Env) (st : StreamType) (fuel : Nat) :
    List EngineCall → Engine → Bool
  | [], _ => true
  | c :: rest, s =>
    callKeepsTransform E st c s &&
      match applyCall E st fuel c s with
      | .ok s => keepsTransform E st fuel rest s
      | .error _ => true

/-- The platform `examplePlatform` on which only the first transform can be
made: `CreateInstance` fails once the history holds a `CreateInstance`. -/
def singleTransformPlatform : Env :=
  { examplePlatform with
    hr := fun history c =>
      match c with
      | .CreateInstance =>
        if history.any (fun c => decide (c = Call.CreateInstance)) then MF_E_UNEXPECTED
        else S_OK
      | _ => examplePlatform.hr history c }

/-- The platform `examplePlatform` with a transform that refuses the inputs
whose first byte is 0. -/
def pickyPlatform : Env :=
  { examplePlatform with
    hr := fun history c =>
      match c with
      | .ProcessInput sample =>
        match sample.data with
        | 0 :: _ => MF_E_NOTACCEPTING
        | _ => S_OK
      | _ => examplePlatform.hr history c }

/-- The platform `examplePlatform` with a discard helper that drops every unit. -/
def discardingPlatform : Env :=
  { examplePlatform with ProcessBuffers := fun _ _ buffer => (false, buffer) }

/-- The engine after `Initialize` on `examplePlatform` with `exampleConfig` and
no output callback. -/
def exampleNoCallback : Engine :=
  match Initialize examplePlatform StreamType.AUDIO 4 exampleConfig none WMFDecoderImpl with
  | .ok (_, s) => s
  | .error _ => WMFDecoderImpl

/-- The platform `examplePlatform` with an H.264 transform that offers one YV12
output type. -/
def exampleVideoPlatform : Env :=
  { examplePlatform with guid := fun _ => GUID.MFVideoFormat_YV12 }

/-- The engine when the transform has answered a poll: the calls of a
`ProcessOutput` step up to `IMFTransform::ProcessOutput` are in the history. -/
def polled (s : Engine) : Engine :=
  { s with calls := s.calls ++ [Call.ConvertToContiguousBuffer] ++
      [Call.SetCurrentLength 0] ++ [Call.ProcessOutput] }

/-- The transform's answer to the poll of a `ProcessOutput` step from `s`. -/
def pollAnswer (E : Env) (s : Engine) : HRESULT :=
  E.hr (s.calls ++ [Call.ConvertToContiguousBuffer] ++ [Call.SetCurrentLength 0])
    Call.ProcessOutput

/-- The end of the `S_OK` case of `ProcessOutput`, after `ProcessBuffer` has
returned `accepted`: the result of the step and the engine afterwards. -/
def dispatchUnit (st : StreamType) (accepted : Bool) (output : OutputType st)
    (s : Engine) : HRESULT × Engine :=
  if accepted then
    match s.output_cb_ with
    | some cb =>
      (S_OK, { s with tasks := s.tasks ++ [Task.output_cb cb (toOutputBuffer st output)] })
    | none => (E_ABORT, s)
  else (S_OK, s)

/-- What a stretch of audio decoding does to the pairing of timings with
units: the paired timings followed by the queue grow by `extra` at the back,
timings only move from the queue to the paired ones, and no more tasks are
dispatched than timings are paired. -/
structure PairingFrame (extra : List TimeInfo) (s s' : Engine) : Prop where
  total : pairedTimings s' ++ s'.queued_input_timing_ =
    pairedTimings s ++ s.queued_input_timing_ ++ extra
  grows : pairedTimings s <+: pairedTimings s'
  bound : dispatched s' + (pairedTimings s).length ≤ dispatched s + (pairedTimings s').length

/-- The platform `examplePlatform` with a transform that produces two units
for every input it accepted: a poll is answered with one unit as long as fewer
than twice as many polls as submissions have been made. -/
def prolificPlatform : Env :=
  { examplePlatform with
    hr := fun history c =>
      match c with
      | .ProcessOutput =>
        if history.count Call.ProcessOutput <
            2 * history.countP (fun c => match c with
              | .ProcessInput _ => true
              | _ => false) then S_OK
        else MF_E_TRANSFORM_NEED_MORE_INPUT
      | _ => examplePlatform.hr history c }

/-- The engine after `Initialize` for video on `exampleVideoPlatform` with
`exampleVideoConfig`. -/
def exampleVideoReady : Engine :=
  match Initialize exampleVideoPlatform StreamType.VIDEO 4 exampleVideoConfig (some 7)
      WMFDecoderImpl with
  | .ok (_, s) => s
  | .error _ => WMFDecoderImpl

/-- The engine on `prolificPlatform` after one input was submitted from
`exampleReady` and the first of its two units was handled: the timing queue is
empty and the transform has another unit. -/
def exampleOverrun : Engine :=
  match ProcessInput prolificPlatform StreamType.AUDIO (exampleBuffer [1] 100) exampleReady with
  | .error _ => WMFDecoderImpl
  | .ok (_, s) =>
    match ProcessOutput prolificPlatform StreamType.AUDIO 4 s with
    | .ok (_, s) => s
    | .error _ => WMFDecoderImpl

/-- The engine after `ProcessInput` of an input with the given bytes, on
`examplePlatform` from `exampleNoCallback`. -/
def exampleNoCallbackSubmitted (data : List Nat) : Engine :=
  match ProcessInput examplePlatform StreamType.AUDIO (exampleBuffer data 100)
      exampleNoCallback with
  | .ok (_, s) => s
  | .error _ => WMFDecoderImpl

/-! ## Vocabulary of output-type negotiation -/

/-- The subtype `SetOutputMediaTypeInternal` takes: integer PCM for audio, YV12
for video. -/
def acceptedSubtype (st : StreamType) : GUID :=
  match st with
  | StreamType.AUDIO => GUID.MFAudioFormat_PCM
  | StreamType.VIDEO => GUID.MFVideoFormat_YV12

/-- The calls of `k` rounds of the candidate loop that pass over the candidates
`i`, `i + 1`, ...: each is fetched and asked for its subtype, none is set. -/
def skippedCalls : Nat → Nat → List Call
  | _, 0 => []
  | i, k + 1 =>
    Call.GetOutputAvailableType i :: Call.GetGUID AttrKey.MF_MT_SUBTYPE :: skippedCalls (i + 1) k

/-- The stream info `SetOutputMediaType` reads after the candidate loop has left
the history `calls`. -/
def outputStreamInfo (E : Env) (calls : List Call) : MFT_STREAM_INFO :=
  { dwFlags := dword (E.stream_info calls).dwFlags
    cbSize := dword (E.stream_info calls).cbSize
    cbAlignment := dword (E.stream_info calls).cbAlignment }

/-- Whether the stream info says the transform makes the output samples. -/
def createsSamples (info : MFT_STREAM_INFO) : Bool :=
  decide ((info.dwFlags &&&
    (MFT_OUTPUT_STREAM_PROVIDES_SAMPLES ||| MFT_OUTPUT_STREAM_CAN_PROVIDE_SAMPLES)) ≠ 0)

/-- The platform `examplePlatform` with a transform that offers three output
types: floating-point PCM, integer PCM, floating-point PCM. -/
def mixedPlatform : Env :=
  { examplePlatform with
    hr := fun history c =>
      match c with
      | .GetOutputAvailableType i => if i < 3 then S_OK else MF_E_NO_MORE_TYPES
      | _ => examplePlatform.hr history c
    guid := fun history =>
      match history.getLast? with
      | some (Call.GetOutputAvailableType 1) => GUID.MFAudioFormat_PCM
      | _ => GUID.MFAudioFormat_Float }

/-- Whether a value is that of a `LONG`. -/
def fitsLong (x : Int) : Prop := -2147483648 ≤ x ∧ x < 2147483648

/-! ## Vocabulary of the output sample, the divisors and the planes -/

/-- The platform `examplePlatform` with a transform that provides the output
samples itself (`MFT_OUTPUT_STREAM_PROVIDES_SAMPLES`). -/
def providingPlatform : Env :=
  { examplePlatform with
    stream_info := fun _ =>
      { dwFlags := MFT_OUTPUT_STREAM_PROVIDES_SAMPLES, cbSize := 4096, cbAlignment := 16 } }

/-- The platform `examplePlatform` with a transform whose PCM output type reports
4 bits per sample. -/
def fourBitPlatform : Env :=
  { examplePlatform with
    uint32 := fun history =>
      match history.getLast? with
      | some (Call.SetOutputType _) => 44100
      | some (Call.GetUINT32 AttrKey.MF_MT_AUDIO_SAMPLES_PER_SECOND) => 2
      | _ => 4 }

/-- The platform `examplePlatform` with a transform whose PCM output type reports
9 channels, a count for which `GuessChannelLayout` answers the layout 0, of no
channel. -/
def nineChannelPlatform : Env :=
  { examplePlatform with
    uint32 := fun history =>
      match history.getLast? with
      | some (Call.SetOutputType _) => 44100
      | some (Call.GetUINT32 AttrKey.MF_MT_AUDIO_SAMPLES_PER_SECOND) => 9
      | _ => 16 }

/-- The three planes of a frame of `rows` rows lie inside the bytes the frame
holds: the Y plane (`rows` rows), the V plane and the U plane (`rows / 2` rows
each) start at an offset that is not negative and end at or before the end of
the data. -/
def planesWithin (frame : VideoFrame) (rows : Int) : Bool :=
  decide (0 ≤ frame.y_offset ∧ frame.y_offset + rows * frame.y_stride ≤ frame.data.length ∧
    0 ≤ frame.v_offset ∧ frame.v_offset + rows / 2 * frame.v_stride ≤ frame.data.length ∧
    0 ≤ frame.u_offset ∧ frame.u_offset + rows / 2 * frame.u_stride ≤ frame.data.length)

/-- A 16 x 16 H.264 config. -/
def smallVideoConfig : DecoderConfig :=
  { exampleVideoConfig with coded_width := 16, coded_height := 16 }

/-! ## Lemmas -/

/-! ### Extensions of a list -/

theorem ExtendsBy.nil {α : Type} (P : α → Bool) (l : List α) : ExtendsBy P l l :=
  ⟨[], by simp, by simp⟩

theorem ExtendsBy.snoc {α : Type} {P : α → Bool} {l l' : List α} (c : α)
    (h : ExtendsBy P l l') (hc : P c = true) : ExtendsBy P l (l' ++ [c]) := by
  obtain ⟨extra, rfl, hall⟩ := h
  refine ⟨extra ++ [c], by simp, ?_⟩
  intro x hx
  rcases List.mem_append.mp hx with hx | hx
  · exact hall x hx
  · simp at hx; subst hx; exact hc

theorem ExtendsBy.append {α : Type} {P : α → Bool} {l l' l'' : List α}
    (h : ExtendsBy P l l') (h' : ExtendsBy P l' l'') : ExtendsBy P l l'' := by
  obtain ⟨e, rfl, he⟩ := h
  obtain ⟨e', rfl, he'⟩ := h'
  refine ⟨e ++ e', by simp, ?_⟩
  intro x hx
  rcases List.mem_append.mp hx with hx | hx
  · exact he x hx
  · exact he' x hx

theorem ExtendsBy.mono {α : Type} {P Q : α → Bool} {l l' : List α}
    (hPQ : ∀ c, P c = true → Q c = true) (h : ExtendsBy P l l') : ExtendsBy Q l l' := by
  obtain ⟨e, rfl, he⟩ := h
  exact ⟨e, rfl, fun c hc => hPQ c (he c hc)⟩

/-! ### What negotiation and draining leave alone -/

theorem NegotiationFrame.idle (s : Engine) : NegotiationFrame s s :=
  ⟨rfl, rfl, rfl, rfl, rfl, rfl, rfl, ExtendsBy.nil _ _⟩

theorem NegotiationFrame.seq {s s' s'' : Engine} (h : NegotiationFrame s s')
    (h' : NegotiationFrame s' s'') : NegotiationFrame s s'' :=
  ⟨h'.config_.trans h.config_, h'.decoder_.trans h.decoder_, h'.output_cb_.trans h.output_cb_,
   h'.queued_input_timing_.trans h.queued_input_timing_,
   h'.discard_helper_.trans h.discard_helper_,
   h'.input_stream_info_.trans h.input_stream_info_, h'.tasks.trans h.tasks,
   h.calls.append h'.calls⟩

theorem SUCCEEDED_eq_not_FAILED (hr : Int) : SUCCEEDED hr = !FAILED hr := by
  unfold SUCCEEDED FAILED
  by_cases h : hr < 0
  · have : ¬ (0 ≤ hr) := not_le.mpr h
    simp [h, this]
  · have : 0 ≤ hr := not_lt.mp h
    simp [h, this]

theorem SetOutputMediaTypeInternal_frame (E : Env) (st : StreamType) (g : GUID) (i : Nat)
    (s s' : Engine) (hr : HRESULT)
    (h : SetOutputMediaTypeInternal E st g i s = .ok (hr, s')) : NegotiationFrame s s' := by
  unfold SetOutputMediaTypeInternal invoke at h
  cases st <;> simp only [] at h <;> (repeat' split at h) <;>
    (try simp only [Except.ok.injEq, Prod.mk.injEq, reduceCtorEq] at h) <;>
    obtain ⟨-, rfl⟩ := h <;>
    refine ⟨rfl, rfl, rfl, rfl, rfl, rfl, rfl, ?_⟩ <;>
    first
      | exact ExtendsBy.nil _ _
      | exact (ExtendsBy.nil _ _).snoc _ rfl
      | exact ((ExtendsBy.nil _ _).snoc _ rfl).snoc _ rfl
      | exact (((ExtendsBy.nil _ _).snoc _ rfl).snoc _ rfl).snoc _ rfl
      | exact ((((ExtendsBy.nil _ _).snoc _ rfl).snoc _ rfl).snoc _ rfl).snoc _ rfl

theorem CreateSample_calls (E : Env) (size : Nat) (alignment : Int) (calls calls' : List Call)
    (r : Option IMFSample) (h : CreateSample E size alignment calls = (r, calls')) :
    ExtendsBy Call.isOutputNegotiation calls calls' := by
  unfold CreateSample invoke at h
  simp only [] at h
  (repeat' split at h) <;> simp only [Prod.mk.injEq] at h <;> obtain ⟨-, rfl⟩ := h <;>
    first
      | exact (ExtendsBy.nil _ _).snoc _ rfl
      | exact ((ExtendsBy.nil _ _).snoc _ rfl).snoc _ rfl
      | exact (((ExtendsBy.nil _ _).snoc _ rfl).snoc _ rfl).snoc _ rfl

theorem outputTypeStep_frame (E : Env) (st : StreamType) (i : Nat) (s s' : Engine)
    (x : TypeSearch) (h : outputTypeStep E st i s = .ok (x, s')) : NegotiationFrame s s' := by
  unfold outputTypeStep invoke at h
  simp only [] at h
  split at h
  · simp at h
  · split at h
    · simp only [Except.ok.injEq, Prod.mk.injEq] at h
      obtain ⟨-, rfl⟩ := h
      exact ⟨rfl, rfl, rfl, rfl, rfl, rfl, rfl, (ExtendsBy.nil _ _).snoc _ rfl⟩
    · split at h
      · simp only [Except.ok.injEq, Prod.mk.injEq] at h
        obtain ⟨-, rfl⟩ := h
        exact ⟨rfl, rfl, rfl, rfl, rfl, rfl, rfl,
          ((ExtendsBy.nil _ _).snoc _ rfl).snoc _ rfl⟩
      · have base : NegotiationFrame s
            { s with calls := s.calls ++ [Call.GetOutputAvailableType i] ++
                [Call.GetGUID AttrKey.MF_MT_SUBTYPE] } :=
          ⟨rfl, rfl, rfl, rfl, rfl, rfl, rfl, ((ExtendsBy.nil _ _).snoc _ rfl).snoc _ rfl⟩
        split at h
        · simp at h
        · rename_i hr1 s1 hint
          have f1 := SetOutputMediaTypeInternal_frame _ _ _ _ _ _ _ hint
          (repeat' split at h) <;> simp only [Except.ok.injEq, Prod.mk.injEq] at h <;>
            obtain ⟨-, rfl⟩ := h <;> exact base.seq f1

theorem outputTypeLoop_frame (E : Env) (st : StreamType) (n : Nat) :
    ∀ (i : Nat) (s s' : Engine) (x : TypeSearch),
      outputTypeLoop E st n i s = .ok (x, s') → NegotiationFrame s s' := by
  induction n with
  | zero => intro i s s' x h; simp [outputTypeLoop] at h
  | succ n ih =>
    intro i s s' x h
    rw [outputTypeLoop] at h
    split at h
    · simp at h
    · rename_i s1 hstep
      exact (outputTypeStep_frame _ _ _ _ _ _ hstep).seq (ih _ _ _ _ h)
    · rename_i x1 s1 hne hstep
      simp only [Except.ok.injEq, Prod.mk.injEq] at h
      obtain ⟨-, rfl⟩ := h
      exact outputTypeStep_frame _ _ _ _ _ _ hstep

theorem SetOutputMediaType_frame (E : Env) (st : StreamType) (fuel : Nat)
    (s s' : Engine) (b : Bool)
    (h : SetOutputMediaType E st fuel s = .ok (b, s')) : NegotiationFrame s s' := by
  unfold SetOutputMediaType invoke at h
  split at h
  · simp at h
  · rename_i s1 hloop
    have f1 := outputTypeLoop_frame _ _ _ _ _ _ _ hloop
    simp only [Except.ok.injEq, Prod.mk.injEq] at h
    obtain ⟨-, rfl⟩ := h
    exact f1
  · rename_i x1 s1 hne hloop
    have f1 := outputTypeLoop_frame _ _ _ _ _ _ _ hloop
    split at h
    · simp at h
    · simp only [] at h
      split at h
      · simp only [Except.ok.injEq, Prod.mk.injEq] at h
        obtain ⟨-, rfl⟩ := h
        exact f1.seq ⟨rfl, rfl, rfl, rfl, rfl, rfl, rfl, (ExtendsBy.nil _ _).snoc _ rfl⟩
      · split at h
        · cases hcs : CreateSample E
              (CalculateOutputBufferSize st
                { dwFlags := dword (E.stream_info s1.calls).dwFlags,
                  cbSize := dword (E.stream_info s1.calls).cbSize,
                  cbAlignment := dword (E.stream_info s1.calls).cbAlignment })
              (CalculateBufferAlignment (dword (E.stream_info s1.calls).cbAlignment))
              (s1.calls ++ [Call.GetOutputStreamInfo]) with
          | mk sample calls2 =>
            have hc := CreateSample_calls _ _ _ _ _ _ hcs
            rw [hcs] at h
            simp only [] at h
            have f2 : NegotiationFrame s1 { s1 with output_sample_ := sample, calls := calls2 } :=
              ⟨rfl, rfl, rfl, rfl, rfl, rfl, rfl,
                ((ExtendsBy.nil _ _).snoc _ rfl).append hc⟩
            split at h <;> simp only [Except.ok.injEq, Prod.mk.injEq] at h <;>
              obtain ⟨-, rfl⟩ := h <;> exact f1.seq f2
        · simp only [Except.ok.injEq, Prod.mk.injEq] at h
          obtain ⟨-, rfl⟩ := h
          exact f1.seq ⟨rfl, rfl, rfl, rfl, rfl, rfl, rfl, (ExtendsBy.nil _ _).snoc _ rfl⟩

theorem DrainFrame.still (s : Engine) : DrainFrame s s :=
  ⟨rfl, rfl, rfl, rfl, List.suffix_refl _, ExtendsBy.nil _ _, ExtendsBy.nil _ _⟩

theorem DrainFrame.andThen {s s' s'' : Engine} (h : DrainFrame s s')
    (h' : DrainFrame s' s'') : DrainFrame s s'' :=
  ⟨h'.config_.trans h.config_, h'.decoder_.trans h.decoder_, h'.output_cb_.trans h.output_cb_,
   h'.input_stream_info_.trans h.input_stream_info_,
   h'.queued_input_timing_.trans h.queued_input_timing_,
   h.tasks.append h'.tasks, h.calls.append h'.calls⟩

theorem NegotiationFrame.toDrainFrame {s s' : Engine} (h : NegotiationFrame s s') :
    DrainFrame s s' :=
  ⟨h.config_, h.decoder_, h.output_cb_, h.input_stream_info_,
   by rw [h.queued_input_timing_], by rw [h.tasks]; exact ExtendsBy.nil _ _,
   h.calls.mono (fun c hc => by simp [Call.isOutputPath, hc])⟩

theorem CreateOutputBufferInternal_calls (E : Env) (st : StreamType) (s : Engine)
    (data : List Nat) (data_size : Nat) (timestamp : Int) (calls calls' : List Call)
    (r : Option (OutputType st))
    (h : CreateOutputBufferInternal E st s data data_size timestamp calls = .ok (r, calls')) :
    ExtendsBy Call.isOutputPath calls calls' := by
  unfold CreateOutputBufferInternal invoke at h
  cases st <;> simp only [] at h <;> (repeat' split at h) <;>
    (try simp only [Except.ok.injEq, Prod.mk.injEq, reduceCtorEq] at h) <;>
    obtain ⟨-, rfl⟩ := h <;>
    first
      | exact ExtendsBy.nil _ _
      | exact (ExtendsBy.nil _ _).snoc _ rfl

theorem CreateOutputBuffer_calls (E : Env) (st : StreamType) (s : Engine)
    (pSample : Option IMFSample) (calls calls' : List Call) (r : Option (OutputType st))
    (h : CreateOutputBuffer E st s pSample calls = .ok (r, calls')) :
    ExtendsBy Call.isOutputPath calls calls' := by
  unfold CreateOutputBuffer invoke at h
  split at h
  · simp at h
  · simp only [] at h
    split at h
    · simp only [Except.ok.injEq, Prod.mk.injEq] at h
      obtain ⟨-, rfl⟩ := h
      exact (ExtendsBy.nil _ _).snoc _ rfl
    · split at h
      · simp only [Except.ok.injEq, Prod.mk.injEq] at h
        obtain ⟨-, rfl⟩ := h
        exact ((ExtendsBy.nil _ _).snoc _ rfl).snoc _ rfl
      · split at h
        · simp only [Except.ok.injEq, Prod.mk.injEq] at h
          obtain ⟨-, rfl⟩ := h
          exact (((ExtendsBy.nil _ _).snoc _ rfl).snoc _ rfl).snoc _ rfl
        · have base : ExtendsBy Call.isOutputPath calls
              (calls ++ [Call.GetSampleTime] ++ [Call.ConvertToContiguousBuffer] ++ [Call.Lock]) :=
            (((ExtendsBy.nil _ _).snoc _ rfl).snoc _ rfl).snoc _ rfl
          split at h
          · simp at h
          · rename_i output calls1 hint
            have h1 := CreateOutputBufferInternal_calls _ _ _ _ _ _ _ _ _ hint
            split at h <;> simp only [Except.ok.injEq, Prod.mk.injEq] at h <;>
              obtain ⟨-, rfl⟩ := h <;> exact (base.append h1).snoc _ rfl

theorem ProcessBuffer_frame (E : Env) (st : StreamType) (output output' : OutputType st)
    (s s' : Engine) (b : Bool)
    (h : ProcessBuffer E st output s = .ok (b, output', s')) :
    DrainFrame s s' ∧ s'.tasks = s.tasks ∧ s'.calls = s.calls := by
  unfold ProcessBuffer at h
  cases st <;> simp only [] at h
  · split at h
    · simp only [Except.ok.injEq, Prod.mk.injEq] at h
      obtain ⟨-, -, rfl⟩ := h
      exact ⟨DrainFrame.still _, rfl, rfl⟩
    · rename_i t rest hq
      split at h
      · simp at h
      · simp only [Except.ok.injEq, Prod.mk.injEq] at h
        obtain ⟨-, -, rfl⟩ := h
        refine ⟨⟨rfl, rfl, rfl, rfl, ?_, ExtendsBy.nil _ _, ExtendsBy.nil _ _⟩, rfl, rfl⟩
        simp only [hq]
        exact List.suffix_cons _ _
  · simp only [Except.ok.injEq, Prod.mk.injEq] at h
    obtain ⟨-, -, rfl⟩ := h
    exact ⟨DrainFrame.still _, rfl, rfl⟩

theorem ProcessOutput_frame (E : Env) (st : StreamType) (fuel : Nat) (s s' : Engine)
    (hr : HRESULT) (h : ProcessOutput E st fuel s = .ok (hr, s')) : DrainFrame s s' := by
  unfold ProcessOutput invoke at h
  split at h
  · simp at h
  · simp only [] at h
    split at h
    · simp only [Except.ok.injEq, Prod.mk.injEq] at h
      obtain ⟨-, rfl⟩ := h
      exact ⟨rfl, rfl, rfl, rfl, List.suffix_refl _, ExtendsBy.nil _ _,
        (ExtendsBy.nil _ _).snoc _ rfl⟩
    · split at h
      · simp only [Except.ok.injEq, Prod.mk.injEq] at h
        obtain ⟨-, rfl⟩ := h
        exact ⟨rfl, rfl, rfl, rfl, List.suffix_refl _, ExtendsBy.nil _ _,
          ((ExtendsBy.nil _ _).snoc _ rfl).snoc _ rfl⟩
      · split at h
        · simp at h
        · have base : DrainFrame s
              { s with calls := s.calls ++ [Call.ConvertToContiguousBuffer] ++
                  [Call.SetCurrentLength 0] ++ [Call.ProcessOutput] } :=
            ⟨rfl, rfl, rfl, rfl, List.suffix_refl _, ExtendsBy.nil _ _,
              (((ExtendsBy.nil _ _).snoc _ rfl).snoc _ rfl).snoc _ rfl⟩
          split at h
          · split at h
            · simp at h
            · rename_i calls1 hcob
              have h1 := CreateOutputBuffer_calls _ _ _ _ _ _ _ hcob
              simp only [Except.ok.injEq, Prod.mk.injEq] at h
              obtain ⟨-, rfl⟩ := h
              exact ⟨rfl, rfl, rfl, rfl, List.suffix_refl _, ExtendsBy.nil _ _,
                base.calls.append h1⟩
            · rename_i ob calls1 hcob
              have h1 := CreateOutputBuffer_calls _ _ _ _ _ _ _ hcob
              have f1 : DrainFrame s
                  { s with calls := calls1 } :=
                ⟨rfl, rfl, rfl, rfl, List.suffix_refl _, ExtendsBy.nil _ _,
                  base.calls.append h1⟩
              split at h
              · simp at h
              · rename_i ob' s2 hpb
                have f2 := (ProcessBuffer_frame _ _ _ _ _ _ _ hpb).1
                simp only [Except.ok.injEq, Prod.mk.injEq] at h
                obtain ⟨-, rfl⟩ := h
                exact f1.andThen f2
              · rename_i ob' s2 hpb
                have f2 := (ProcessBuffer_frame _ _ _ _ _ _ _ hpb).1
                split at h
                · simp only [Except.ok.injEq, Prod.mk.injEq] at h
                  obtain ⟨-, rfl⟩ := h
                  exact (f1.andThen f2).andThen
                    ⟨rfl, rfl, rfl, rfl, List.suffix_refl _,
                      (ExtendsBy.nil _ _).snoc _ rfl, ExtendsBy.nil _ _⟩
                · simp only [Except.ok.injEq, Prod.mk.injEq] at h
                  obtain ⟨-, rfl⟩ := h
                  exact f1.andThen f2
          · split at h
            · simp only [Except.ok.injEq, Prod.mk.injEq] at h
              obtain ⟨-, rfl⟩ := h
              exact base
            · split at h
              · split at h
                · simp at h
                · rename_i s2 hneg
                  have f2 := (SetOutputMediaType_frame _ _ _ _ _ _ hneg).toDrainFrame
                  simp only [Except.ok.injEq, Prod.mk.injEq] at h
                  obtain ⟨-, rfl⟩ := h
                  exact base.andThen f2
                · rename_i s2 hneg
                  have f2 := (SetOutputMediaType_frame _ _ _ _ _ _ hneg).toDrainFrame
                  simp only [Except.ok.injEq, Prod.mk.injEq] at h
                  obtain ⟨-, rfl⟩ := h
                  exact base.andThen f2
              · simp only [Except.ok.injEq, Prod.mk.injEq] at h
                obtain ⟨-, rfl⟩ := h
                exact base

/-- A step whose result is none of `S_OK`, `MF_E_UNEXPECTED` and `E_ABORT` handled no unit. -/
theorem ProcessOutput_no_unit (E : Env) (st : StreamType) (fuel : Nat) (s s' : Engine)
    (hr : HRESULT) (h : ProcessOutput E st fuel s = .ok (hr, s'))
    (h0 : hr ≠ S_OK) (h1 : hr ≠ MF_E_UNEXPECTED) (h2 : hr ≠ E_ABORT) :
    s'.tasks = s.tasks ∧ s'.queued_input_timing_ = s.queued_input_timing_ ∧
      s'.discard_helper_ = s.discard_helper_ := by
  unfold ProcessOutput invoke at h
  split at h
  · simp at h
  · simp only [] at h
    split at h
    · simp only [Except.ok.injEq, Prod.mk.injEq] at h
      obtain ⟨-, rfl⟩ := h
      exact ⟨rfl, rfl, rfl⟩
    · split at h
      · simp only [Except.ok.injEq, Prod.mk.injEq] at h
        obtain ⟨-, rfl⟩ := h
        exact ⟨rfl, rfl, rfl⟩
      · split at h
        · simp at h
        · split at h
          · rename_i hok
            exfalso
            split at h
            · simp at h
            · simp only [Except.ok.injEq, Prod.mk.injEq] at h
              exact h1 h.1.symm
            · split at h
              · simp at h
              · simp only [Except.ok.injEq, Prod.mk.injEq] at h
                exact h0 (h.1.symm.trans hok)
              · split at h
                · simp only [Except.ok.injEq, Prod.mk.injEq] at h
                  exact h0 (h.1.symm.trans hok)
                · simp only [Except.ok.injEq, Prod.mk.injEq] at h
                  exact h2 h.1.symm
          · split at h
            · simp only [Except.ok.injEq, Prod.mk.injEq] at h
              obtain ⟨-, rfl⟩ := h
              exact ⟨rfl, rfl, rfl⟩
            · split at h
              · split at h
                · simp at h
                · simp only [Except.ok.injEq, Prod.mk.injEq] at h
                  exact absurd h.1.symm h1
                · rename_i s2 hneg
                  have f2 := SetOutputMediaType_frame _ _ _ _ _ _ hneg
                  simp only [Except.ok.injEq, Prod.mk.injEq] at h
                  obtain ⟨-, rfl⟩ := h
                  exact ⟨f2.tasks, f2.queued_input_timing_, f2.discard_helper_⟩
              · simp only [Except.ok.injEq, Prod.mk.injEq] at h
                obtain ⟨-, rfl⟩ := h
                exact ⟨rfl, rfl, rfl⟩

theorem ProcessOutputLoop_frame (E : Env) (st : StreamType) (fuel n : Nat) :
    ∀ (s s' : Engine) (b : Bool),
      ProcessOutputLoop E st fuel n s = .ok (b, s') → DrainFrame s s' := by
  induction n with
  | zero => intro s s' b h; simp [ProcessOutputLoop] at h
  | succ n ih =>
    intro s s' b h
    unfold ProcessOutputLoop at h
    split at h
    · simp at h
    · rename_i hr s1 hstep
      have f1 := ProcessOutput_frame _ _ _ _ _ _ hstep
      split at h
      · split at h
        · simp only [Except.ok.injEq, Prod.mk.injEq] at h
          obtain ⟨-, rfl⟩ := h
          exact f1
        · split at h
          · exact f1.andThen (ih _ _ _ h)
          · simp only [Except.ok.injEq, Prod.mk.injEq] at h
            obtain ⟨-, rfl⟩ := h
            exact f1
      · exact f1.andThen (ih _ _ _ h)

theorem pollSteps_frame (E : Env) (st : StreamType) (fuel k : Nat) :
    ∀ (s s' : Engine) (hrs : List HRESULT),
      pollSteps E st fuel k s = .ok (hrs, s') → DrainFrame s s' := by
  induction k with
  | zero =>
    intro s s' hrs h
    simp only [pollSteps, Except.ok.injEq, Prod.mk.injEq] at h
    obtain ⟨-, rfl⟩ := h
    exact DrainFrame.still _
  | succ k ih =>
    intro s s' hrs h
    unfold pollSteps at h
    split at h
    · simp at h
    · rename_i hr s1 hstep
      have f1 := ProcessOutput_frame _ _ _ _ _ _ hstep
      split at h
      · simp at h
      · rename_i hrs1 s2 hrest
        simp only [Except.ok.injEq, Prod.mk.injEq] at h
        obtain ⟨-, rfl⟩ := h
        exact f1.andThen (ih _ _ _ hrest)

/-! ### The drain loop, step by step -/

theorem loopContinues_false_iff (hr : Int) :
    loopContinues hr = false ↔ (FAILED hr = true ∧ hr ≠ MF_E_TRANSFORM_STREAM_CHANGE) := by
  unfold loopContinues
  cases FAILED hr <;> simp

/-- The loop returns exactly when some step ends it, and then with `true` exactly when
that step's result is need-more-input. -/
theorem ProcessOutputLoop_ok_iff (E : Env) (st : StreamType) (fuel n : Nat) :
    ∀ (s s' : Engine) (b : Bool),
      ProcessOutputLoop E st fuel n s = .ok (b, s') ↔
        ∃ hrs hr, hrs.length < n ∧
          pollSteps E st fuel (hrs.length + 1) s = .ok (hrs ++ [hr], s') ∧
          (∀ x ∈ hrs, loopContinues x = true) ∧ loopContinues hr = false ∧
          b = decide (hr = MF_E_TRANSFORM_NEED_MORE_INPUT) := by
  induction n with
  | zero =>
    intro s s' b
    simp [ProcessOutputLoop]
  | succ n ih =>
    intro s s' b
    constructor
    · intro h
      unfold ProcessOutputLoop at h
      split at h
      · simp at h
      · rename_i hr s1 hstep
        by_cases hc : loopContinues hr = true
        · have hrec : ProcessOutputLoop E st fuel n s1 = .ok (b, s') := by
            unfold loopContinues at hc
            by_cases hf : FAILED hr = true
            · simp only [hf, Bool.not_true, Bool.false_or, decide_eq_true_eq] at hc
              have hne : hr ≠ MF_E_TRANSFORM_NEED_MORE_INPUT := by
                rw [hc]; decide
              simpa [hf, hne, hc] using h
            · simpa [hf] using h
          obtain ⟨hrs, hr', hlen, hp, hall, hend, hb⟩ := (ih s1 s' b).mp hrec
          refine ⟨hr :: hrs, hr', by simpa using hlen, ?_, ?_, hend, hb⟩
          · simp only [List.length_cons, List.cons_append]
            rw [pollSteps, hstep]
            simp only [hp]
          · intro x hx
            rcases List.mem_cons.mp hx with rfl | hx
            · exact hc
            · exact hall x hx
        · have hc' : loopContinues hr = false := by simpa using hc
          obtain ⟨hf, hne⟩ := (loopContinues_false_iff hr).mp hc'
          simp only [hf, if_true, hne, if_false] at h
          refine ⟨[], hr, by simp, ?_, by simp, hc', ?_⟩
          · simp only [List.length_nil, List.nil_append]
            rw [pollSteps, hstep]
            simp only [pollSteps]
            split at h <;> simp only [Except.ok.injEq, Prod.mk.injEq] at h <;>
              obtain ⟨-, rfl⟩ := h <;> rfl
          · split at h <;> simp only [Except.ok.injEq, Prod.mk.injEq] at h <;>
              obtain ⟨rfl, -⟩ := h <;> simp [*]
    · rintro ⟨hrs, hr, hlen, hp, hall, hend, hb⟩
      obtain ⟨hf, hne⟩ := (loopContinues_false_iff hr).mp hend
      cases hrs with
      | nil =>
        simp only [List.length_nil, List.nil_append] at hp
        rw [pollSteps] at hp
        split at hp
        · simp at hp
        · rename_i hr0 s1 hstep
          simp only [pollSteps, Except.ok.injEq, Prod.mk.injEq, List.cons.injEq, and_true] at hp
          obtain ⟨rfl, rfl⟩ := hp
          unfold ProcessOutputLoop
          rw [hstep]
          simp only [hf, if_true, hne, if_false]
          by_cases hn : hr0 = MF_E_TRANSFORM_NEED_MORE_INPUT <;> simp [hn, hb]
      | cons x hrs =>
        simp only [List.length_cons, List.cons_append] at hp hlen
        rw [pollSteps] at hp
        split at hp
        · simp at hp
        · rename_i hr0 s1 hstep
          split at hp
          · simp at hp
          · rename_i hrs1 s2 hrest
            simp only [Except.ok.injEq, Prod.mk.injEq, List.cons.injEq] at hp
            obtain ⟨⟨rfl, rfl⟩, rfl⟩ := hp
            have hcx := hall hr0 (List.mem_cons_self _ _)
            have hrec : ProcessOutputLoop E st fuel n s1 = .ok (b, s2) :=
              (ih s1 s2 b).mpr ⟨hrs, hr, by omega, hrest,
                fun y hy => hall y (List.mem_cons_of_mem _ hy), hend, hb⟩
            unfold ProcessOutputLoop
            rw [hstep]
            simp only []
            unfold loopContinues at hcx
            by_cases hf0 : FAILED hr0 = true
            · simp only [hf0, Bool.not_true, Bool.false_or, decide_eq_true_eq] at hcx
              have hne0 : hr0 ≠ MF_E_TRANSFORM_NEED_MORE_INPUT := by
                rw [hcx]; decide
              simpa [hf0, hne0, hcx] using hrec
            · simpa [hf0] using hrec


/-! ### More fuel gives the same result -/

theorem SetInputMediaType_calls_only (E : Env) (st : StreamType) (s s' : Engine) (b : Bool)
    (h : SetInputMediaType E st s = .ok (b, s')) : s' = { s with calls := s'.calls } := by
  unfold SetInputMediaType at h
  split at h
  · simp only [Except.ok.injEq, Prod.mk.injEq] at h
    obtain ⟨-, rfl⟩ := h
    rfl
  · split at h
    · simp at h
    · simp only [Except.ok.injEq, Prod.mk.injEq] at h
      obtain ⟨-, rfl⟩ := h
      rfl

theorem ExtendsBy.count_eq {α : Type} [DecidableEq α] {P : α → Bool} {l l' : List α} (c : α)
    (h : ExtendsBy P l l') (hc : P c = false) : l'.count c = l.count c := by
  obtain ⟨extra, rfl, hall⟩ := h
  rw [List.count_append]
  have : extra.count c = 0 := by
    rw [List.count_eq_zero]
    intro hmem
    have := hall c hmem
    rw [hc] at this
    cases this
  omega

theorem CreateSample_input_calls (E : Env) (size : Nat) (alignment : Int)
    (calls calls' : List Call) (r : Option IMFSample)
    (h : CreateSample E size alignment calls = (r, calls')) :
    ExtendsBy Call.isInputSample calls calls' := by
  unfold CreateSample invoke at h
  simp only [] at h
  (repeat' split at h) <;> simp only [Prod.mk.injEq] at h <;> obtain ⟨-, rfl⟩ := h <;>
    first
      | exact (ExtendsBy.nil _ _).snoc _ rfl
      | exact ((ExtendsBy.nil _ _).snoc _ rfl).snoc _ rfl
      | exact (((ExtendsBy.nil _ _).snoc _ rfl).snoc _ rfl).snoc _ rfl

theorem PrepareInputSample_calls (E : Env) (s : Engine) (input : DecoderBuffer)
    (calls calls' : List Call) (r : Option IMFSample)
    (h : PrepareInputSample E s input calls = (r, calls')) :
    ExtendsBy Call.isInputSample calls calls' := by
  unfold PrepareInputSample invoke at h
  simp only [] at h
  split at h
  · rename_i c1 hcs
    simp only [Prod.mk.injEq] at h
    obtain ⟨-, rfl⟩ := h
    exact CreateSample_input_calls _ _ _ _ _ _ hcs
  · rename_i smp c1 hcs
    have h0 := CreateSample_input_calls _ _ _ _ _ _ hcs
    (repeat' split at h) <;> simp only [Prod.mk.injEq] at h <;> obtain ⟨-, rfl⟩ := h
    all_goals repeat (first | exact h0 | refine ExtendsBy.snoc _ ?_ rfl)


theorem ProcessInput_returns (E : Env) (st : StreamType) (buffer : DecoderBuffer) (s : Engine)
    (hd : s.decoder_.isSome = true) : ∃ r, ProcessInput E st buffer s = .ok r := by
  unfold ProcessInput
  split
  · exact ⟨_, rfl⟩
  · split
    · rename_i hnone; simp [hnone] at hd
    · simp only []
      split <;> exact ⟨_, rfl⟩

/-- What `ProcessInput` does, by the outcome of building and submitting the sample. -/
theorem ProcessInput_spec (E : Env) (st : StreamType) (buffer : DecoderBuffer) (s s1 : Engine)
    (hr : HRESULT) (h : ProcessInput E st buffer s = .ok (hr, s1)) :
    ExtendsBy Call.isInputPath s.calls s1.calls ∧
    (∀ calls1, PrepareInputSample E s buffer s.calls = (none, calls1) →
      hr = MF_E_UNEXPECTED ∧ s1 = { s with calls := calls1 }) ∧
    (∀ sample calls1, PrepareInputSample E s buffer s.calls = (some sample, calls1) →
      hr = E.hr calls1 (Call.ProcessInput sample) ∧
      s1 = (if SUCCEEDED hr then
              RecordInput st buffer { s with calls := calls1 ++ [Call.ProcessInput sample] }
            else { s with calls := calls1 ++ [Call.ProcessInput sample] })) := by
  unfold ProcessInput invoke at h
  split at h
  · rename_i c1 hprep
    have hc := PrepareInputSample_calls _ _ _ _ _ _ hprep
    simp only [Except.ok.injEq, Prod.mk.injEq] at h
    obtain ⟨rfl, rfl⟩ := h
    refine ⟨hc.mono (fun c hc => by simp [Call.isInputPath, hc]), ?_, ?_⟩
    · intro calls1 h1
      rw [hprep] at h1
      cases h1
      exact ⟨rfl, rfl⟩
    · intro sample calls1 h1
      rw [hprep] at h1
      cases h1
  · rename_i smp c1 hprep
    have hc := PrepareInputSample_calls _ _ _ _ _ _ hprep
    have hc' : ExtendsBy Call.isInputPath s.calls (c1 ++ [Call.ProcessInput smp]) :=
      (hc.mono (fun c hc => by simp [Call.isInputPath, hc])).snoc _ rfl
    split at h
    · simp at h
    · simp only [] at h
      split at h
      · rename_i hs
        simp only [Except.ok.injEq, Prod.mk.injEq] at h
        obtain ⟨rfl, rfl⟩ := h
        refine ⟨?_, ?_, ?_⟩
        · cases st <;> exact hc'
        · intro calls1 h1
          rw [hprep] at h1
          cases h1
        · intro sample calls1 h1
          rw [hprep] at h1
          cases h1
          exact ⟨rfl, by rw [if_pos hs]⟩
      · rename_i hs
        simp only [Except.ok.injEq, Prod.mk.injEq] at h
        obtain ⟨rfl, rfl⟩ := h
        refine ⟨hc', ?_, ?_⟩
        · intro calls1 h1
          rw [hprep] at h1
          cases h1
        · intro sample calls1 h1
          rw [hprep] at h1
          cases h1
          exact ⟨rfl, by rw [if_neg hs]⟩


theorem ProcessInput_fields (E : Env) (st : StreamType) (buffer : DecoderBuffer) (s s1 : Engine)
    (hr : HRESULT) (h : ProcessInput E st buffer s = .ok (hr, s1)) :
    s1 = { s with calls := s1.calls, queued_input_timing_ := s1.queued_input_timing_ } := by
  obtain ⟨-, hnone, hsome⟩ := ProcessInput_spec _ _ _ _ _ _ h
  cases hp : PrepareInputSample E s buffer s.calls with
  | mk o calls1 =>
    cases o with
    | none => rw [(hnone calls1 hp).2]
    | some sample =>
      have h2 := (hsome sample calls1 hp).2
      by_cases hs : SUCCEEDED hr = true
      · rw [if_pos hs] at h2
        rw [h2]
        cases st <;> rfl
      · rw [if_neg hs] at h2
        rw [h2]

/-! ### Format changes -/

/-- A step either handles no unit, or builds one, passes it to `ProcessBuffer`
and ends as `dispatchUnit` says. -/
theorem ProcessOutput_cases (E : Env) (st : StreamType) (fuel : Nat) (s s' : Engine)
    (hr : HRESULT) (h : ProcessOutput E st fuel s = .ok (hr, s')) :
    (hr ≠ S_OK ∧ s'.tasks = s.tasks ∧
      s'.queued_input_timing_ = s.queued_input_timing_ ∧
      s'.discard_helper_ = s.discard_helper_) ∨
    (pollAnswer E s = S_OK ∧
      ∃ output calls1 accepted output' s2,
        CreateOutputBuffer E st (polled s) (polled s).output_sample_ (polled s).calls =
          .ok (some output, calls1) ∧
        ProcessBuffer E st output { polled s with calls := calls1 } =
          .ok (accepted, output', s2) ∧
        (hr, s') = dispatchUnit st accepted output' s2) := by
  unfold ProcessOutput invoke at h
  split at h
  · simp at h
  · simp only [] at h
    split at h
    · rename_i hf
      simp only [Except.ok.injEq, Prod.mk.injEq] at h
      obtain ⟨rfl, rfl⟩ := h
      refine Or.inl ⟨?_, rfl, rfl, rfl⟩
      intro h0
      rw [h0] at hf
      exact absurd hf (by decide)
    · split at h
      · rename_i hf
        simp only [Except.ok.injEq, Prod.mk.injEq] at h
        obtain ⟨rfl, rfl⟩ := h
        refine Or.inl ⟨?_, rfl, rfl, rfl⟩
        intro h0
        rw [h0] at hf
        exact absurd hf (by decide)
      · split at h
        · simp at h
        · split at h
          · rename_i hok
            split at h
            · simp at h
            · simp only [Except.ok.injEq, Prod.mk.injEq] at h
              obtain ⟨rfl, rfl⟩ := h
              exact Or.inl ⟨by decide, rfl, rfl, rfl⟩
            · rename_i ob calls1 hcob
              refine Or.inr ⟨hok, ?_⟩
              split at h
              · simp at h
              · rename_i ob' s2 hpb
                simp only [Except.ok.injEq, Prod.mk.injEq] at h
                obtain ⟨rfl, rfl⟩ := h
                exact ⟨ob, calls1, false, ob', _, hcob, hpb, by rw [hok]; rfl⟩
              · rename_i ob' s2 hpb
                split at h
                · rename_i cb hcb
                  simp only [Except.ok.injEq, Prod.mk.injEq] at h
                  obtain ⟨rfl, rfl⟩ := h
                  exact ⟨ob, calls1, true, ob', _, hcob, hpb, by rw [hok]; simp only [dispatchUnit, hcb, if_true]⟩
                · rename_i hcb
                  simp only [Except.ok.injEq, Prod.mk.injEq] at h
                  obtain ⟨rfl, rfl⟩ := h
                  exact ⟨ob, calls1, true, ob', _, hcob, hpb, by simp only [dispatchUnit, hcb, if_true]⟩
          · rename_i hnok
            split at h
            · simp only [Except.ok.injEq, Prod.mk.injEq] at h
              obtain ⟨rfl, rfl⟩ := h
              exact Or.inl ⟨hnok, rfl, rfl, rfl⟩
            · split at h
              · split at h
                · simp at h
                · rename_i s2 hneg
                  have f2 := SetOutputMediaType_frame _ _ _ _ _ _ hneg
                  simp only [Except.ok.injEq, Prod.mk.injEq] at h
                  obtain ⟨rfl, rfl⟩ := h
                  exact Or.inl ⟨by decide, f2.tasks, f2.queued_input_timing_, f2.discard_helper_⟩
                · rename_i s2 hneg
                  have f2 := SetOutputMediaType_frame _ _ _ _ _ _ hneg
                  simp only [Except.ok.injEq, Prod.mk.injEq] at h
                  obtain ⟨rfl, rfl⟩ := h
                  exact Or.inl ⟨hnok, f2.tasks, f2.queued_input_timing_, f2.discard_helper_⟩
              · simp only [Except.ok.injEq, Prod.mk.injEq] at h
                obtain ⟨rfl, rfl⟩ := h
                exact Or.inl ⟨hnok, rfl, rfl, rfl⟩

/-- A step in which the transform answers `S_OK`, a unit is built and
`ProcessBuffer` returns, ends as `dispatchUnit` says. -/
theorem ProcessOutput_unit (E : Env) (st : StreamType) (fuel : Nat) (s s2 : Engine)
    (sample : IMFSample) (d : Nat) (output output' : OutputType st) (calls1 : List Call)
    (accepted : Bool)
    (hs : s.output_sample_ = some sample) (hd : s.decoder_ = some d)
    (h1 : FAILED (E.hr s.calls Call.ConvertToContiguousBuffer) = false)
    (h2 : FAILED (E.hr (s.calls ++ [Call.ConvertToContiguousBuffer])
      (Call.SetCurrentLength 0)) = false)
    (hok : pollAnswer E s = S_OK)
    (hcob : CreateOutputBuffer E st (polled s) (polled s).output_sample_ (polled s).calls =
      .ok (some output, calls1))
    (hpb : ProcessBuffer E st output { polled s with calls := calls1 } =
      .ok (accepted, output', s2)) :
    ProcessOutput E st fuel s = .ok (dispatchUnit st accepted output' s2) := by
  cases s
  simp only [] at hs hd
  subst hs hd
  unfold pollAnswer at hok
  unfold polled at hcob hpb
  simp only [] at hok hcob hpb h1 h2
  unfold ProcessOutput invoke
  simp only []
  rw [if_neg (by rw [h1]; decide), if_neg (by rw [h2]; decide)]
  rw [if_pos hok]
  rw [hcob]
  simp only []
  rw [hpb]
  cases accepted
  · simp only [dispatchUnit, Bool.false_eq_true, if_false]
    rw [hok]
  · simp only [dispatchUnit, if_true]
    cases hcb : s2.output_cb_ <;> simp only [hok]

/-! ### Pairing timings with units -/

theorem PairingFrame.same {s s' : Engine} (ht : s'.tasks = s.tasks)
    (hq : s'.queued_input_timing_ = s.queued_input_timing_)
    (hh : s'.discard_helper_ = s.discard_helper_) : PairingFrame [] s s' := by
  have hp : pairedTimings s' = pairedTimings s := by unfold pairedTimings; rw [hh]
  refine ⟨?_, ?_, ?_⟩
  · rw [hp, hq, List.append_nil]
  · rw [hp]
  · unfold dispatched; rw [hp, ht]

theorem PairingFrame.comp {e1 e2 : List TimeInfo} {s s' s'' : Engine}
    (h : PairingFrame e1 s s') (h' : PairingFrame e2 s' s'') :
    PairingFrame (e1 ++ e2) s s'' := by
  refine ⟨?_, h.grows.trans h'.grows, ?_⟩
  · rw [h'.total, h.total]
    simp only [List.append_assoc]
  · have := h.bound
    have := h'.bound
    omega

/-- The audio `ProcessBuffer`: on an empty queue nothing changes; otherwise the
oldest timing leaves the queue and is handed to the discard helper with the unit. -/
theorem ProcessBuffer_audio (E : Env) (output output' : AudioBuffer) (s s' : Engine)
    (b : Bool) (h : ProcessBuffer E StreamType.AUDIO output s = .ok (b, output', s')) :
    (s.queued_input_timing_ = [] ∧ b = false ∧ output' = output ∧ s' = s) ∨
    (∃ t rest helper, s.queued_input_timing_ = t :: rest ∧
      s.discard_helper_ = some helper ∧ (b, output') = E.ProcessBuffers helper t output ∧
      s' = { s with
        queued_input_timing_ := rest
        discard_helper_ := some
          { helper with processed := helper.processed ++ [(t, output)] } }) := by
  unfold ProcessBuffer at h
  simp only [] at h
  split at h
  · rename_i hq
    simp only [Except.ok.injEq, Prod.mk.injEq] at h
    obtain ⟨rfl, rfl, rfl⟩ := h
    exact Or.inl ⟨hq, rfl, rfl, rfl⟩
  · rename_i t rest hq
    split at h
    · simp at h
    · rename_i helper hh
      simp only [Except.ok.injEq, Prod.mk.injEq] at h
      obtain ⟨rfl, rfl, rfl⟩ := h
      exact Or.inr ⟨t, rest, helper, hq, hh, rfl, rfl⟩

theorem ProcessBuffer_pairing (E : Env) (output output' : AudioBuffer) (s s' : Engine)
    (b : Bool) (h : ProcessBuffer E StreamType.AUDIO output s = .ok (b, output', s')) :
    PairingFrame [] s s' ∧ s'.tasks = s.tasks ∧ s'.output_cb_ = s.output_cb_ ∧
      (b = true → (pairedTimings s').length = (pairedTimings s).length + 1) := by
  rcases ProcessBuffer_audio _ _ _ _ _ _ h with ⟨-, hb, -, rfl⟩ | ⟨t, rest, helper, hq, hh, -, rfl⟩
  · exact ⟨PairingFrame.same rfl rfl rfl, rfl, rfl, fun h => by rw [hb] at h; cases h⟩
  · have hp : pairedTimings s = helper.processed.map Prod.fst := by
      unfold pairedTimings; rw [hh]
    refine ⟨⟨?_, ?_, ?_⟩, rfl, rfl, ?_⟩
    · rw [hp, hq]
      simp [pairedTimings]
    · rw [hp]
      simp [pairedTimings]
    · rw [hp]
      simp [pairedTimings, dispatched]
    · intro _
      rw [hp]
      simp [pairedTimings]

theorem dispatchUnit_pairing (accepted : Bool) (output : AudioBuffer) (s s' : Engine)
    (hr : HRESULT) (h : (hr, s') = dispatchUnit StreamType.AUDIO accepted output s) :
    pairedTimings s' = pairedTimings s ∧
      s'.queued_input_timing_ = s.queued_input_timing_ ∧
      dispatched s' ≤ dispatched s + (if accepted then 1 else 0) := by
  unfold dispatchUnit at h
  cases accepted
  · simp only [Bool.false_eq_true, if_false, Prod.mk.injEq] at h
    obtain ⟨-, rfl⟩ := h
    exact ⟨rfl, rfl, by simp⟩
  · simp only [if_true] at h
    split at h
    · simp only [Prod.mk.injEq] at h
      obtain ⟨-, rfl⟩ := h
      refine ⟨rfl, rfl, ?_⟩
      simp [dispatched, List.countP_append, Task.isOutput]
    · simp only [Prod.mk.injEq] at h
      obtain ⟨-, rfl⟩ := h
      exact ⟨rfl, rfl, by simp⟩

theorem ProcessOutput_pairing (E : Env) (fuel : Nat) (s s' : Engine) (hr : HRESULT)
    (h : ProcessOutput E StreamType.AUDIO fuel s = .ok (hr, s')) : PairingFrame [] s s' := by
  rcases ProcessOutput_cases _ _ _ _ _ _ h with
    ⟨-, ht, hq, hh⟩ | ⟨-, output, calls1, accepted, output', s2, -, hpb, hd⟩
  · exact PairingFrame.same ht hq hh
  · obtain ⟨hp, hts, -, hb⟩ := ProcessBuffer_pairing _ _ _ _ _ _ hpb
    have hd2 : dispatched s2 = dispatched s := by unfold dispatched; rw [hts]; rfl
    obtain ⟨h1, h2, h3⟩ := dispatchUnit_pairing _ _ _ _ _ hd
    have hp0 : pairedTimings { polled s with calls := calls1 } = pairedTimings s := rfl
    have hd0 : dispatched { polled s with calls := calls1 } = dispatched s := rfl
    have ht := hp.total
    have hg := hp.grows
    have hbd := hp.bound
    rw [hp0] at ht hg hbd
    rw [hd0] at hbd
    refine ⟨?_, ?_, ?_⟩
    · rw [h1, h2, ht]
      rfl
    · rw [h1]
      exact hg
    · rw [h1]
      cases accepted
      · simp only [Bool.false_eq_true, if_false] at h3
        omega
      · have := hb rfl
        rw [hp0] at this
        simp only [if_true] at h3
        omega

theorem ProcessOutputLoop_pairing (E : Env) (fuel n : Nat) :
    ∀ (s s' : Engine) (b : Bool),
      ProcessOutputLoop E StreamType.AUDIO fuel n s = .ok (b, s') → PairingFrame [] s s' := by
  induction n with
  | zero => intro s s' b h; simp [ProcessOutputLoop] at h
  | succ n ih =>
    intro s s' b h
    unfold ProcessOutputLoop at h
    split at h
    · simp at h
    · rename_i hr s1 hstep
      have f1 := ProcessOutput_pairing _ _ _ _ _ hstep
      split at h
      · split at h
        · simp only [Except.ok.injEq, Prod.mk.injEq] at h
          obtain ⟨-, rfl⟩ := h
          exact f1
        · split at h
          · exact f1.comp (ih _ _ _ h)
          · simp only [Except.ok.injEq, Prod.mk.injEq] at h
            obtain ⟨-, rfl⟩ := h
            exact f1
      · exact f1.comp (ih _ _ _ h)

/-! ### Whole calls -/

theorem ProcessInput_pairing (E : Env) (buffer : DecoderBuffer) (s s1 : Engine)
    (hr : HRESULT) (h : ProcessInput E StreamType.AUDIO buffer s = .ok (hr, s1)) :
    PairingFrame (if SUCCEEDED hr then [buffer.time_info] else []) s s1 := by
  have hf := ProcessInput_fields _ _ _ _ _ _ h
  have hh : s1.discard_helper_ = s.discard_helper_ := by rw [hf]
  have ht : s1.tasks = s.tasks := by rw [hf]
  have hp : pairedTimings s1 = pairedTimings s := by unfold pairedTimings; rw [hh]
  have hq : s1.queued_input_timing_ =
      s.queued_input_timing_ ++ (if SUCCEEDED hr then [buffer.time_info] else []) := by
    obtain ⟨-, hnone, hsome⟩ := ProcessInput_spec _ _ _ _ _ _ h
    cases hprep : PrepareInputSample E s buffer s.calls with
    | mk o calls1 =>
      cases o with
      | none =>
        obtain ⟨h1, h2⟩ := hnone calls1 hprep
        rw [h2, h1]
        simp [SUCCEEDED, MF_E_UNEXPECTED]
      | some sample =>
        have h2 := (hsome sample calls1 hprep).2
        by_cases hs : SUCCEEDED hr = true
        · rw [if_pos hs] at h2
          rw [if_pos hs, h2]
          rfl
        · rw [if_neg hs] at h2
          rw [if_neg hs, h2, List.append_nil]
  refine ⟨?_, ?_, ?_⟩
  · rw [hp, hq, List.append_assoc]
  · rw [hp]
  · unfold dispatched; rw [hp, ht]

theorem PostTask_decode_cb_pairing (status : DecoderStatus) (s : Engine) :
    PairingFrame [] s (PostTask (Task.decode_cb status) s) := by
  refine ⟨?_, ?_, ?_⟩
  · simp [PostTask, pairedTimings]
  · exact List.prefix_refl _
  · simp [PostTask, pairedTimings, dispatched, List.countP_append, Task.isOutput]

theorem PairingFrame.cast {e e' : List TimeInfo} {s s' : Engine} (h : PairingFrame e s s')
    (he : e = e') : PairingFrame e' s s' := he ▸ h

theorem Drain_pairing (E : Env) (fuel : Nat) (s s' : Engine) (b : Bool)
    (h : Drain E StreamType.AUDIO fuel s = .ok (b, s')) : PairingFrame [] s s' := by
  unfold Drain invoke at h
  split at h
  · simp at h
  · simp only [] at h
    have f := ProcessOutputLoop_pairing _ _ _ _ _ _ h
    exact ⟨f.total, f.grows, f.bound⟩

theorem Decode_pairing (E : Env) (fuel : Nat) (buffer : DecoderBuffer) (s s' : Engine)
    (h : Decode E StreamType.AUDIO fuel buffer s = .ok s') :
    PairingFrame (acceptedTiming E StreamType.AUDIO buffer s) s s' := by
  unfold Decode at h
  unfold acceptedTiming
  split at h
  · rename_i heos
    rw [if_pos heos]
    split at h
    · simp at h
    · rename_i b s1 hdrain
      simp only [Except.ok.injEq] at h
      subst h
      exact ((Drain_pairing _ _ _ _ _ hdrain).comp (PostTask_decode_cb_pairing _ _)).cast rfl
  · rename_i heos
    rw [if_neg heos]
    split at h
    · simp at h
    · rename_i hr s1 hin
      have f1 := ProcessInput_pairing _ _ _ _ _ hin
      rw [hin]
      simp only []
      split at h
      · rename_i hs
        rw [if_pos hs] at f1 ⊢
        split at h
        · simp at h
        · rename_i b s2 hloop
          simp only [Except.ok.injEq] at h
          subst h
          exact ((f1.comp (ProcessOutputLoop_pairing _ _ _ _ _ _ hloop)).comp
            (PostTask_decode_cb_pairing _ _)).cast (by simp)
      · rename_i hs
        rw [if_neg hs] at f1 ⊢
        simp only [Except.ok.injEq] at h
        subst h
        exact (f1.comp (PostTask_decode_cb_pairing _ _)).cast rfl

theorem decodeAll_cons (E : Env) (st : StreamType) (fuel : Nat) (buffer : DecoderBuffer)
    (rest : List DecoderBuffer) (s : Engine) :
    decodeAll E st fuel (buffer :: rest) s =
      match Decode E st fuel buffer s with
      | .error f => .error f
      | .ok s => decodeAll E st fuel rest s := rfl

theorem decodeAll_pairing (E : Env) (fuel : Nat) (buffers : List DecoderBuffer) :
    ∀ (s s' : Engine), decodeAll E StreamType.AUDIO fuel buffers s = .ok s' →
      PairingFrame (acceptedTimings E StreamType.AUDIO fuel buffers s) s s' := by
  induction buffers with
  | nil =>
    intro s s' h
    simp only [decodeAll, List.map_nil, run, Except.ok.injEq] at h
    subst h
    exact PairingFrame.same rfl rfl rfl
  | cons buffer rest ih =>
    intro s s' h
    rw [decodeAll_cons] at h
    unfold acceptedTimings
    split at h
    · simp at h
    · rename_i s1 hdec
      rw [hdec]
      exact (Decode_pairing _ _ _ _ _ hdec).comp (ih _ _ h)

theorem acceptedTimings_length (E : Env) (st : StreamType) (fuel : Nat)
    (buffers : List DecoderBuffer) :
    ∀ (s : Engine), (acceptedTimings E st fuel buffers s).length ≤
      buffers.countP (fun b => !b.end_of_stream) := by
  induction buffers with
  | nil => intro s; simp [acceptedTimings]
  | cons buffer rest ih =>
    intro s
    unfold acceptedTimings
    rw [List.length_append, List.countP_cons]
    have h1 : (acceptedTiming E st buffer s).length ≤
        (if (!buffer.end_of_stream) = true then 1 else 0) := by
      unfold acceptedTiming
      cases buffer.end_of_stream
      · simp only [Bool.false_eq_true, if_false, Bool.not_false, if_true]
        split
        · split <;> simp
        · simp
      · simp
    have h2 : (match Decode E st fuel buffer s with
        | .ok s => acceptedTimings E st fuel rest s
        | .error _ => []).length ≤ rest.countP (fun b => !b.end_of_stream) := by
      split
      · exact ih _
      · simp
    rw [Nat.add_comm (List.countP _ rest)]
    exact Nat.add_le_add h1 h2

/-! ### Steps and calls, one by one -/

theorem pollSteps_snoc (E : Env) (st : StreamType) (fuel j : Nat) :
    ∀ (s sj s' : Engine) (hrs : List HRESULT) (hr : HRESULT),
      pollSteps E st fuel j s = .ok (hrs, sj) → ProcessOutput E st fuel sj = .ok (hr, s') →
      pollSteps E st fuel (j + 1) s = .ok (hrs ++ [hr], s') := by
  induction j with
  | zero =>
    intro s sj s' hrs hr h hstep
    simp only [pollSteps, Except.ok.injEq, Prod.mk.injEq] at h
    obtain ⟨rfl, rfl⟩ := h
    simp only [pollSteps, hstep, List.nil_append]
  | succ j ih =>
    intro s sj s' hrs hr h hstep
    rw [pollSteps] at h
    split at h
    · simp at h
    · rename_i hr1 s1 hstep1
      split at h
      · simp at h
      · rename_i hrs1 s2 hrest
        simp only [Except.ok.injEq, Prod.mk.injEq] at h
        obtain ⟨rfl, rfl⟩ := h
        have := ih _ _ _ _ _ hrest hstep
        rw [pollSteps, hstep1]
        simp only [this, List.cons_append]

/-- What every `Decode` leaves alone, and the tasks it posts. -/
theorem Decode_frame (E : Env) (st : StreamType) (fuel : Nat) (buffer : DecoderBuffer)
    (s s' : Engine) (h : Decode E st fuel buffer s = .ok s') :
    s'.config_ = s.config_ ∧ s'.decoder_ = s.decoder_ ∧ s'.output_cb_ = s.output_cb_ ∧
      s'.input_stream_info_ = s.input_stream_info_ ∧
      ∃ posted status, s'.tasks = s.tasks ++ posted ++ [Task.decode_cb status] ∧
        ∀ t ∈ posted, t.isOutput = true := by
  unfold Decode at h
  split at h
  · split at h
    · simp at h
    · rename_i b s1 hdrain
      simp only [Except.ok.injEq] at h
      subst h
      unfold Drain invoke at hdrain
      split at hdrain
      · simp at hdrain
      · simp only [] at hdrain
        have f := ProcessOutputLoop_frame _ _ _ _ _ _ _ hdrain
        obtain ⟨posted, hp, hall⟩ := f.tasks
        refine ⟨f.config_, f.decoder_, f.output_cb_, f.input_stream_info_, posted,
          (if b then DecoderStatus.kOk else DecoderStatus.kMalformedBitstream), ?_, hall⟩
        simp only [PostTask, hp]
  · split at h
    · simp at h
    · rename_i hr s1 hin
      have hf := ProcessInput_fields _ _ _ _ _ _ hin
      have e1 : s1.config_ = s.config_ := by rw [hf]
      have e2 : s1.decoder_ = s.decoder_ := by rw [hf]
      have e3 : s1.output_cb_ = s.output_cb_ := by rw [hf]
      have e4 : s1.input_stream_info_ = s.input_stream_info_ := by rw [hf]
      have e5 : s1.tasks = s.tasks := by rw [hf]
      split at h
      · split at h
        · simp at h
        · rename_i b s2 hloop
          simp only [Except.ok.injEq] at h
          subst h
          have f := ProcessOutputLoop_frame _ _ _ _ _ _ _ hloop
          obtain ⟨posted, hp, hall⟩ := f.tasks
          refine ⟨f.config_.trans e1, f.decoder_.trans e2, f.output_cb_.trans e3,
            f.input_stream_info_.trans e4, posted,
            (if b then DecoderStatus.kOk else DecoderStatus.kPlatformDecodeFailure), ?_, hall⟩
          simp only [PostTask, hp, e5]
      · simp only [Except.ok.injEq] at h
        subst h
        refine ⟨e1, e2, e3, e4, [], DecoderStatus.kPlatformDecodeFailure, ?_,
          fun t ht => by cases ht⟩
        simp only [PostTask, e5, List.append_nil]

theorem Reset_spec (E : Env) (st : StreamType) (s : Engine) (d : Nat)
    (hd : s.decoder_ = some d) :
    Reset E st s = .ok (PostTask Task.closure (ResetTimestampState st
      { s with calls := s.calls ++ [Call.ProcessMessage MFT_MESSAGE.MFT_MESSAGE_COMMAND_FLUSH] })) := by
  unfold Reset invoke
  rw [hd]

theorem ResetTimestampState_frame (st : StreamType) (s : Engine) :
    (ResetTimestampState st s).decoder_ = s.decoder_ ∧
      (ResetTimestampState st s).tasks = s.tasks ∧
      (ResetTimestampState st s).calls = s.calls ∧
      (ResetTimestampState st s).config_ = s.config_ ∧
      (ResetTimestampState st s).output_cb_ = s.output_cb_ := by
  cases st <;> exact ⟨rfl, rfl, rfl, rfl, rfl⟩

theorem ConfigureDecoder_decoder (E : Env) (st : StreamType) (fuel : Nat) (s s' : Engine)
    (b : Bool) (h : ConfigureDecoder E st fuel s = .ok (b, s')) : s'.decoder_ = s.decoder_ := by
  unfold ConfigureDecoder invoke at h
  split at h
  · simp at h
  · rename_i s1 h1
    have e1 := SetInputMediaType_calls_only _ _ _ _ _ h1
    simp only [Except.ok.injEq, Prod.mk.injEq] at h
    obtain ⟨-, rfl⟩ := h
    rw [e1]
  · rename_i s1 h1
    have e1 : s1.decoder_ = s.decoder_ := by
      rw [SetInputMediaType_calls_only _ _ _ _ _ h1]
    split at h
    · simp at h
    · rename_i s2 h2
      have f2 := SetOutputMediaType_frame _ _ _ _ _ _ h2
      simp only [Except.ok.injEq, Prod.mk.injEq] at h
      obtain ⟨-, rfl⟩ := h
      exact f2.decoder_.trans e1
    · rename_i s2 h2
      have f2 := SetOutputMediaType_frame _ _ _ _ _ _ h2
      split at h
      · simp at h
      · simp only [] at h
        split at h <;> simp only [Except.ok.injEq, Prod.mk.injEq] at h <;>
          obtain ⟨-, rfl⟩ := h <;> exact f2.decoder_.trans e1

/-- The transform handle after `Initialize`: untouched when the config is
rejected, else what `CreateWMFDecoder` returned; it is present after `kOk`. -/
theorem Initialize_decoder (E : Env) (st : StreamType) (fuel : Nat) (config : DecoderConfig)
    (output_cb : Option OutputCB) (s s' : Engine) (statuses : List DecoderStatus)
    (h : Initialize E st fuel config output_cb s = .ok (statuses, s')) :
    ((IsValidConfig E st s.calls config).1 = false → s' = s) ∧
    ((IsValidConfig E st s.calls config).1 = true →
      s'.decoder_ = (CreateWMFDecoder E st s.calls config).1) ∧
    (statuses = [DecoderStatus.kOk] → s'.decoder_.isSome = true) := by
  unfold Initialize at h
  split at h
  · rename_i hv
    simp only [Except.ok.injEq, Prod.mk.injEq] at h
    obtain ⟨rfl, rfl⟩ := h
    refine ⟨fun _ => rfl, ?_, ?_⟩
    · intro hv'
      rw [hv'] at hv
      simp at hv
    · intro h; cases h
  · rename_i hv
    have hv' : (IsValidConfig E st s.calls config).1 = true := by simpa using hv
    simp only [] at h
    split at h
    · rename_i hnone
      simp only [Except.ok.injEq, Prod.mk.injEq] at h
      obtain ⟨rfl, rfl⟩ := h
      refine ⟨fun hf => (by rw [hf] at hv'; cases hv'), fun _ => rfl, ?_⟩
      intro h; cases h
    · rename_i hsome
      split at h
      · simp at h
      · rename_i s2 hconf
        have e := ConfigureDecoder_decoder _ _ _ _ _ _ hconf
        simp only [Except.ok.injEq, Prod.mk.injEq] at h
        obtain ⟨rfl, rfl⟩ := h
        refine ⟨fun hf => (by rw [hf] at hv'; cases hv'), fun _ => e, ?_⟩
        intro h; cases h
      · rename_i s2 hconf
        have e := ConfigureDecoder_decoder _ _ _ _ _ _ hconf
        simp only [Except.ok.injEq, Prod.mk.injEq] at h
        obtain ⟨rfl, rfl⟩ := h
        have e' := (ResetTimestampState_frame st { s2 with output_cb_ := output_cb }).1
        refine ⟨fun hf => (by rw [hf] at hv'; cases hv'), fun _ => e'.trans e, ?_⟩
        intro _
        rw [e', show ({ s2 with output_cb_ := output_cb } : Engine).decoder_ = s2.decoder_ from rfl,
          e]
        cases hc : (CreateWMFDecoder E st s.calls config).1 with
        | none => rw [hc] at hsome; simp at hsome
        | some d => rfl

theorem Reset_decoder (E : Env) (st : StreamType) (s s' : Engine)
    (h : Reset E st s = .ok s') : s'.decoder_ = s.decoder_ := by
  unfold Reset invoke at h
  split at h
  · simp at h
  · simp only [Except.ok.injEq] at h
    subst h
    exact (ResetTimestampState_frame st _).1

/-- A call that keeps the transform leaves a handle where there was one. -/
theorem applyCall_decoder (E : Env) (st : StreamType) (fuel : Nat) (c : EngineCall)
    (s s' : Engine) (hd : s.decoder_.isSome = true)
    (hkeep : callKeepsTransform E st c s = true)
    (h : applyCall E st fuel c s = .ok s') : s'.decoder_.isSome = true := by
  cases c with
  | Initialize config output_cb =>
    simp only [applyCall] at h
    split at h
    · simp at h
    · rename_i statuses s1 hinit
      simp only [Except.ok.injEq] at h
      subst h
      obtain ⟨hrej, hacc, -⟩ := Initialize_decoder _ _ _ _ _ _ _ _ hinit
      unfold callKeepsTransform at hkeep
      simp only [Bool.or_eq_true, Bool.not_eq_true'] at hkeep
      cases hv : (IsValidConfig E st s.calls config).1 with
      | false => rw [hrej hv]; exact hd
      | true =>
        rw [hacc hv]
        rcases hkeep with hk | hk
        · rw [hv] at hk; cases hk
        · exact hk
  | Decode buffer =>
    simp only [applyCall] at h
    rw [(Decode_frame _ _ _ _ _ _ h).2.1]
    exact hd
  | Reset =>
    simp only [applyCall] at h
    rw [Reset_decoder _ _ _ _ h]
    exact hd

theorem run_decoder (E : Env) (st : StreamType) (fuel : Nat) (calls : List EngineCall) :
    ∀ (s s' : Engine), s.decoder_.isSome = true → keepsTransform E st fuel calls s = true →
      run E st fuel calls s = .ok s' → s'.decoder_.isSome = true := by
  induction calls with
  | nil =>
    intro s s' hd _ h
    simp only [run, Except.ok.injEq] at h
    subst h
    exact hd
  | cons c rest ih =>
    intro s s' hd hkeep h
    unfold run at h
    unfold keepsTransform at hkeep
    simp only [Bool.and_eq_true] at hkeep
    split at h
    · simp at h
    · rename_i s1 hc
      have hk2 := hkeep.2
      rw [hc] at hk2
      exact ih _ _ (applyCall_decoder _ _ _ _ _ _ hd hkeep.1 hc) hk2 h

/-! ### Plane strides -/

theorem alignUp16_emod (x : Int) : alignUp16 x % 16 = 0 := by
  unfold alignUp16
  simp only []
  omega

theorem long_range (x : Int) : -2147483648 ≤ long x ∧ long x < 2147483648 := by
  unfold long wrapSigned
  norm_num
  omega

theorem long_of_range (x : Int) (h0 : -2147483648 ≤ x) (h1 : x < 2147483648) : long x = x := by
  unfold long wrapSigned
  norm_num
  omega

theorem alignUp16_least (x : Int) (h0 : -2147483648 ≤ x) (h1 : x + 15 < 2147483648) :
    x ≤ alignUp16 x ∧ alignUp16 x < x + 16 := by
  unfold alignUp16
  simp only []
  rw [long_of_range (x + 15) (by omega) h1]
  omega

/-! ### Ending the drain loop -/

/-- What `SetOutputMediaTypeInternal` does by the subtype of the candidate: any
other subtype than the accepted one gives `S_FALSE` and no call; the accepted
one is set on the transform first, and the result is `S_OK` or a failure. -/
theorem SetOutputMediaTypeInternal_spec (E : Env) (st : StreamType) (g : GUID) (i : Nat)
    (s s' : Engine) (hr : HRESULT)
    (h : SetOutputMediaTypeInternal E st g i s = .ok (hr, s')) :
    (g ≠ acceptedSubtype st → hr = S_FALSE ∧ s' = s) ∧
    (g = acceptedSubtype st →
      (hr = S_OK ∨ FAILED hr = true) ∧
      (∃ rest, s'.calls = s.calls ++ [Call.SetOutputType i] ++ rest ∧
        ∀ c ∈ rest, ∃ key, c = Call.GetUINT32 key) ∧
      (FAILED (E.hr s.calls (Call.SetOutputType i)) = true →
        hr = E.hr s.calls (Call.SetOutputType i) ∧
        s' = { s with calls := s.calls ++ [Call.SetOutputType i] }) ∧
      (hr = S_OK → FAILED (E.hr s.calls (Call.SetOutputType i)) = false)) := by
  unfold SetOutputMediaTypeInternal invoke at h
  cases st <;> simp only [] at h
  · split at h
    · rename_i hg
      refine ⟨fun hne => absurd hg hne, fun _ => ?_⟩
      split at h
      · simp at h
      · split at h
        · rename_i hf
          simp only [Except.ok.injEq, Prod.mk.injEq] at h
          obtain ⟨rfl, rfl⟩ := h
          exact ⟨Or.inr hf, ⟨[], by simp, fun c hc => (by cases hc)⟩, fun _ => ⟨rfl, rfl⟩,
            fun h0 => by rw [h0] at hf; exact absurd hf (by decide)⟩
        · rename_i hf
          have hf' : FAILED (E.hr s.calls (Call.SetOutputType i)) = false := by simpa using hf
          split at h
          · rename_i hf2
            simp only [Except.ok.injEq, Prod.mk.injEq] at h
            obtain ⟨rfl, rfl⟩ := h
            refine ⟨Or.inr hf2, ⟨[_], rfl, ?_⟩, fun hc => (by rw [hf'] at hc; cases hc),
              fun _ => hf'⟩
            intro c hc
            simp only [List.mem_singleton] at hc
            exact ⟨_, hc⟩
          · split at h
            · rename_i hf3
              simp only [Except.ok.injEq, Prod.mk.injEq] at h
              obtain ⟨rfl, rfl⟩ := h
              refine ⟨Or.inr hf3, ⟨[Call.GetUINT32 AttrKey.MF_MT_AUDIO_SAMPLES_PER_SECOND,
                Call.GetUINT32 AttrKey.MF_MT_AUDIO_NUM_CHANNELS], by simp, ?_⟩, fun hc => (by rw [hf'] at hc; cases hc),
                fun _ => hf'⟩
              intro c hc
              simp only [List.mem_cons, List.mem_singleton, List.not_mem_nil, or_false] at hc
              rcases hc with rfl | rfl <;> exact ⟨_, rfl⟩
            · split at h
              · simp at h
              · split at h
                · rename_i hf4
                  simp only [Except.ok.injEq, Prod.mk.injEq] at h
                  obtain ⟨rfl, rfl⟩ := h
                  refine ⟨Or.inr hf4, ⟨[Call.GetUINT32 AttrKey.MF_MT_AUDIO_SAMPLES_PER_SECOND,
                    Call.GetUINT32 AttrKey.MF_MT_AUDIO_NUM_CHANNELS,
                    Call.GetUINT32 AttrKey.MF_MT_AUDIO_BITS_PER_SAMPLE], by simp, ?_⟩,
                    fun hc => (by rw [hf'] at hc; cases hc), fun _ => hf'⟩
                  intro c hc
                  simp only [List.mem_cons, List.mem_singleton, List.not_mem_nil,
                    or_false] at hc
                  rcases hc with rfl | rfl | rfl <;> exact ⟨_, rfl⟩
                · simp only [Except.ok.injEq, Prod.mk.injEq] at h
                  obtain ⟨rfl, rfl⟩ := h
                  refine ⟨Or.inl rfl, ⟨[Call.GetUINT32 AttrKey.MF_MT_AUDIO_SAMPLES_PER_SECOND,
                    Call.GetUINT32 AttrKey.MF_MT_AUDIO_NUM_CHANNELS,
                    Call.GetUINT32 AttrKey.MF_MT_AUDIO_BITS_PER_SAMPLE], by simp, ?_⟩,
                    fun hc => (by rw [hf'] at hc; cases hc), fun _ => hf'⟩
                  intro c hc
                  simp only [List.mem_cons, List.mem_singleton, List.not_mem_nil,
                    or_false] at hc
                  rcases hc with rfl | rfl | rfl <;> exact ⟨_, rfl⟩
    · rename_i hg
      simp only [Except.ok.injEq, Prod.mk.injEq] at h
      obtain ⟨rfl, rfl⟩ := h
      exact ⟨fun _ => ⟨rfl, rfl⟩, fun hg' => absurd hg' hg⟩
  · split at h
    · rename_i hg
      refine ⟨fun hne => absurd hg hne, fun _ => ?_⟩
      split at h
      · simp at h
      · split at h
        · rename_i hf
          simp only [Except.ok.injEq, Prod.mk.injEq] at h
          obtain ⟨rfl, rfl⟩ := h
          exact ⟨Or.inr hf, ⟨[], by simp, fun c hc => (by cases hc)⟩, fun _ => ⟨rfl, rfl⟩,
            fun h0 => by rw [h0] at hf; exact absurd hf (by decide)⟩
        · rename_i hf
          have hf' : FAILED (E.hr s.calls (Call.SetOutputType i)) = false := by simpa using hf
          simp only [Except.ok.injEq, Prod.mk.injEq] at h
          obtain ⟨rfl, rfl⟩ := h
          exact ⟨Or.inl rfl, ⟨[], by simp, fun c hc => (by cases hc)⟩,
            fun hc => (by rw [hf'] at hc; cases hc), fun _ => hf'⟩
    · rename_i hg
      simp only [Except.ok.injEq, Prod.mk.injEq] at h
      obtain ⟨rfl, rfl⟩ := h
      exact ⟨fun _ => ⟨rfl, rfl⟩, fun hg' => absurd hg' hg⟩

/-- One round of the candidate loop, by what the transform answers. -/
theorem outputTypeStep_spec (E : Env) (st : StreamType) (i : Nat) (s s' : Engine)
    (x : TypeSearch) (h : outputTypeStep E st i s = .ok (x, s')) :
    (x = TypeSearch.next →
      SUCCEEDED (E.hr s.calls (Call.GetOutputAvailableType i)) = true ∧
      FAILED (E.hr (s.calls ++ [Call.GetOutputAvailableType i])
        (Call.GetGUID AttrKey.MF_MT_SUBTYPE)) = false ∧
      E.guid (s.calls ++ [Call.GetOutputAvailableType i]) ≠ acceptedSubtype st ∧
      s' = { s with calls := s.calls ++ [Call.GetOutputAvailableType i] ++
        [Call.GetGUID AttrKey.MF_MT_SUBTYPE] }) ∧
    (∃ tail, s'.calls = s.calls ++ [Call.GetOutputAvailableType i] ++ tail ∧
      ∀ c ∈ tail, (∀ j, c ≠ Call.GetOutputAvailableType j) ∧
        (∀ j, c = Call.SetOutputType j → j = i)) ∧
    (x = TypeSearch.accepted →
      SUCCEEDED (E.hr s.calls (Call.GetOutputAvailableType i)) = true ∧
      FAILED (E.hr (s.calls ++ [Call.GetOutputAvailableType i])
        (Call.GetGUID AttrKey.MF_MT_SUBTYPE)) = false ∧
      E.guid (s.calls ++ [Call.GetOutputAvailableType i]) = acceptedSubtype st ∧
      FAILED (E.hr (s.calls ++ [Call.GetOutputAvailableType i] ++
        [Call.GetGUID AttrKey.MF_MT_SUBTYPE]) (Call.SetOutputType i)) = false ∧
      ∃ rest, s'.calls = s.calls ++ [Call.GetOutputAvailableType i] ++
        [Call.GetGUID AttrKey.MF_MT_SUBTYPE] ++ [Call.SetOutputType i] ++ rest) ∧
    (SUCCEEDED (E.hr s.calls (Call.GetOutputAvailableType i)) = true →
      FAILED (E.hr (s.calls ++ [Call.GetOutputAvailableType i])
        (Call.GetGUID AttrKey.MF_MT_SUBTYPE)) = false →
      E.guid (s.calls ++ [Call.GetOutputAvailableType i]) = acceptedSubtype st →
      FAILED (E.hr (s.calls ++ [Call.GetOutputAvailableType i] ++
        [Call.GetGUID AttrKey.MF_MT_SUBTYPE]) (Call.SetOutputType i)) = true →
      x = TypeSearch.failed ∧
      s' = { s with calls := s.calls ++ [Call.GetOutputAvailableType i] ++
        [Call.GetGUID AttrKey.MF_MT_SUBTYPE] ++ [Call.SetOutputType i] }) := by
  unfold outputTypeStep invoke at h
  simp only [] at h
  split at h
  · simp at h
  · split at h
    · rename_i hs
      have hs' : SUCCEEDED (E.hr s.calls (Call.GetOutputAvailableType i)) = false := by
        simpa using hs
      simp only [Except.ok.injEq, Prod.mk.injEq] at h
      obtain ⟨rfl, rfl⟩ := h
      refine ⟨fun hx => (by cases hx), ⟨[], by simp, fun c hc => (by cases hc)⟩,
        fun hx => (by cases hx), fun h1 => ?_⟩
      rw [hs'] at h1
      cases h1
    · rename_i hs
      have hs' : SUCCEEDED (E.hr s.calls (Call.GetOutputAvailableType i)) = true := by
        simpa using hs
      split at h
      · rename_i hf
        simp only [Except.ok.injEq, Prod.mk.injEq] at h
        obtain ⟨rfl, rfl⟩ := h
        refine ⟨fun hx => (by cases hx), ⟨[Call.GetGUID AttrKey.MF_MT_SUBTYPE], rfl, ?_⟩,
          fun hx => (by cases hx), fun _ h2 => ?_⟩
        · intro c hc
          simp only [List.mem_singleton] at hc
          subst hc
          exact ⟨fun j hj => (by cases hj), fun j hj => (by cases hj)⟩
        · rw [hf] at h2
          cases h2
      · rename_i hf
        have hf' : FAILED (E.hr (s.calls ++ [Call.GetOutputAvailableType i])
            (Call.GetGUID AttrKey.MF_MT_SUBTYPE)) = false := by simpa using hf
        try simp only [hf', Bool.false_eq_true, if_false] at h
        split at h
        · simp at h
        · rename_i hr1 s1 hint
          obtain ⟨hother, hacc⟩ := SetOutputMediaTypeInternal_spec _ _ _ _ _ _ _ hint
          by_cases hg : E.guid (s.calls ++ [Call.GetOutputAvailableType i]) = acceptedSubtype st
          · obtain ⟨hres, ⟨rest, hcalls, hrest⟩, hfail, hok⟩ := hacc hg
            have htail : ∃ tail, s1.calls = s.calls ++ [Call.GetOutputAvailableType i] ++ tail ∧
                ∀ c ∈ tail, (∀ j, c ≠ Call.GetOutputAvailableType j) ∧
                  (∀ j, c = Call.SetOutputType j → j = i) := by
              refine ⟨[Call.GetGUID AttrKey.MF_MT_SUBTYPE] ++ [Call.SetOutputType i] ++ rest,
                (by rw [hcalls]; simp), ?_⟩
              intro c hc
              simp only [List.mem_append, List.mem_singleton] at hc
              rcases hc with (rfl | rfl) | hc
              · exact ⟨fun j hj => (by cases hj), fun j hj => (by cases hj)⟩
              · exact ⟨fun j hj => (by cases hj), fun j hj => (by cases hj; rfl)⟩
              · obtain ⟨key, rfl⟩ := hrest c hc
                exact ⟨fun j hj => (by cases hj), fun j hj => (by cases hj)⟩
            split at h
            · rename_i hok1
              simp only [Except.ok.injEq, Prod.mk.injEq] at h
              obtain ⟨rfl, rfl⟩ := h
              refine ⟨fun hx => (by cases hx), htail, fun _ => ⟨hs', hf', hg, hok hok1, rest, ?_⟩,
                fun _ _ _ h4 => ?_⟩
              · rw [hcalls]
              · have := hok hok1
                rw [this] at h4
                cases h4
            · split at h
              · simp only [Except.ok.injEq, Prod.mk.injEq] at h
                obtain ⟨rfl, rfl⟩ := h
                refine ⟨fun hx => (by cases hx), htail, fun hx => (by cases hx),
                  fun _ _ _ h4 => ⟨rfl, (hfail h4).2⟩⟩
              · rename_i hnok hfalse
                exfalso
                have hfalse' : hr1 = S_FALSE := by simpa using hfalse
                rcases hres with h0 | h0
                · exact hnok h0
                · rw [hfalse'] at h0
                  exact absurd h0 (by decide)
          · obtain ⟨hr_eq, hs_eq⟩ := hother hg
            subst hr_eq hs_eq
            simp only [show (S_FALSE : HRESULT) ≠ S_OK by decide, if_false, ne_eq,
              not_true, if_false] at h
            simp only [Except.ok.injEq, Prod.mk.injEq] at h
            obtain ⟨rfl, rfl⟩ := h
            refine ⟨fun _ => ⟨hs', hf', hg, rfl⟩,
              ⟨[Call.GetGUID AttrKey.MF_MT_SUBTYPE], rfl, ?_⟩, fun hx => (by cases hx),
              fun _ _ h3 => absurd h3 hg⟩
            intro c hc
            simp only [List.mem_singleton] at hc
            subst hc
            exact ⟨fun j hj => (by cases hj), fun j hj => (by cases hj)⟩


theorem skippedCalls_succ (i k : Nat) :
    skippedCalls i (k + 1) = [Call.GetOutputAvailableType i] ++
      [Call.GetGUID AttrKey.MF_MT_SUBTYPE] ++ skippedCalls (i + 1) k := rfl

/-- The candidate loop passes over `k` candidates whose subtype is not the
accepted one and ends in the round on candidate `i + k`. -/
theorem outputTypeLoop_spec (E : Env) (st : StreamType) (n : Nat) :
    ∀ (i : Nat) (s s' : Engine) (x : TypeSearch),
      outputTypeLoop E st n i s = .ok (x, s') → i + n ≤ UINT32_SIZE →
      ∃ k, k < n ∧ x ≠ TypeSearch.next ∧
        (∀ j, j < k →
          SUCCEEDED (E.hr (s.calls ++ skippedCalls i j)
            (Call.GetOutputAvailableType (i + j))) = true ∧
          FAILED (E.hr (s.calls ++ skippedCalls i j ++ [Call.GetOutputAvailableType (i + j)])
            (Call.GetGUID AttrKey.MF_MT_SUBTYPE)) = false ∧
          E.guid (s.calls ++ skippedCalls i j ++ [Call.GetOutputAvailableType (i + j)]) ≠
            acceptedSubtype st) ∧
        outputTypeStep E st (i + k) { s with calls := s.calls ++ skippedCalls i k } =
          .ok (x, s') := by
  induction n with
  | zero => intro i s s' x h; simp [outputTypeLoop] at h
  | succ n ih =>
    intro i s s' x h hle
    rw [outputTypeLoop] at h
    split at h
    · simp at h
    · rename_i s1 hstep
      obtain ⟨h1, h2, h3, hs1⟩ := (outputTypeStep_spec _ _ _ _ _ _ hstep).1 rfl
      cases n with
      | zero => simp [outputTypeLoop] at h
      | succ m =>
        have hlt : i + 1 < UINT32_SIZE := by omega
        rw [Nat.mod_eq_of_lt hlt] at h
        obtain ⟨k, hk, hx, hall, hlast⟩ := ih (i + 1) s1 s' x h (by omega)
        have hcalls : ∀ j, s1.calls ++ skippedCalls (i + 1) j = s.calls ++ skippedCalls i (j + 1) := by
          intro j
          rw [hs1, skippedCalls_succ]
          simp only [List.append_assoc]
        refine ⟨k + 1, by omega, hx, ?_, ?_⟩
        · intro j hj
          cases j with
          | zero => exact ⟨by simpa [skippedCalls] using h1, by simpa [skippedCalls] using h2,
              by simpa [skippedCalls] using h3⟩
          | succ j =>
            have := hall j (by omega)
            rw [hcalls j, show i + 1 + j = i + (j + 1) by omega] at this
            exact this
        · rw [show i + (k + 1) = i + 1 + k by omega, ← hcalls k]
          have : ({ s with calls := s1.calls ++ skippedCalls (i + 1) k } : Engine) =
              { s1 with calls := s1.calls ++ skippedCalls (i + 1) k } := by rw [hs1]
          rw [this]
          exact hlast
    · rename_i x1 s1 hne hstep
      simp only [Except.ok.injEq, Prod.mk.injEq] at h
      obtain ⟨rfl, rfl⟩ := h
      refine ⟨0, by omega, ?_, fun j hj => by omega, ?_⟩
      · intro hx
        subst hx
        exact hne rfl
      · simpa [skippedCalls] using hstep

/-! ### What negotiation stores -/

/-- The audio `SetOutputMediaTypeInternal` returns `S_OK` only for a PCM
candidate that was set and whose three attributes were read; it stores the rate,
the layout by the reported channel count, and an eighth of the bit depth. -/
theorem SetOutputMediaTypeInternal_audio_ok (E : Env) (g : GUID) (i : Nat) (s s' : Engine)
    (h : SetOutputMediaTypeInternal E StreamType.AUDIO g i s = .ok (S_OK, s')) :
    g = GUID.MFAudioFormat_PCM ∧
    s' = { s with
      calls := s.calls ++ [Call.SetOutputType i] ++
        [Call.GetUINT32 AttrKey.MF_MT_AUDIO_SAMPLES_PER_SECOND] ++
        [Call.GetUINT32 AttrKey.MF_MT_AUDIO_NUM_CHANNELS] ++
        [Call.GetUINT32 AttrKey.MF_MT_AUDIO_BITS_PER_SAMPLE]
      output_samples_per_second_ := dword (E.uint32 (s.calls ++ [Call.SetOutputType i]))
      output_channel_layout_ :=
        if (dword (E.uint32 (s.calls ++ [Call.SetOutputType i] ++
            [Call.GetUINT32 AttrKey.MF_MT_AUDIO_SAMPLES_PER_SECOND])) : Int) =
            s.config_.channels then s.config_.channel_layout
        else E.GuessChannelLayout (dword (E.uint32 (s.calls ++ [Call.SetOutputType i] ++
          [Call.GetUINT32 AttrKey.MF_MT_AUDIO_SAMPLES_PER_SECOND])))
      output_sample_size_ := dword (E.uint32 (s.calls ++ [Call.SetOutputType i] ++
        [Call.GetUINT32 AttrKey.MF_MT_AUDIO_SAMPLES_PER_SECOND] ++
        [Call.GetUINT32 AttrKey.MF_MT_AUDIO_NUM_CHANNELS])) / 8 } ∧
    dword (E.uint32 (s.calls ++ [Call.SetOutputType i] ++
      [Call.GetUINT32 AttrKey.MF_MT_AUDIO_SAMPLES_PER_SECOND])) ≤ INT_MAX := by
  unfold SetOutputMediaTypeInternal invoke at h
  simp only [] at h
  have hno : ∀ (hr : HRESULT), FAILED hr = true → hr ≠ S_OK := by
    intro hr hf h0
    rw [h0] at hf
    exact absurd hf (by decide)
  split at h
  · rename_i hg
    split at h
    · simp at h
    · split at h
      · rename_i hf
        simp only [Except.ok.injEq, Prod.mk.injEq] at h
        exact absurd h.1 (hno _ hf)
      · split at h
        · rename_i hf
          simp only [Except.ok.injEq, Prod.mk.injEq] at h
          exact absurd h.1 (hno _ hf)
        · split at h
          · rename_i hf
            simp only [Except.ok.injEq, Prod.mk.injEq] at h
            exact absurd h.1 (hno _ hf)
          · split at h
            · simp at h
            · rename_i hle
              split at h
              · rename_i hf
                simp only [Except.ok.injEq, Prod.mk.injEq] at h
                exact absurd h.1 (hno _ hf)
              · simp only [Except.ok.injEq, Prod.mk.injEq] at h
                obtain ⟨-, rfl⟩ := h
                exact ⟨hg, rfl, by simpa using hle⟩
  · simp only [Except.ok.injEq, Prod.mk.injEq] at h
    exact absurd h.1 (by decide)

theorem outputTypeStep_accepted (E : Env) (st : StreamType) (i : Nat) (s s' : Engine)
    (h : outputTypeStep E st i s = .ok (TypeSearch.accepted, s')) :
    SetOutputMediaTypeInternal E st (E.guid (s.calls ++ [Call.GetOutputAvailableType i])) i
      { s with calls := s.calls ++ [Call.GetOutputAvailableType i] ++
        [Call.GetGUID AttrKey.MF_MT_SUBTYPE] } = .ok (S_OK, s') := by
  unfold outputTypeStep invoke at h
  simp only [] at h
  split at h
  · simp at h
  · split at h
    · simp at h
    · split at h
      · simp at h
      · rename_i hf
        have hf' : FAILED (E.hr (s.calls ++ [Call.GetOutputAvailableType i])
            (Call.GetGUID AttrKey.MF_MT_SUBTYPE)) = false := by simpa using hf
        split at h
        · simp at h
        · rename_i hr1 s1 hint
          split at h
          · rename_i hok
            simp only [Except.ok.injEq, Prod.mk.injEq] at h
            obtain ⟨-, rfl⟩ := h
            rw [hint, hok]
          · split at h <;> simp at h

theorem outputTypeStep_exhausted_state (E : Env) (st : StreamType) (i : Nat) (s s' : Engine)
    (h : outputTypeStep E st i s = .ok (TypeSearch.exhausted, s')) :
    SUCCEEDED (E.hr s.calls (Call.GetOutputAvailableType i)) = false ∧
    s' = { s with calls := s.calls ++ [Call.GetOutputAvailableType i] } := by
  unfold outputTypeStep invoke at h
  simp only [] at h
  split at h
  · simp at h
  · split at h
    · rename_i hs
      simp only [Except.ok.injEq, Prod.mk.injEq] at h
      exact ⟨by simpa using hs, h.2.symm⟩
    · split at h
      · simp at h
      · split at h
        · simp at h
        · (repeat' split at h) <;> simp at h

theorem skippedCalls_negotiation (i k : Nat) :
    ∀ c ∈ skippedCalls i k, Call.isOutputNegotiation c = true := by
  induction k generalizing i with
  | zero => intro c hc; cases hc
  | succ k ih =>
    intro c hc
    rw [skippedCalls] at hc
    simp only [List.mem_cons] at hc
    rcases hc with rfl | rfl | hc
    · rfl
    · rfl
    · exact ih _ c hc


theorem CreateSample_some (E : Env) (size : Nat) (alignment : Int) (calls calls' : List Call)
    (sample : IMFSample) (h : CreateSample E size alignment calls = (some sample, calls')) :
    sample = { buffer_size := size, buffer_alignment := alignment, data := [],
               sample_time := 0 } ∧
    calls' = calls ++ [Call.MFCreateSample] ++
      [Call.MFCreateAlignedMemoryBuffer size (alignment % UINT32_SIZE).toNat] ++
      [Call.AddBuffer] := by
  unfold CreateSample invoke at h
  simp only [] at h
  (repeat' split at h) <;> simp only [Prod.mk.injEq, Option.some.injEq, reduceCtorEq,
    false_and] at h
  exact ⟨h.1.symm, h.2.symm⟩

/-- What `SetOutputMediaType` does after its candidate loop. -/
theorem SetOutputMediaType_spec (E : Env) (st : StreamType) (fuel : Nat) (s s' : Engine)
    (b : Bool) (h : SetOutputMediaType E st fuel s = .ok (b, s')) :
    ∃ x s1, outputTypeLoop E st fuel 0 s = .ok (x, s1) ∧
      (x = TypeSearch.failed → b = false ∧ s' = s1) ∧
      (x ≠ TypeSearch.failed →
        (FAILED (E.hr s1.calls Call.GetOutputStreamInfo) = true →
          b = false ∧ s' = { s1 with calls := s1.calls ++ [Call.GetOutputStreamInfo] }) ∧
        (FAILED (E.hr s1.calls Call.GetOutputStreamInfo) = false →
          (createsSamples (outputStreamInfo E s1.calls) = true →
            b = true ∧ s' = { s1 with calls := s1.calls ++ [Call.GetOutputStreamInfo],
                                       output_sample_ := none }) ∧
          (createsSamples (outputStreamInfo E s1.calls) = false →
            ∃ sample calls2,
              CreateSample E (CalculateOutputBufferSize st (outputStreamInfo E s1.calls))
                (CalculateBufferAlignment (outputStreamInfo E s1.calls).cbAlignment)
                (s1.calls ++ [Call.GetOutputStreamInfo]) = (sample, calls2) ∧
              b = sample.isSome ∧
              s' = { s1 with output_sample_ := sample, calls := calls2 }))) := by
  unfold SetOutputMediaType invoke at h
  split at h
  · simp at h
  · rename_i s1 hloop
    simp only [Except.ok.injEq, Prod.mk.injEq] at h
    obtain ⟨rfl, rfl⟩ := h
    exact ⟨_, _, hloop, fun _ => ⟨rfl, rfl⟩, fun hne => absurd rfl hne⟩
  · rename_i x1 s1 hne hloop
    refine ⟨x1, s1, hloop, fun hx => (by subst hx; exact absurd rfl hne), fun _ => ?_⟩
    split at h
    · simp at h
    · simp only [] at h
      split at h
      · rename_i hf
        simp only [Except.ok.injEq, Prod.mk.injEq] at h
        obtain ⟨rfl, rfl⟩ := h
        exact ⟨fun _ => ⟨rfl, rfl⟩, fun hf' => by rw [hf] at hf'; cases hf'⟩
      · rename_i hf
        have hf' : FAILED (E.hr s1.calls Call.GetOutputStreamInfo) = false := by simpa using hf
        refine ⟨fun hc => (by rw [hf'] at hc; cases hc), fun _ => ?_⟩
        split at h
        · rename_i hcr
          have hcr' : createsSamples (outputStreamInfo E s1.calls) = false := by
            unfold createsSamples outputStreamInfo
            simpa using hcr
          refine ⟨fun hc => (by rw [hcr'] at hc; cases hc), fun _ => ?_⟩
          cases hcs : CreateSample E
              (CalculateOutputBufferSize st (outputStreamInfo E s1.calls))
              (CalculateBufferAlignment (outputStreamInfo E s1.calls).cbAlignment)
              (s1.calls ++ [Call.GetOutputStreamInfo]) with
          | mk sample calls2 =>
            unfold outputStreamInfo at hcs
            rw [hcs] at h
            simp only [] at h
            refine ⟨sample, calls2, rfl, ?_⟩
            split at h <;> simp only [Except.ok.injEq, Prod.mk.injEq] at h <;>
              obtain ⟨rfl, rfl⟩ := h
            · rename_i hn
              cases sample <;> simp at hn ⊢
            · rename_i hn
              cases sample <;> simp at hn ⊢
        · rename_i hcr
          have hcr' : createsSamples (outputStreamInfo E s1.calls) = true := by
            unfold createsSamples outputStreamInfo
            simpa using hcr
          simp only [Except.ok.injEq, Prod.mk.injEq] at h
          obtain ⟨rfl, rfl⟩ := h
          exact ⟨fun _ => ⟨rfl, rfl⟩, fun hc => by rw [hcr'] at hc; cases hc⟩


theorem ConfigureDecoder_ok (E : Env) (st : StreamType) (fuel : Nat) (s s' : Engine)
    (h : ConfigureDecoder E st fuel s = .ok (true, s')) :
    ∃ s2 s3, SetInputMediaType E st s = .ok (true, s2) ∧
      SetOutputMediaType E st fuel s2 = .ok (true, s3) ∧
      FAILED (E.hr s3.calls Call.GetInputStreamInfo) = false ∧
      s' = { s3 with
        calls := s3.calls ++ [Call.GetInputStreamInfo]
        input_stream_info_ :=
          { dwFlags := dword (E.stream_info s3.calls).dwFlags
            cbSize := dword (E.stream_info s3.calls).cbSize
            cbAlignment := dword (E.stream_info s3.calls).cbAlignment } } := by
  unfold ConfigureDecoder invoke at h
  split at h
  · simp at h
  · simp at h
  · rename_i s2 h2
    split at h
    · simp at h
    · simp at h
    · rename_i s3 h3
      split at h
      · simp at h
      · simp only [] at h
        split at h
        · simp at h
        · rename_i hf
          simp only [Except.ok.injEq, Prod.mk.injEq, true_and] at h
          exact ⟨s2, s3, h2, h3, by simpa using hf, h.symm⟩

theorem Initialize_ok (E : Env) (st : StreamType) (fuel : Nat) (config : DecoderConfig)
    (output_cb : Option OutputCB) (s s' : Engine)
    (h : Initialize E st fuel config output_cb s = .ok ([DecoderStatus.kOk], s')) :
    ∃ d calls1 s4, (IsValidConfig E st s.calls config).1 = true ∧
      CreateWMFDecoder E st s.calls config = (some d, calls1) ∧
      ConfigureDecoder E st fuel
        { s with config_ := config, decoder_ := some d, calls := calls1 } = .ok (true, s4) ∧
      s' = ResetTimestampState st { s4 with output_cb_ := output_cb } := by
  unfold Initialize at h
  split at h
  · simp at h
  · rename_i hv
    have hv' : (IsValidConfig E st s.calls config).1 = true := by simpa using hv
    cases hc : CreateWMFDecoder E st s.calls config with
    | mk decoder calls1 =>
      simp only [hc] at h
      cases decoder with
      | none => simp at h
      | some d =>
        simp only [Option.isNone_some, Bool.false_eq_true, if_false] at h
        split at h
        · simp at h
        · simp at h
        · rename_i s4 hconf
          simp only [Except.ok.injEq, Prod.mk.injEq, true_and] at h
          exact ⟨d, calls1, s4, hv', rfl, hconf, h.symm⟩

theorem SetOutputMediaType_true (E : Env) (st : StreamType) (fuel : Nat) (s s' : Engine)
    (h : SetOutputMediaType E st fuel s = .ok (true, s')) :
    ∃ x s1, outputTypeLoop E st fuel 0 s = .ok (x, s1) ∧ x ≠ TypeSearch.failed ∧
      FAILED (E.hr s1.calls Call.GetOutputStreamInfo) = false ∧
      s'.output_samples_per_second_ = s1.output_samples_per_second_ ∧
      s'.output_channel_layout_ = s1.output_channel_layout_ ∧
      s'.output_sample_size_ = s1.output_sample_size_ ∧
      s1.calls ++ [Call.GetOutputStreamInfo] <+: s'.calls ∧
      (createsSamples (outputStreamInfo E s1.calls) = true → s'.output_sample_ = none ∧
        s'.calls = s1.calls ++ [Call.GetOutputStreamInfo]) ∧
      (createsSamples (outputStreamInfo E s1.calls) = false →
        s'.output_sample_ = some
          { buffer_size := CalculateOutputBufferSize st (outputStreamInfo E s1.calls)
            buffer_alignment :=
              CalculateBufferAlignment (outputStreamInfo E s1.calls).cbAlignment
            data := [], sample_time := 0 } ∧
        s'.calls = s1.calls ++ [Call.GetOutputStreamInfo] ++ [Call.MFCreateSample] ++
          [Call.MFCreateAlignedMemoryBuffer
            (CalculateOutputBufferSize st (outputStreamInfo E s1.calls))
            (CalculateBufferAlignment (outputStreamInfo E s1.calls).cbAlignment %
              UINT32_SIZE).toNat] ++ [Call.AddBuffer]) := by
  obtain ⟨x, s1, hloop, hfailed, hrest⟩ := SetOutputMediaType_spec _ _ _ _ _ _ h
  have hx : x ≠ TypeSearch.failed := by
    intro hx
    have := (hfailed hx).1
    cases this
  obtain ⟨hf1, hf2⟩ := hrest hx
  have hf : FAILED (E.hr s1.calls Call.GetOutputStreamInfo) = false := by
    cases hc : FAILED (E.hr s1.calls Call.GetOutputStreamInfo) with
    | false => rfl
    | true =>
      have := (hf1 hc).1
      cases this
  obtain ⟨hyes, hno⟩ := hf2 hf
  cases hcr : createsSamples (outputStreamInfo E s1.calls) with
  | true =>
    obtain ⟨-, hs'⟩ := hyes hcr
    refine ⟨x, s1, hloop, hx, hf, by rw [hs'], by rw [hs'], by rw [hs'], ?_,
      fun _ => ⟨by rw [hs'], by rw [hs']⟩, fun hc => (by rw [hcr] at hc; cases hc)⟩
    rw [hs']
  | false =>
    obtain ⟨sample, calls2, hcs, hb, hs'⟩ := hno hcr
    cases sample with
    | none => cases hb
    | some sample =>
      obtain ⟨hsample, hcalls2⟩ := CreateSample_some _ _ _ _ _ _ hcs
      refine ⟨x, s1, hloop, hx, hf, by rw [hs'], by rw [hs'], by rw [hs'], ?_,
        fun hc => (by rw [hcr] at hc; cases hc),
        fun _ => ⟨by rw [hs', hsample], by rw [hs', hcalls2]⟩⟩
      rw [hs', hcalls2]
      exact ⟨[Call.MFCreateSample] ++ [Call.MFCreateAlignedMemoryBuffer
        (CalculateOutputBufferSize st (outputStreamInfo E s1.calls))
        (CalculateBufferAlignment (outputStreamInfo E s1.calls).cbAlignment %
          UINT32_SIZE).toNat] ++ [Call.AddBuffer], by simp⟩

/-- The engine after an `Initialize` that reported `kOk`, by the candidate loop
of its output-type negotiation. -/
theorem Initialize_ok_negotiated (E : Env) (st : StreamType) (fuel : Nat)
    (config : DecoderConfig) (output_cb : Option OutputCB) (s s' : Engine)
    (h : Initialize E st fuel config output_cb s = .ok ([DecoderStatus.kOk], s')) :
    ∃ s2 x s3 s4, s2.config_ = config ∧ s2.decoder_.isSome = true ∧
      s2.output_samples_per_second_ = s.output_samples_per_second_ ∧
      s2.output_channel_layout_ = s.output_channel_layout_ ∧
      s2.output_sample_size_ = s.output_sample_size_ ∧
      outputTypeLoop E st fuel 0 s2 = .ok (x, s3) ∧ x ≠ TypeSearch.failed ∧
      SetOutputMediaType E st fuel s2 = .ok (true, s4) ∧
      s'.config_ = config ∧ s'.decoder_ = s2.decoder_ ∧ s'.output_cb_ = output_cb ∧
      s'.output_samples_per_second_ = s3.output_samples_per_second_ ∧
      s'.output_channel_layout_ = s3.output_channel_layout_ ∧
      s'.output_sample_size_ = s3.output_sample_size_ ∧
      s'.output_sample_ = s4.output_sample_ ∧
      s'.calls = s4.calls ++ [Call.GetInputStreamInfo] ∧
      s'.tasks = s.tasks := by
  obtain ⟨d, calls1, s5, -, -, hconf, hs'⟩ := Initialize_ok _ _ _ _ _ _ _ h
  obtain ⟨s2, s4, hin, hout, -, hs5⟩ := ConfigureDecoder_ok _ _ _ _ _ hconf
  have hs2 := SetInputMediaType_calls_only _ _ _ _ _ hin
  obtain ⟨x, s3, hloop, hx, -, h1, h2, h3, -⟩ := SetOutputMediaType_true _ _ _ _ _ hout
  have f4 := SetOutputMediaType_frame _ _ _ _ _ _ hout
  have e : ∀ t : Engine, (ResetTimestampState st t).output_samples_per_second_ =
        t.output_samples_per_second_ ∧
      (ResetTimestampState st t).output_channel_layout_ = t.output_channel_layout_ ∧
      (ResetTimestampState st t).output_sample_size_ = t.output_sample_size_ ∧
      (ResetTimestampState st t).output_sample_ = t.output_sample_ := by
    intro t
    cases st <;> exact ⟨rfl, rfl, rfl, rfl⟩
  have fr := ResetTimestampState_frame st { s5 with output_cb_ := output_cb }
  refine ⟨s2, x, s3, s4, by rw [hs2], by rw [hs2]; rfl, by rw [hs2], by rw [hs2], by rw [hs2],
    hloop, hx, hout, ?_, ?_, ?_, ?_, ?_, ?_, ?_, ?_, ?_⟩
  · rw [hs', fr.2.2.2.1, hs5]
    show s4.config_ = config
    rw [f4.config_, hs2]
  · rw [hs', fr.1, hs5]
    exact f4.decoder_
  · rw [hs', fr.2.2.2.2]
  · rw [hs', (e _).1, hs5]
    exact h1
  · rw [hs', (e _).2.1, hs5]
    exact h2
  · rw [hs', (e _).2.2.1, hs5]
    exact h3
  · rw [hs', (e _).2.2.2, hs5]
  · rw [hs', fr.2.2.1, hs5]
  · rw [hs', fr.2.1, hs5]
    show s4.tasks = s.tasks
    rw [f4.tasks, hs2]

/-! ### Video planes -/

theorem tdiv_of_emod_eq_zero (x d : Int) (hd : d ≠ 0) (h : x % d = 0) :
    Int.tdiv x d = x / d := by
  have hx : x = d * (x / d) := by
    have := Int.emod_add_ediv x d
    rw [h] at this
    omega
  calc Int.tdiv x d = Int.tdiv (d * (x / d)) d := by rw [← hx]
    _ = x / d := Int.mul_tdiv_cancel_left _ hd

/-- The arithmetic of the plane offsets for a stride and a row count that are
multiples of 16. -/
theorem plane_arith (R S : Int) (hR : R % 16 = 0) (hS : S % 16 = 0) :
    Int.tdiv (R * S) 4 = R * S / 4 ∧ 4 * (R * S / 4) = R * S ∧
    (R / 2) * (S / 2) = R * S / 4 ∧ Int.tdiv S 2 = S / 2 ∧ 2 * (S / 2) = S := by
  have hR' : R = 16 * (R / 16) := by omega
  have hS' : S = 16 * (S / 16) := by omega
  have hRS : R * S = 4 * (64 * (R / 16) * (S / 16)) := by
    conv_lhs => rw [hR', hS']
    ring
  have hmod : R * S % 4 = 0 := by
    rw [hRS]
    exact Int.mul_emod_right _ _
  have hq : R * S / 4 = 64 * (R / 16) * (S / 16) := by
    rw [hRS]
    exact Int.mul_ediv_cancel_left _ (by decide)
  refine ⟨tdiv_of_emod_eq_zero _ _ (by decide) hmod, by omega, ?_,
    tdiv_of_emod_eq_zero _ _ (by decide) (by omega), by omega⟩
  rw [hq]
  have h1 : R / 2 = 8 * (R / 16) := by omega
  have h2 : S / 2 = 8 * (S / 16) := by omega
  rw [h1, h2]
  ring


/-- The video frame `CreateOutputBufferInternal` makes, in terms of the aligned
stride and row count. -/
theorem CreateOutputBufferInternal_video (E : Env) (s : Engine) (data : List Nat)
    (data_size : Nat) (timestamp : Int) (calls calls' : List Call) (frame : VideoFrame)
    (h : CreateOutputBufferInternal E StreamType.VIDEO s data data_size timestamp calls =
      .ok (some frame, calls')) :
    frame =
      { y_stride := alignUp16 (long (E.stride calls))
        u_stride := Int.tdiv (alignUp16 (long (E.stride calls))) 2
        v_stride := Int.tdiv (alignUp16 (long (E.stride calls))) 2
        y_offset := 0
        u_offset := long (long (alignUp16 (long s.config_.coded_height) *
            alignUp16 (long (E.stride calls))) +
          Int.tdiv (long (alignUp16 (long s.config_.coded_height) *
            alignUp16 (long (E.stride calls)))) 4)
        v_offset := long (alignUp16 (long s.config_.coded_height) *
          alignUp16 (long (E.stride calls)))
        data := data.take data_size
        timestamp := timestamp } := by
  unfold CreateOutputBufferInternal invoke at h
  simp only [] at h
  split at h
  · simp at h
  · split at h
    · simp at h
    · simp only [Except.ok.injEq, Prod.mk.injEq, Option.some.injEq] at h
      obtain ⟨rfl, -⟩ := h
      have hy : ∀ x : Int, (if x ≠ alignUp16 x then alignUp16 x else x) = alignUp16 x := by
        intro x
        split
        · rfl
        · rename_i hne
          exact not_not.mp hne
      simp only [hy]

/-! ### Samples in and out -/

theorem PrepareInputSample_some (E : Env) (s : Engine) (input : DecoderBuffer)
    (calls calls' : List Call) (sample : IMFSample)
    (h : PrepareInputSample E s input calls = (some sample, calls')) :
    sample.sample_time = wrapSigned 64 (input.time_info.timestamp * 10) ∧
    sample.data = input.data.take (dword input.data.length) ∧
    sample.buffer_size = dword input.data.length ∧
    Call.SetSampleTime (wrapSigned 64 (input.time_info.timestamp * 10)) ∈ calls' := by
  unfold PrepareInputSample invoke at h
  simp only [] at h
  split at h
  · simp at h
  · rename_i smp c1 hcs
    have hsmp := CreateSample_some _ _ _ _ _ _ hcs
    (repeat' split at h) <;> simp only [Prod.mk.injEq, Option.some.injEq, reduceCtorEq,
      false_and] at h
    obtain ⟨rfl, rfl⟩ := h
    refine ⟨rfl, rfl, ?_, by simp⟩
    show smp.buffer_size = _
    rw [hsmp.1]

/-- A unit `CreateOutputBuffer` returns was built by `CreateOutputBufferInternal`
from the bytes the locked buffer holds, their number as a `DWORD`, and a tenth
of the sample time, rounded towards zero. -/
theorem CreateOutputBuffer_some (E : Env) (st : StreamType) (s : Engine)
    (pSample : Option IMFSample) (calls calls' : List Call) (output : OutputType st)
    (h : CreateOutputBuffer E st s pSample calls = .ok (some output, calls')) :
    ∃ calls1, CreateOutputBufferInternal E st s
        (E.locked_data (calls ++ [Call.GetSampleTime] ++ [Call.ConvertToContiguousBuffer]))
        (dword (E.locked_data
          (calls ++ [Call.GetSampleTime] ++ [Call.ConvertToContiguousBuffer])).length)
        (Int.tdiv (wrapSigned 64 (E.sample_time calls)) 10)
        (calls ++ [Call.GetSampleTime] ++ [Call.ConvertToContiguousBuffer] ++ [Call.Lock]) =
      .ok (some output, calls1) := by
  unfold CreateOutputBuffer invoke at h
  split at h
  · simp at h
  · simp only [] at h
    split at h
    · simp at h
    · split at h
      · simp at h
      · split at h
        · simp at h
        · split at h
          · simp at h
          · rename_i out calls1 hint
            split at h
            · simp at h
            · simp only [Except.ok.injEq, Prod.mk.injEq] at h
              obtain ⟨rfl, -⟩ := h
              exact ⟨calls1, hint⟩

theorem wrapSigned_64_of_range (x : Int) (h0 : -9223372036854775808 ≤ x)
    (h1 : x < 9223372036854775808) : wrapSigned 64 x = x := by
  unfold wrapSigned
  norm_num
  omega

theorem tdiv_ten (a : Int) :
    Int.tdiv a 10 = if 0 ≤ a then a / 10 else -((-a) / 10) := by
  split
  · rename_i h
    exact Int.tdiv_eq_ediv h (by decide)
  · rename_i h
    have h' : 0 ≤ -a := by omega
    have := Int.tdiv_eq_ediv h' (show (0 : Int) ≤ 10 by decide)
    rw [Int.neg_tdiv] at this
    omega

theorem tdiv_ten_mono (a b : Int) (h : a ≤ b) : Int.tdiv a 10 ≤ Int.tdiv b 10 := by
  rw [tdiv_ten, tdiv_ten]
  split <;> split <;> omega

/-! ### The audio input type -/

theorem userDataBlob_adts (config : DecoderConfig)
    (h : config.platform_media_ffmpeg_demuxer_ = false) :
    userDataBlob config =
      1 :: List.replicate (offsetof_pbAudioSpecificConfig - offsetof_wPayloadType - 1) 0 := by
  unfold userDataBlob
  simp only [h, Bool.false_eq_true, if_false, Bool.not_false, if_true]
  rfl

theorem userDataBlob_raw (config : DecoderConfig)
    (h : config.platform_media_ffmpeg_demuxer_ = true) :
    userDataBlob config =
      List.replicate (offsetof_pbAudioSpecificConfig - offsetof_wPayloadType) 0 ++
        config.extra_data := by
  unfold userDataBlob writeAt offsetof_pbAudioSpecificConfig offsetof_wPayloadType
  simp only [h, if_true, Bool.not_true, Bool.false_eq_true, if_false]
  have h1 : List.take 30 (List.replicate (30 + config.extra_data.length) 0) =
      List.replicate 30 0 := by
    rw [List.take_replicate]
    congr 1
    omega
  have h2 : List.drop (30 + config.extra_data.length)
      (List.replicate (30 + config.extra_data.length) 0) = [] := by
    rw [List.drop_replicate]
    simp
  rw [h1, h2, List.append_nil]
  have h3 : List.drop 18 (List.replicate 30 0 ++ config.extra_data) =
      List.replicate 12 0 ++ config.extra_data := by
    rw [List.drop_append_of_le_length (by simp)]
    rw [List.drop_replicate]
  rw [h3]
  apply List.take_of_length_le
  simp
  omega


/-- The audio input media type, when every setter succeeded, for an AAC config. -/
theorem buildInputMediaType_audio (E : Env) (config : DecoderConfig) (calls calls' : List Call)
    (mt : MediaType) (hc : config.audio_codec = AudioCodec.kAAC)
    (h : buildInputMediaType E StreamType.AUDIO config calls = (some mt, calls')) :
    mt = [(AttrKey.MF_MT_MAJOR_TYPE, AttrValue.guid GUID.MFMediaType_Audio),
          (AttrKey.MF_MT_SUBTYPE, AttrValue.guid GUID.MFAudioFormat_AAC),
          (AttrKey.MF_MT_AUDIO_NUM_CHANNELS, AttrValue.uint32
            (E.ChannelLayoutToChannelCount config.channel_layout % UINT32_SIZE).toNat),
          (AttrKey.MF_MT_AUDIO_SAMPLES_PER_SECOND, AttrValue.uint32
            (config.samples_per_second % UINT32_SIZE).toNat)] ++
        (if config.platform_media_ffmpeg_demuxer_ then []
         else [(AttrKey.MF_MT_AAC_PAYLOAD_TYPE, AttrValue.uint32 1)]) ++
        [(AttrKey.MF_MT_USER_DATA, AttrValue.blob (userDataBlob config))] := by
  cases hff : config.platform_media_ffmpeg_demuxer_
  · by_cases h0 : FAILED (E.hr
        (calls)
        (Call.MFCreateMediaType)) = true
    · simp only [buildInputMediaType, setAttr, invoke, AudioCodecToAudioSubtypeGUID, hc,
        hff, h0, if_true, if_false, Bool.false_eq_true, Bool.not_false,
        Bool.not_true, Prod.mk.injEq, Option.some.injEq, reduceCtorEq, false_and,
        not_true_eq_false, not_false_eq_true, show FAILED S_OK = false from rfl] at h
    · by_cases h1 : FAILED (E.hr
          (calls ++ [Call.MFCreateMediaType])
          (Call.SetGUID AttrKey.MF_MT_MAJOR_TYPE GUID.MFMediaType_Audio)) = true
      · simp only [buildInputMediaType, setAttr, invoke, AudioCodecToAudioSubtypeGUID, hc,
          hff, h0, h1, if_true, if_false, Bool.false_eq_true, Bool.not_false,
          Bool.not_true, Prod.mk.injEq, Option.some.injEq, reduceCtorEq, false_and,
          not_true_eq_false, not_false_eq_true, show FAILED S_OK = false from rfl] at h
      · by_cases h2 : FAILED (E.hr
            (calls ++ [Call.MFCreateMediaType]
              ++ [Call.SetGUID AttrKey.MF_MT_MAJOR_TYPE GUID.MFMediaType_Audio])
            (Call.SetGUID AttrKey.MF_MT_SUBTYPE GUID.MFAudioFormat_AAC)) = true
        · simp only [buildInputMediaType, setAttr, invoke, AudioCodecToAudioSubtypeGUID, hc,
            hff, h0, h1, h2, if_true, if_false, Bool.false_eq_true, Bool.not_false,
            Bool.not_true, Prod.mk.injEq, Option.some.injEq, reduceCtorEq, false_and,
            not_true_eq_false, not_false_eq_true, show FAILED S_OK = false from rfl] at h
        · by_cases h3 : FAILED (E.hr
              (calls ++ [Call.MFCreateMediaType]
                ++ [Call.SetGUID AttrKey.MF_MT_MAJOR_TYPE GUID.MFMediaType_Audio]
                ++ [Call.SetGUID AttrKey.MF_MT_SUBTYPE GUID.MFAudioFormat_AAC])
              (Call.SetUINT32 AttrKey.MF_MT_AUDIO_NUM_CHANNELS
              (E.ChannelLayoutToChannelCount config.channel_layout))) = true
          · simp only [buildInputMediaType, setAttr, invoke, AudioCodecToAudioSubtypeGUID, hc,
              hff, h0, h1, h2, h3, if_true, if_false, Bool.false_eq_true, Bool.not_false,
              Bool.not_true, Prod.mk.injEq, Option.some.injEq, reduceCtorEq, false_and,
              not_true_eq_false, not_false_eq_true, show FAILED S_OK = false from rfl] at h
          · by_cases h4 : FAILED (E.hr
                (calls ++ [Call.MFCreateMediaType]
                  ++ [Call.SetGUID AttrKey.MF_MT_MAJOR_TYPE GUID.MFMediaType_Audio]
                  ++ [Call.SetGUID AttrKey.MF_MT_SUBTYPE GUID.MFAudioFormat_AAC]
                  ++ [Call.SetUINT32 AttrKey.MF_MT_AUDIO_NUM_CHANNELS (E.ChannelLayoutToChannelCount config.channel_layout)])
                (Call.SetUINT32 AttrKey.MF_MT_AUDIO_SAMPLES_PER_SECOND config.samples_per_second)) = true
            · simp only [buildInputMediaType, setAttr, invoke, AudioCodecToAudioSubtypeGUID, hc,
                hff, h0, h1, h2, h3, h4, if_true, if_false, Bool.false_eq_true, Bool.not_false,
                Bool.not_true, Prod.mk.injEq, Option.some.injEq, reduceCtorEq, false_and,
                not_true_eq_false, not_false_eq_true, show FAILED S_OK = false from rfl] at h
            · by_cases h5 : FAILED (E.hr
                  (calls ++ [Call.MFCreateMediaType]
                    ++ [Call.SetGUID AttrKey.MF_MT_MAJOR_TYPE GUID.MFMediaType_Audio]
                    ++ [Call.SetGUID AttrKey.MF_MT_SUBTYPE GUID.MFAudioFormat_AAC]
                    ++ [Call.SetUINT32 AttrKey.MF_MT_AUDIO_NUM_CHANNELS (E.ChannelLayoutToChannelCount config.channel_layout)]
                    ++ [Call.SetUINT32 AttrKey.MF_MT_AUDIO_SAMPLES_PER_SECOND config.samples_per_second])
                  (Call.SetUINT32 AttrKey.MF_MT_AAC_PAYLOAD_TYPE 1)) = true
              · simp only [buildInputMediaType, setAttr, invoke, AudioCodecToAudioSubtypeGUID, hc,
                  hff, h0, h1, h2, h3, h4, h5, if_true, if_false, Bool.false_eq_true, Bool.not_false,
                  Bool.not_true, Prod.mk.injEq, Option.some.injEq, reduceCtorEq, false_and,
                  not_true_eq_false, not_false_eq_true, show FAILED S_OK = false from rfl] at h
              · by_cases h6 : FAILED (E.hr
                    (calls ++ [Call.MFCreateMediaType]
                      ++ [Call.SetGUID AttrKey.MF_MT_MAJOR_TYPE GUID.MFMediaType_Audio]
                      ++ [Call.SetGUID AttrKey.MF_MT_SUBTYPE GUID.MFAudioFormat_AAC]
                      ++ [Call.SetUINT32 AttrKey.MF_MT_AUDIO_NUM_CHANNELS (E.ChannelLayoutToChannelCount config.channel_layout)]
                      ++ [Call.SetUINT32 AttrKey.MF_MT_AUDIO_SAMPLES_PER_SECOND config.samples_per_second]
                      ++ [Call.SetUINT32 AttrKey.MF_MT_AAC_PAYLOAD_TYPE 1])
                    (Call.SetBlob AttrKey.MF_MT_USER_DATA (userDataBlob config))) = true
                · simp only [buildInputMediaType, setAttr, invoke, AudioCodecToAudioSubtypeGUID, hc,
                    hff, h0, h1, h2, h3, h4, h5, h6, if_true, if_false, Bool.false_eq_true, Bool.not_false,
                    Bool.not_true, Prod.mk.injEq, Option.some.injEq, reduceCtorEq, false_and,
                    not_true_eq_false, not_false_eq_true, show FAILED S_OK = false from rfl] at h
                · simp only [buildInputMediaType, setAttr, invoke, AudioCodecToAudioSubtypeGUID, hc,
                    hff, h0, h1, h2, h3, h4, h5, h6, if_true, if_false, Bool.false_eq_true, Bool.not_false,
                    Bool.not_true, Prod.mk.injEq, Option.some.injEq, reduceCtorEq, false_and,
                    not_true_eq_false, not_false_eq_true, show FAILED S_OK = false from rfl] at h
                  rw [← h.1]
                  simp
  · by_cases h0 : FAILED (E.hr
        (calls)
        (Call.MFCreateMediaType)) = true
    · simp only [buildInputMediaType, setAttr, invoke, AudioCodecToAudioSubtypeGUID, hc,
        hff, h0, if_true, if_false, Bool.false_eq_true, Bool.not_false,
        Bool.not_true, Prod.mk.injEq, Option.some.injEq, reduceCtorEq, false_and,
        not_true_eq_false, not_false_eq_true, show FAILED S_OK = false from rfl] at h
    · by_cases h1 : FAILED (E.hr
          (calls ++ [Call.MFCreateMediaType])
          (Call.SetGUID AttrKey.MF_MT_MAJOR_TYPE GUID.MFMediaType_Audio)) = true
      · simp only [buildInputMediaType, setAttr, invoke, AudioCodecToAudioSubtypeGUID, hc,
          hff, h0, h1, if_true, if_false, Bool.false_eq_true, Bool.not_false,
          Bool.not_true, Prod.mk.injEq, Option.some.injEq, reduceCtorEq, false_and,
          not_true_eq_false, not_false_eq_true, show FAILED S_OK = false from rfl] at h
      · by_cases h2 : FAILED (E.hr
            (calls ++ [Call.MFCreateMediaType]
              ++ [Call.SetGUID AttrKey.MF_MT_MAJOR_TYPE GUID.MFMediaType_Audio])
            (Call.SetGUID AttrKey.MF_MT_SUBTYPE GUID.MFAudioFormat_AAC)) = true
        · simp only [buildInputMediaType, setAttr, invoke, AudioCodecToAudioSubtypeGUID, hc,
            hff, h0, h1, h2, if_true, if_false, Bool.false_eq_true, Bool.not_false,
            Bool.not_true, Prod.mk.injEq, Option.some.injEq, reduceCtorEq, false_and,
            not_true_eq_false, not_false_eq_true, show FAILED S_OK = false from rfl] at h
        · by_cases h3 : FAILED (E.hr
              (calls ++ [Call.MFCreateMediaType]
                ++ [Call.SetGUID AttrKey.MF_MT_MAJOR_TYPE GUID.MFMediaType_Audio]
                ++ [Call.SetGUID AttrKey.MF_MT_SUBTYPE GUID.MFAudioFormat_AAC])
              (Call.SetUINT32 AttrKey.MF_MT_AUDIO_NUM_CHANNELS
              (E.ChannelLayoutToChannelCount config.channel_layout))) = true
          · simp only [buildInputMediaType, setAttr, invoke, AudioCodecToAudioSubtypeGUID, hc,
              hff, h0, h1, h2, h3, if_true, if_false, Bool.false_eq_true, Bool.not_false,
              Bool.not_true, Prod.mk.injEq, Option.some.injEq, reduceCtorEq, false_and,
              not_true_eq_false, not_false_eq_true, show FAILED S_OK = false from rfl] at h
          · by_cases h4 : FAILED (E.hr
                (calls ++ [Call.MFCreateMediaType]
                  ++ [Call.SetGUID AttrKey.MF_MT_MAJOR_TYPE GUID.MFMediaType_Audio]
                  ++ [Call.SetGUID AttrKey.MF_MT_SUBTYPE GUID.MFAudioFormat_AAC]
                  ++ [Call.SetUINT32 AttrKey.MF_MT_AUDIO_NUM_CHANNELS (E.ChannelLayoutToChannelCount config.channel_layout)])
                (Call.SetUINT32 AttrKey.MF_MT_AUDIO_SAMPLES_PER_SECOND config.samples_per_second)) = true
            · simp only [buildInputMediaType, setAttr, invoke, AudioCodecToAudioSubtypeGUID, hc,
                hff, h0, h1, h2, h3, h4, if_true, if_false, Bool.false_eq_true, Bool.not_false,
                Bool.not_true, Prod.mk.injEq, Option.some.injEq, reduceCtorEq, false_and,
                not_true_eq_false, not_false_eq_true, show FAILED S_OK = false from rfl] at h
            · by_cases h5 : FAILED (E.hr
                  (calls ++ [Call.MFCreateMediaType]
                    ++ [Call.SetGUID AttrKey.MF_MT_MAJOR_TYPE GUID.MFMediaType_Audio]
                    ++ [Call.SetGUID AttrKey.MF_MT_SUBTYPE GUID.MFAudioFormat_AAC]
                    ++ [Call.SetUINT32 AttrKey.MF_MT_AUDIO_NUM_CHANNELS (E.ChannelLayoutToChannelCount config.channel_layout)]
                    ++ [Call.SetUINT32 AttrKey.MF_MT_AUDIO_SAMPLES_PER_SECOND config.samples_per_second])
                  (Call.SetBlob AttrKey.MF_MT_USER_DATA (userDataBlob config))) = true
              · simp only [buildInputMediaType, setAttr, invoke, AudioCodecToAudioSubtypeGUID, hc,
                  hff, h0, h1, h2, h3, h4, h5, if_true, if_false, Bool.false_eq_true, Bool.not_false,
                  Bool.not_true, Prod.mk.injEq, Option.some.injEq, reduceCtorEq, false_and,
                  not_true_eq_false, not_false_eq_true, show FAILED S_OK = false from rfl] at h
              · simp only [buildInputMediaType, setAttr, invoke, AudioCodecToAudioSubtypeGUID, hc,
                  hff, h0, h1, h2, h3, h4, h5, if_true, if_false, Bool.false_eq_true, Bool.not_false,
                  Bool.not_true, Prod.mk.injEq, Option.some.injEq, reduceCtorEq, false_and,
                  not_true_eq_false, not_false_eq_true, show FAILED S_OK = false from rfl] at h
                rw [← h.1]
                simp


theorem SetInputMediaType_true (E : Env) (st : StreamType) (s s' : Engine)
    (h : SetInputMediaType E st s = .ok (true, s')) :
    ∃ mt calls1, buildInputMediaType E st s.config_ s.calls = (some mt, calls1) ∧
      s'.calls = calls1 ++ [Call.SetInputType mt] := by
  unfold SetInputMediaType invoke at h
  split at h
  · simp at h
  · rename_i mt calls1 hb
    split at h
    · simp at h
    · simp only [Except.ok.injEq, Prod.mk.injEq] at h
      obtain ⟨-, rfl⟩ := h
      exact ⟨mt, calls1, hb, rfl⟩

/-! ### The output sample -/

theorem CalculateBufferAlignment_argument (a : Nat) (h : a < UINT32_SIZE) :
    (CalculateBufferAlignment a % UINT32_SIZE).toNat = if a > 1 then a - 1 else 0 := by
  unfold CalculateBufferAlignment wrapSigned
  unfold UINT32_SIZE at *
  split
  · norm_num
    omega
  · rfl

theorem lor_eq_zero (a b : Nat) : a ||| b = 0 ↔ a = 0 ∧ b = 0 := by
  constructor
  · intro h
    have key : ∀ i, a.testBit i = false ∧ b.testBit i = false := by
      intro i
      have := congrArg (fun n => n.testBit i) h
      simpa [Nat.testBit_or] using this
    exact ⟨Nat.eq_of_testBit_eq (fun i => by simp [(key i).1]),
      Nat.eq_of_testBit_eq (fun i => by simp [(key i).2])⟩
  · rintro ⟨rfl, rfl⟩
    rfl

theorem createsSamples_false_iff (info : MFT_STREAM_INFO) :
    createsSamples info = false ↔
      info.dwFlags &&& MFT_OUTPUT_STREAM_PROVIDES_SAMPLES = 0 ∧
      info.dwFlags &&& MFT_OUTPUT_STREAM_CAN_PROVIDE_SAMPLES = 0 := by
  unfold createsSamples
  rw [Nat.and_or_distrib_left]
  simp [lor_eq_zero]

theorem outputStreamInfo_cbAlignment_lt (E : Env) (calls : List Call) :
    (outputStreamInfo E calls).cbAlignment < UINT32_SIZE :=
  Nat.mod_lt _ (by decide)

/-! ## The claims -/

/-- Claim C1.  For every config that `IsValidConfig` rejects, and in particular
for every encrypted config, `Initialize` runs the init callback once with
`kUnsupportedConfig` and returns the engine it was given: no platform call is
made (no transform is created), no task is posted, and the stored config,
transform handle, output callback and timing queue are the old ones. -/
theorem Initialize_unsupported_config (E : Env) (st : StreamType) (fuel : Nat)
    (config : DecoderConfig) (output_cb : Option OutputCB) (s : Engine)
    (h : (IsValidConfig E st s.calls config).1 = false ∨ config.is_encrypted = true) :
    (IsValidConfig E st s.calls config).1 = false ∧
    Initialize E st fuel config output_cb s = .ok ([DecoderStatus.kUnsupportedConfig], s) := by
  have hrej : (IsValidConfig E st s.calls config).1 = false := by
    rcases h with h | h
    · exact h
    · unfold IsValidConfig
      cases st <;> simp [h]
      · split <;> simp
      · split <;> simp
  refine ⟨hrej, ?_⟩
  unfold Initialize
  simp [hrej]

theorem Initialize_unsupported_config_witness :
    ({ exampleConfig with is_encrypted := true }).is_encrypted = true ∧
    Initialize examplePlatform StreamType.AUDIO 4 { exampleConfig with is_encrypted := true }
        (some 7) WMFDecoderImpl =
      .ok ([DecoderStatus.kUnsupportedConfig], WMFDecoderImpl) :=
  ⟨rfl, (Initialize_unsupported_config examplePlatform StreamType.AUDIO 4
    { exampleConfig with is_encrypted := true } (some 7) WMFDecoderImpl (Or.inr rfl)).2⟩

/-- Claim C2.  The audio `IsValidConfig` returns true exactly when the codec is
AAC, the stream is not encrypted and the AAC decoder library is available. -/
theorem IsValidConfig_audio_iff (E : Env) (calls : List Call) (config : DecoderConfig) :
    (IsValidConfig E StreamType.AUDIO calls config).1 = true ↔
      (config.audio_codec = AudioCodec.kAAC ∧ config.is_encrypted = false ∧
        E.GetWMFLibraryForAAC calls = true) := by
  unfold IsValidConfig
  by_cases hc : config.audio_codec = AudioCodec.kAAC <;>
    cases he : config.is_encrypted <;> simp [hc, he]

/-- Claim C3.  The video `IsValidConfig` returns true exactly when the H.264
library is available, the stream is not encrypted, the codec is H.264 and the
profile lies between `H264PROFILE_MIN` and `H264PROFILE_MAX`.  With the library
available, a wrong codec and an out-of-range profile each write their warning
line and the function goes on: the encrypted check that follows is still
reached, and the result is the final conjunction. -/
theorem IsValidConfig_video_iff (E : Env) (calls : List Call) (config : DecoderConfig) :
    ((IsValidConfig E StreamType.VIDEO calls config).1 = true ↔
      (E.GetWMFLibraryForH264 calls = true ∧ config.is_encrypted = false ∧
        config.video_codec = VideoCodec.kH264 ∧
        E.H264PROFILE_MIN ≤ config.profile ∧ config.profile ≤ E.H264PROFILE_MAX)) ∧
    (E.GetWMFLibraryForH264 calls = true →
      (LogLine.unsupportedVideoCodec ∈ (IsValidConfig E StreamType.VIDEO calls config).2 ↔
        config.video_codec ≠ VideoCodec.kH264) ∧
      (LogLine.profileTooLow ∈ (IsValidConfig E StreamType.VIDEO calls config).2 ↔
        (config.video_codec = VideoCodec.kH264 ∧ config.profile < E.H264PROFILE_MIN)) ∧
      (LogLine.profileTooHigh ∈ (IsValidConfig E StreamType.VIDEO calls config).2 ↔
        (config.video_codec = VideoCodec.kH264 ∧ E.H264PROFILE_MAX < config.profile)) ∧
      (LogLine.unsupportedEncryptedVideo ∈ (IsValidConfig E StreamType.VIDEO calls config).2 ↔
        config.is_encrypted = true)) := by
  unfold IsValidConfig logIf
  by_cases hc : config.video_codec = VideoCodec.kH264 <;>
    cases he : config.is_encrypted <;>
    cases hl : E.GetWMFLibraryForH264 calls <;>
    by_cases h1 : E.H264PROFILE_MIN ≤ config.profile <;>
    by_cases h2 : config.profile ≤ E.H264PROFILE_MAX <;>
    simp [hc, he, hl, h1, h2] <;> omega

theorem IsValidConfig_video_iff_witness :
    examplePlatform.GetWMFLibraryForH264 [] = true ∧
    LogLine.profileTooHigh ∈
      (IsValidConfig examplePlatform StreamType.VIDEO []
        { exampleVideoConfig with profile := 11, is_encrypted := true }).2 ∧
    LogLine.unsupportedEncryptedVideo ∈
      (IsValidConfig examplePlatform StreamType.VIDEO []
        { exampleVideoConfig with profile := 11, is_encrypted := true }).2 :=
  have h := (IsValidConfig_video_iff examplePlatform []
    { exampleVideoConfig with profile := 11, is_encrypted := true }).2 rfl
  ⟨rfl, h.2.2.1.mpr ⟨rfl, by decide⟩, h.2.2.2.mpr rfl⟩

/-- Claim C5, evaluated on a transform that offers no output type at all and on
one that offers floating-point PCM only.  In both runs the candidate list is
exhausted with no candidate accepted and no `SetOutputType` call, yet
`SetOutputMediaType` returns true and `Initialize` reports `kOk`.  For audio the
bytes-per-sample is still the constructor's 0, and the first unit the transform
then produces divides by it. -/
theorem exhausted_output_types_report_ok :
    (∃ s', SetOutputMediaType exhaustedPlatform StreamType.AUDIO 4 exampleReady =
      .ok (true, s')) ∧
    (∃ s', Initialize exhaustedPlatform StreamType.AUDIO 4 exampleConfig (some 7)
        WMFDecoderImpl = .ok ([DecoderStatus.kOk], s') ∧
      s'.output_sample_size_ = 0 ∧
      s'.calls.filter Call.isOutputNegotiation =
        [Call.GetOutputAvailableType 0, Call.GetOutputStreamInfo, Call.MFCreateSample,
         Call.MFCreateAlignedMemoryBuffer 4096 15, Call.AddBuffer]) ∧
    (∃ s', Initialize exhaustedPlatform StreamType.VIDEO 4 exampleVideoConfig (some 7)
        WMFDecoderImpl = .ok ([DecoderStatus.kOk], s') ∧
      s'.calls.filter Call.isOutputNegotiation =
        [Call.GetOutputAvailableType 0, Call.GetOutputStreamInfo, Call.MFCreateSample,
         Call.MFCreateAlignedMemoryBuffer 4096 15, Call.AddBuffer]) ∧
    (∃ s', Initialize floatOnlyPlatform StreamType.AUDIO 4 exampleConfig (some 7)
        WMFDecoderImpl = .ok ([DecoderStatus.kOk], s') ∧
      s'.output_sample_size_ = 0 ∧
      s'.calls.filter Call.isOutputNegotiation =
        [Call.GetOutputAvailableType 0, Call.GetGUID AttrKey.MF_MT_SUBTYPE,
         Call.GetOutputAvailableType 1, Call.GetOutputStreamInfo, Call.MFCreateSample,
         Call.MFCreateAlignedMemoryBuffer 4096 15, Call.AddBuffer] ∧
      Decode floatOnlyPlatform StreamType.AUDIO 4 (exampleBuffer [1] 100) s' =
        .error Fault.divByZero) :=
  ⟨⟨_, rfl⟩, ⟨_, rfl, by decide, by decide⟩, ⟨_, rfl, by decide⟩,
    ⟨_, rfl, by decide, by decide, rfl⟩⟩

/-- Claim C8.  For a buffer that is not end-of-stream and an engine with a
transform, `ProcessInput` returns, with a failure when the sample could not be
built and with the transform's answer otherwise.  When it failed, only the call
history of the engine changed, the transform was not polled, and `Decode` posts
the single task `kPlatformDecodeFailure` and nothing else.  For audio the timing
queue gains the buffer's time info at the back when the submission succeeded and
is unchanged when it failed. -/
theorem submission_failure_confined (E : Env) (st : StreamType) (fuel : Nat)
    (buffer : DecoderBuffer) (s : Engine)
    (heos : buffer.end_of_stream = false) (hd : s.decoder_.isSome = true) :
    ∃ hr s1, ProcessInput E st buffer s = .ok (hr, s1) ∧
      (∀ calls1, PrepareInputSample E s buffer s.calls = (none, calls1) → FAILED hr = true) ∧
      (∀ sample calls1, PrepareInputSample E s buffer s.calls = (some sample, calls1) →
        hr = E.hr calls1 (Call.ProcessInput sample)) ∧
      (FAILED hr = true →
        s1 = { s with calls := s1.calls } ∧
        Decode E st fuel buffer s = .ok { s with
          calls := s1.calls
          tasks := s.tasks ++ [Task.decode_cb DecoderStatus.kPlatformDecodeFailure] } ∧
        s1.calls.count Call.ProcessOutput = s.calls.count Call.ProcessOutput) ∧
      (st = StreamType.AUDIO →
        (FAILED hr = false →
          s1.queued_input_timing_ = s.queued_input_timing_ ++ [buffer.time_info]) ∧
        (FAILED hr = true → s1.queued_input_timing_ = s.queued_input_timing_)) := by
  obtain ⟨⟨hr, s1⟩, hin⟩ := ProcessInput_returns E st buffer s hd
  obtain ⟨hcalls, hnone, hsome⟩ := ProcessInput_spec _ _ _ _ _ _ hin
  have hstate : FAILED hr = true → s1 = { s with calls := s1.calls } := by
    intro hf
    cases hp : PrepareInputSample E s buffer s.calls with
    | mk o calls1 =>
      cases o with
      | none => rw [(hnone calls1 hp).2]
      | some sample =>
        have h2 := (hsome sample calls1 hp).2
        rw [SUCCEEDED_eq_not_FAILED, hf] at h2
        simp only [Bool.not_true, Bool.false_eq_true, if_false] at h2
        rw [h2]
  have hqueue : st = StreamType.AUDIO → FAILED hr = false →
      s1.queued_input_timing_ = s.queued_input_timing_ ++ [buffer.time_info] := by
    intro hst hf
    subst hst
    cases hp : PrepareInputSample E s buffer s.calls with
    | mk o calls1 =>
      cases o with
      | none =>
        have := (hnone calls1 hp).1
        rw [this] at hf
        exact absurd hf (by decide)
      | some sample =>
        have h2 := (hsome sample calls1 hp).2
        rw [SUCCEEDED_eq_not_FAILED, hf] at h2
        simp only [Bool.not_false, if_true] at h2
        rw [h2]
        rfl
  refine ⟨hr, s1, hin, ?_, fun sample calls1 hp => (hsome sample calls1 hp).1, ?_, ?_⟩
  · intro calls1 hp
    rw [(hnone calls1 hp).1]
    decide
  · intro hf
    refine ⟨hstate hf, ?_, hcalls.count_eq _ rfl⟩
    unfold Decode
    simp only [heos, Bool.false_eq_true, if_false, hin, SUCCEEDED_eq_not_FAILED, hf,
      Bool.not_true, PostTask]
    have h1 := hstate hf
    conv_lhs => rw [h1]
  · intro hst
    refine ⟨hqueue hst, ?_⟩
    intro hf
    rw [hstate hf]

theorem submission_failure_confined_witness :
    (exampleBuffer [1, 2] 100).end_of_stream = false ∧
    exampleReady.decoder_.isSome = true ∧
    (∃ hr s1, ProcessInput rejectingPlatform StreamType.AUDIO (exampleBuffer [1, 2] 100)
      exampleReady = .ok (hr, s1)) ∧
    ∃ s', Decode rejectingPlatform StreamType.AUDIO 4 (exampleBuffer [1, 2] 100)
        exampleReady = .ok s' ∧
      s'.tasks = [Task.decode_cb DecoderStatus.kPlatformDecodeFailure] ∧
      s'.queued_input_timing_ = [] := by
  obtain ⟨hr, s1, h, -⟩ := submission_failure_confined rejectingPlatform StreamType.AUDIO 4
    (exampleBuffer [1, 2] 100) exampleReady rfl rfl
  exact ⟨rfl, rfl, ⟨hr, s1, h⟩, _, rfl, by decide, by decide⟩

/-- Claim C9.  `ProcessOutputLoop` returns exactly when some step ends it (a
failure other than format-changed, after steps that all continue), and it
returns true exactly when that step's result is need-more-input.  In
particular a `Decode` whose submission succeeded and whose first step answers
need-more-input posts `kOk` and no output callback; and a step in which the
transform is polled and answers need-more-input returns that result. -/
theorem drain_loop_ok_iff_need_more_input (E : Env) (st : StreamType) (fuel n : Nat)
    (s s' : Engine) (b : Bool) :
    (ProcessOutputLoop E st fuel n s = .ok (b, s') ↔
      ∃ hrs hr, hrs.length < n ∧
        pollSteps E st fuel (hrs.length + 1) s = .ok (hrs ++ [hr], s') ∧
        (∀ x ∈ hrs, loopContinues x = true) ∧ loopContinues hr = false ∧
        b = decide (hr = MF_E_TRANSFORM_NEED_MORE_INPUT)) ∧
    (∀ buffer s0 hr, buffer.end_of_stream = false →
      ProcessInput E st buffer s0 = .ok (hr, s) → FAILED hr = false →
      ProcessOutput E st fuel s = .ok (MF_E_TRANSFORM_NEED_MORE_INPUT, s') → 0 < fuel →
      Decode E st fuel buffer s0 = .ok (PostTask (Task.decode_cb DecoderStatus.kOk) s') ∧
      (PostTask (Task.decode_cb DecoderStatus.kOk) s').tasks =
        s0.tasks ++ [Task.decode_cb DecoderStatus.kOk]) ∧
    (∀ s0 sample d, s0.output_sample_ = some sample → s0.decoder_ = some d →
      FAILED (E.hr s0.calls Call.ConvertToContiguousBuffer) = false →
      FAILED (E.hr (s0.calls ++ [Call.ConvertToContiguousBuffer])
        (Call.SetCurrentLength 0)) = false →
      E.hr (s0.calls ++ [Call.ConvertToContiguousBuffer] ++ [Call.SetCurrentLength 0])
        Call.ProcessOutput = MF_E_TRANSFORM_NEED_MORE_INPUT →
      ProcessOutput E st fuel s0 = .ok (MF_E_TRANSFORM_NEED_MORE_INPUT, { s0 with calls :=
        s0.calls ++ [Call.ConvertToContiguousBuffer] ++ [Call.SetCurrentLength 0] ++
          [Call.ProcessOutput] })) := by
  refine ⟨ProcessOutputLoop_ok_iff E st fuel n s s' b, ?_, ?_⟩
  rotate_left
  · intro s0 sample d hsmp hd h1 h2 h3
    have e1 : MF_E_TRANSFORM_NEED_MORE_INPUT ≠ S_OK := by decide
    unfold ProcessOutput invoke
    simp only [hsmp, h1, Bool.false_eq_true, if_false, h2, hd, h3, e1, if_true]
  intro buffer s0 hr heos hin hf hstep hfuel
  have hloop : ProcessOutputLoop E st fuel fuel s = .ok (true, s') := by
    obtain ⟨m, rfl⟩ : ∃ m, fuel = m + 1 := ⟨fuel - 1, by omega⟩
    rw [ProcessOutputLoop, hstep]
    rfl
  have htasks := (ProcessOutput_no_unit _ _ _ _ _ _ hstep (by decide) (by decide)
    (by decide)).1
  have hin0 : s.tasks = s0.tasks := by
    rw [ProcessInput_fields _ _ _ _ _ _ hin]
  refine ⟨?_, ?_⟩
  · unfold Decode
    simp only [heos, Bool.false_eq_true, if_false, hin, SUCCEEDED_eq_not_FAILED, hf,
      Bool.not_false, if_true, hloop]
  · simp only [PostTask, htasks, hin0]

theorem drain_loop_ok_iff_need_more_input_witness :
    (exampleBuffer [] 100).end_of_stream = false ∧
    ProcessInput examplePlatform StreamType.AUDIO (exampleBuffer [] 100) exampleReady =
      .ok (S_OK, exampleSubmitted []) ∧
    ProcessOutput examplePlatform StreamType.AUDIO 4 (exampleSubmitted []) =
      .ok (MF_E_TRANSFORM_NEED_MORE_INPUT, examplePolled (exampleSubmitted [])) ∧
    Decode examplePlatform StreamType.AUDIO 4 (exampleBuffer [] 100) exampleReady =
      .ok (PostTask (Task.decode_cb DecoderStatus.kOk) (examplePolled (exampleSubmitted []))) ∧
    (PostTask (Task.decode_cb DecoderStatus.kOk) (examplePolled (exampleSubmitted []))).tasks =
      [Task.decode_cb DecoderStatus.kOk] := by
  have h := (drain_loop_ok_iff_need_more_input examplePlatform StreamType.AUDIO 4 0
    (exampleSubmitted []) (examplePolled (exampleSubmitted [])) true).2.1
    (exampleBuffer [] 100) exampleReady S_OK rfl rfl (by decide) rfl (by decide)
  exact ⟨rfl, rfl, rfl, h.1, by decide⟩

/-- Claim C11.  Audio: on an empty timing queue `ProcessBuffer` returns `false`
and leaves the engine as it was, so the discard helper is not consulted (its
record of processed units is the same) and the queue stays empty.  A drain step
that starts on an empty queue posts no task, leaves the queue empty and the
discard helper as it was, whatever the transform answers; and when the transform
answers `S_OK` and the unit is built, the step returns `S_OK` with nothing but
the call history changed: the unit is dropped, not dispatched. -/
theorem empty_queue_rejects_unit (E : Env) (fuel : Nat) (s : Engine)
    (hq : s.queued_input_timing_ = []) :
    (∀ output : AudioBuffer,
      ProcessBuffer E StreamType.AUDIO output s = .ok (false, output, s)) ∧
    (∀ hr s', ProcessOutput E StreamType.AUDIO fuel s = .ok (hr, s') →
      s'.tasks = s.tasks ∧ s'.queued_input_timing_ = [] ∧
      s'.discard_helper_ = s.discard_helper_) ∧
    (∀ (sample : IMFSample) (d : Nat) (output : AudioBuffer) (calls1 : List Call),
      s.output_sample_ = some sample → s.decoder_ = some d →
      FAILED (E.hr s.calls Call.ConvertToContiguousBuffer) = false →
      FAILED (E.hr (s.calls ++ [Call.ConvertToContiguousBuffer])
        (Call.SetCurrentLength 0)) = false →
      pollAnswer E s = S_OK →
      CreateOutputBuffer E StreamType.AUDIO (polled s) (polled s).output_sample_
        (polled s).calls = .ok (some output, calls1) →
      ProcessOutput E StreamType.AUDIO fuel s =
        .ok (S_OK, { s with calls := calls1 })) := by
  have hpb : ∀ (s0 : Engine) (output : AudioBuffer), s0.queued_input_timing_ = [] →
      ProcessBuffer E StreamType.AUDIO output s0 = .ok (false, output, s0) := by
    intro s0 output h0
    unfold ProcessBuffer
    simp only [h0]
  refine ⟨fun output => hpb s output hq, ?_, ?_⟩
  · intro hr s' h
    rcases ProcessOutput_cases _ _ _ _ _ _ h with
      ⟨-, ht, hq', hh⟩ | ⟨-, output, calls1, accepted, output', s2, -, hpb', hd⟩
    · exact ⟨ht, hq'.trans hq, hh⟩
    · rw [hpb { polled s with calls := calls1 } output hq] at hpb'
      simp only [Except.ok.injEq, Prod.mk.injEq] at hpb'
      obtain ⟨rfl, rfl, rfl⟩ := hpb'
      simp only [dispatchUnit, Bool.false_eq_true, if_false, Prod.mk.injEq] at hd
      obtain ⟨-, rfl⟩ := hd
      exact ⟨rfl, hq, rfl⟩
  · intro sample d output calls1 hs hd h1 h2 hok hcob
    have h := ProcessOutput_unit E StreamType.AUDIO fuel s _ sample d output _ calls1 _
      hs hd h1 h2 hok hcob (hpb { polled s with calls := calls1 } output hq)
    rw [h]
    rfl


theorem empty_queue_rejects_unit_witness :
    exampleOverrun.queued_input_timing_ = [] ∧
    pollAnswer prolificPlatform exampleOverrun = S_OK ∧
    ∃ s', ProcessOutput prolificPlatform StreamType.AUDIO 4 exampleOverrun = .ok (S_OK, s') ∧
      s'.tasks = exampleOverrun.tasks ∧ s'.queued_input_timing_ = [] ∧
      s'.discard_helper_ = exampleOverrun.discard_helper_ :=
  ⟨by decide, rfl, _, rfl,
    (empty_queue_rejects_unit prolificPlatform 4 exampleOverrun (by decide)).2.1 _ _ rfl⟩

/-- Claim C12.  Audio: a timestamp reset leaves the timing queue empty, and over
every sequence of `Decode` calls from an engine with an empty queue the number
of tasks dispatched to the output callback grows by no more than the number of
inputs the transform accepted, which is no more than the number of buffers that
are not end of stream: `N` submissions and an end of stream dispatch at most `N`
units. -/
theorem dispatched_le_submitted (E : Env) (fuel : Nat) (buffers : List DecoderBuffer)
    (s s' : Engine) (hq : s.queued_input_timing_ = [])
    (h : decodeAll E StreamType.AUDIO fuel buffers s = .ok s') :
    (∀ s0, (ResetTimestampState StreamType.AUDIO s0).queued_input_timing_ = []) ∧
    dispatched s' ≤ dispatched s +
      (acceptedTimings E StreamType.AUDIO fuel buffers s).length ∧
    (acceptedTimings E StreamType.AUDIO fuel buffers s).length ≤
      buffers.countP (fun b => !b.end_of_stream) := by
  have f := decodeAll_pairing _ _ _ _ _ h
  refine ⟨fun _ => rfl, ?_, acceptedTimings_length _ _ _ _ _⟩
  have ht := congrArg List.length f.total
  have hb := f.bound
  simp only [List.length_append, hq, List.length_nil] at ht
  omega

theorem dispatched_le_submitted_witness :
    exampleReady.queued_input_timing_ = [] ∧
    ∃ s', decodeAll prolificPlatform StreamType.AUDIO 4
        [exampleBuffer [1] 100, exampleEndOfStream] exampleReady = .ok s' ∧
      dispatched exampleReady = 0 ∧ dispatched s' ≤ 1 :=
  ⟨by decide, _, rfl, by decide,
    (dispatched_le_submitted prolificPlatform 4 [exampleBuffer [1] 100, exampleEndOfStream]
      exampleReady _ (by decide) rfl).2.1⟩

/-- Claim C13.  On an engine with a transform, the audio `Reset` returns an
engine whose timing queue is empty and whose discard helper is a new one, made
from the sample rate and the codec delay of the stored config and reset to that
codec delay, with no unit processed.  On that engine a unit is rejected while
nothing has been submitted, and after every sequence of `Decode` calls the
timings handed to the discard helper, followed by those still queued, are
exactly the timings of the inputs accepted after the `Reset`: no timing from
before it is paired.  The video `Reset` changes nothing but the call history
(the flush) and the posted tasks (the closure). -/
theorem Reset_clears_pairing (E : Env) (fuel : Nat) (s : Engine) (d : Nat)
    (hd : s.decoder_ = some d) :
    (∃ s1, Reset E StreamType.AUDIO s = .ok s1 ∧ s1.queued_input_timing_ = [] ∧
      s1.discard_helper_ = some
        { sample_rate := s.config_.samples_per_second
          decoder_delay := s.config_.codec_delay
          delayed_discard := false
          initial_discard := s.config_.codec_delay
          processed := [] } ∧
      (∀ output : AudioBuffer,
        ProcessBuffer E StreamType.AUDIO output s1 = .ok (false, output, s1)) ∧
      ∀ buffers s', decodeAll E StreamType.AUDIO fuel buffers s1 = .ok s' →
        pairedTimings s' ++ s'.queued_input_timing_ =
          acceptedTimings E StreamType.AUDIO fuel buffers s1) ∧
    Reset E StreamType.VIDEO s = .ok
      { s with
        calls := s.calls ++ [Call.ProcessMessage MFT_MESSAGE.MFT_MESSAGE_COMMAND_FLUSH]
        tasks := s.tasks ++ [Task.closure] } := by
  refine ⟨⟨_, Reset_spec E StreamType.AUDIO s d hd, rfl, rfl, ?_, ?_⟩,
    Reset_spec E StreamType.VIDEO s d hd⟩
  · intro output
    rfl
  · intro buffers s' h
    have f := decodeAll_pairing _ _ _ _ _ h
    rw [f.total]
    rfl

theorem Reset_clears_pairing_witness :
    (exampleSubmitted [255]).decoder_ = some 3 ∧
    (exampleSubmitted [255]).queued_input_timing_ = [(exampleBuffer [255] 100).time_info] ∧
    ∃ s1 s', Reset examplePlatform StreamType.AUDIO (exampleSubmitted [255]) = .ok s1 ∧
      s1.queued_input_timing_ = [] ∧
      decodeAll examplePlatform StreamType.AUDIO 4 [exampleBuffer [1] 200] s1 = .ok s' ∧
      pairedTimings s' ++ s'.queued_input_timing_ = [(exampleBuffer [1] 200).time_info] := by
  obtain ⟨⟨s1, h1, hq, -, -, hrun⟩, -⟩ :=
    Reset_clears_pairing examplePlatform 4 (exampleSubmitted [255]) 3 rfl
  cases h1
  refine ⟨rfl, rfl, _, _, rfl, hq, rfl, ?_⟩
  exact hrun [exampleBuffer [1] 200] _ rfl

/-- Claim C14, as stated, fails.  On `singleTransformPlatform` a first
`Initialize` reports `kOk`; a second one, with the same accepted config, cannot
make its transform, reports `kFailedToCreateDecoder` and leaves the handle
absent; the `Reset` after it uses the absent transform. -/
theorem reset_after_failed_creation :
    ∃ s1 s2,
      Initialize singleTransformPlatform StreamType.AUDIO 4 exampleConfig (some 7)
        WMFDecoderImpl = .ok ([DecoderStatus.kOk], s1) ∧
      Initialize singleTransformPlatform StreamType.AUDIO 4 exampleConfig (some 7) s1 =
        .ok ([DecoderStatus.kFailedToCreateDecoder], s2) ∧
      s2.decoder_ = none ∧
      Reset singleTransformPlatform StreamType.AUDIO s2 = .error Fault.nullDeref ∧
      run singleTransformPlatform StreamType.AUDIO 4
        [EngineCall.Initialize exampleConfig (some 7),
          EngineCall.Initialize exampleConfig (some 7), EngineCall.Reset] WMFDecoderImpl =
        .error Fault.nullDeref :=
  ⟨_, _, rfl, rfl, by decide, rfl, rfl⟩

/-- Claim C14, amended.  After an `Initialize` that reported `kOk`, over every
sequence of `Initialize`, `Decode` and `Reset` calls in which every `Initialize`
either has its config rejected or makes its transform, the engine holds a
transform handle, and a `Reset` then returns: it sends the transform the flush
command as its one call and posts the closure as its one task, keeping the
handle. -/
theorem Reset_finds_transform (E : Env) (st : StreamType) (fuel : Nat)
    (config : DecoderConfig) (output_cb : Option OutputCB) (calls : List EngineCall)
    (s0 s s' : Engine)
    (hinit : Initialize E st fuel config output_cb s0 = .ok ([DecoderStatus.kOk], s))
    (hkeep : keepsTransform E st fuel calls s = true)
    (hrun : run E st fuel calls s = .ok s') :
    ∃ d s'', s'.decoder_ = some d ∧ Reset E st s' = .ok s'' ∧
      s''.calls = s'.calls ++ [Call.ProcessMessage MFT_MESSAGE.MFT_MESSAGE_COMMAND_FLUSH] ∧
      s''.tasks = s'.tasks ++ [Task.closure] ∧ s''.decoder_ = some d := by
  have hd : s.decoder_.isSome = true := (Initialize_decoder _ _ _ _ _ _ _ _ hinit).2.2 rfl
  have hd' := run_decoder _ _ _ _ _ _ hd hkeep hrun
  obtain ⟨d, hd''⟩ := Option.isSome_iff_exists.mp hd'
  refine ⟨d, _, hd'', Reset_spec E st s' d hd'', ?_, ?_, ?_⟩
  · exact (ResetTimestampState_frame st _).2.2.1
  · show (ResetTimestampState st _).tasks ++ [Task.closure] = _
    rw [(ResetTimestampState_frame st _).2.1]
  · show (ResetTimestampState st _).decoder_ = _
    rw [(ResetTimestampState_frame st _).1]
    exact hd''

theorem Reset_finds_transform_witness :
    Initialize examplePlatform StreamType.AUDIO 4 exampleConfig (some 7) WMFDecoderImpl =
      .ok ([DecoderStatus.kOk], exampleReady) ∧
    keepsTransform examplePlatform StreamType.AUDIO 4
      [EngineCall.Decode (exampleBuffer [1] 100), EngineCall.Reset,
        EngineCall.Initialize exampleConfig (some 8), EngineCall.Decode exampleEndOfStream]
      exampleReady = true ∧
    ∃ s' s'', run examplePlatform StreamType.AUDIO 4
        [EngineCall.Decode (exampleBuffer [1] 100), EngineCall.Reset,
          EngineCall.Initialize exampleConfig (some 8), EngineCall.Decode exampleEndOfStream]
        exampleReady = .ok s' ∧
      Reset examplePlatform StreamType.AUDIO s' = .ok s'' ∧
      s''.tasks = s'.tasks ++ [Task.closure] := by
  obtain ⟨d, s'', -, h, -, ht, -⟩ := Reset_finds_transform examplePlatform StreamType.AUDIO 4
    exampleConfig (some 7)
    [EngineCall.Decode (exampleBuffer [1] 100), EngineCall.Reset,
      EngineCall.Initialize exampleConfig (some 8), EngineCall.Decode exampleEndOfStream]
    WMFDecoderImpl exampleReady _ rfl rfl rfl
  exact ⟨rfl, rfl, _, s'', rfl, h, ht⟩

/-- Claim C15, as stated, fails.  A video `Decode` on a platform that reports a
raw stride of 300 dispatches a frame whose Y stride is 304 and whose U and V
strides are 152, which is not a multiple of 16.  And with wrap-around `LONG`
arithmetic a raw stride of `2^31 - 1` gives a Y stride of `-2^31`, below the raw
stride. -/
theorem chroma_strides_not_aligned :
    (∃ s' frame, Decode exampleVideoPlatform StreamType.VIDEO 4 (exampleBuffer [1] 100)
        exampleVideoReady = .ok s' ∧
      exampleVideoPlatform.stride [] = 300 ∧
      s'.tasks = [Task.output_cb 7 (OutputBuffer.video frame),
        Task.decode_cb DecoderStatus.kOk] ∧
      frame.y_stride = 304 ∧ frame.u_stride = 152 ∧ frame.v_stride = 152 ∧
      frame.u_stride % 16 = 8 ∧ frame.v_stride % 16 = 8) ∧
    (∃ frame calls, CreateOutputBufferInternal
        { exampleVideoPlatform with stride := fun _ => 2147483647 } StreamType.VIDEO
        exampleVideoReady [] 0 0 [] = .ok (some frame, calls) ∧
      frame.y_stride = -2147483648) :=
  ⟨⟨_, _, rfl, rfl, rfl, by decide, by decide, by decide, by decide, by decide⟩,
    ⟨_, _, rfl, by decide⟩⟩

/-- Claim C15, amended.  Whatever the coded size and the raw stride, the Y
stride passed to the video frame is a multiple of 16, and the U and V strides
are half the Y stride, so multiples of 8.  When the raw stride plus 15 fits a
`LONG`, the Y stride is the least multiple of 16 that is at least the raw
stride. -/
theorem video_plane_strides (E : Env) (s : Engine) (data : List Nat) (data_size : Nat)
    (timestamp : Int) (calls calls' : List Call) (frame : VideoFrame)
    (h : CreateOutputBufferInternal E StreamType.VIDEO s data data_size timestamp calls =
      .ok (some frame, calls')) :
    frame.y_stride % 16 = 0 ∧ 2 * frame.u_stride = frame.y_stride ∧
    2 * frame.v_stride = frame.y_stride ∧ frame.u_stride % 8 = 0 ∧ frame.v_stride % 8 = 0 ∧
    (long (E.stride calls) + 15 < 2147483648 →
      long (E.stride calls) ≤ frame.y_stride ∧ frame.y_stride < long (E.stride calls) + 16 ∧
      ∀ m : Int, m % 16 = 0 → long (E.stride calls) ≤ m → frame.y_stride ≤ m) := by
  unfold CreateOutputBufferInternal invoke at h
  simp only [] at h
  split at h
  · simp at h
  · split at h
    · simp at h
    · simp only [Except.ok.injEq, Prod.mk.injEq, Option.some.injEq] at h
      obtain ⟨rfl, -⟩ := h
      have hy : (if long (E.stride calls) ≠ alignUp16 (long (E.stride calls)) then
          alignUp16 (long (E.stride calls)) else long (E.stride calls)) =
          alignUp16 (long (E.stride calls)) := by
        split
        · rfl
        · rename_i hne
          exact not_not.mp hne
      simp only [hy]
      have hm := alignUp16_emod (long (E.stride calls))
      have hc : alignUp16 (long (E.stride calls)) =
          2 * (alignUp16 (long (E.stride calls)) / 2) := by omega
      have hdiv : Int.tdiv (alignUp16 (long (E.stride calls))) 2 =
          alignUp16 (long (E.stride calls)) / 2 :=
        calc Int.tdiv (alignUp16 (long (E.stride calls))) 2
            = Int.tdiv (2 * (alignUp16 (long (E.stride calls)) / 2)) 2 := by rw [← hc]
          _ = alignUp16 (long (E.stride calls)) / 2 := Int.mul_tdiv_cancel_left _ (by decide)
      rw [hdiv]
      refine ⟨hm, by omega, by omega, by omega, by omega, ?_⟩
      intro hfit
      obtain ⟨h0, h1⟩ := alignUp16_least (long (E.stride calls)) (long_range _).1 hfit
      refine ⟨h0, h1, ?_⟩
      intro m hm16 hle
      omega

theorem video_plane_strides_witness :
    ∃ frame calls, CreateOutputBufferInternal examplePlatform StreamType.VIDEO
        exampleVideoReady [1, 2, 3] 3 100 [] = .ok (some frame, calls) ∧
      long (examplePlatform.stride []) = 300 ∧ frame.y_stride = 304 ∧
      frame.u_stride % 8 = 0 ∧ frame.v_stride % 8 = 0 ∧
      ∃ frame' calls', CreateOutputBufferInternal
          { examplePlatform with stride := fun _ => 304 } StreamType.VIDEO
          exampleVideoReady [1, 2, 3] 3 100 [] = .ok (some frame', calls') ∧
        frame'.y_stride = 304 ∧ frame'.y_stride % 16 = 0 := by
  have h := video_plane_strides examplePlatform exampleVideoReady [1, 2, 3] 3 100 [] _ _ rfl
  have h' := video_plane_strides { examplePlatform with stride := fun _ => 304 }
    exampleVideoReady [1, 2, 3] 3 100 [] _ _ rfl
  exact ⟨_, _, rfl, by decide, by decide, h.2.2.2.1, h.2.2.2.2.1, _, _, rfl, by decide, h'.1⟩

/-- Claim C17, as stated, fails.  On `pickyPlatform` a `Decode` whose input the
transform refuses reports `kPlatformDecodeFailure`, and the next `Decode`, with
no `Initialize` in between, reports `kOk` and dispatches a unit. -/
theorem decode_succeeds_after_failure :
    ∃ s1 s2 unit,
      Decode pickyPlatform StreamType.AUDIO 4 (exampleBuffer [0] 100) exampleReady = .ok s1 ∧
      s1.tasks = [Task.decode_cb DecoderStatus.kPlatformDecodeFailure] ∧
      Decode pickyPlatform StreamType.AUDIO 4 (exampleBuffer [1] 200) s1 = .ok s2 ∧
      s2.tasks = [Task.decode_cb DecoderStatus.kPlatformDecodeFailure,
        Task.output_cb 7 unit, Task.decode_cb DecoderStatus.kOk] :=
  ⟨_, _, _, rfl, by decide, rfl, rfl⟩

/-- Claim C17, amended.  The engine keeps no error state: a `Decode` that
returns, whatever status it reported, leaves the stored config, the transform
handle, the output callback and the input stream info as they were, and the
status of a later `Decode` is that of its own submission and drain loop alone.
It reports `kOk` when its input is accepted and its drain loop ends on
need-more-input, or when it is an end of stream and its drain does. -/
theorem Decode_keeps_no_error_state (E : Env) (st : StreamType) (fuel : Nat)
    (buffer : DecoderBuffer) (s s1 : Engine) (h : Decode E st fuel buffer s = .ok s1) :
    s1.config_ = s.config_ ∧ s1.decoder_ = s.decoder_ ∧ s1.output_cb_ = s.output_cb_ ∧
    s1.input_stream_info_ = s.input_stream_info_ ∧
    (∀ (next : DecoderBuffer) (hr : HRESULT) (s2 s3 : Engine),
      next.end_of_stream = false →
      ProcessInput E st next s1 = .ok (hr, s2) → SUCCEEDED hr = true →
      ProcessOutputLoop E st fuel fuel s2 = .ok (true, s3) →
      Decode E st fuel next s1 = .ok (PostTask (Task.decode_cb DecoderStatus.kOk) s3)) ∧
    (∀ (next : DecoderBuffer) (s3 : Engine),
      next.end_of_stream = true → Drain E st fuel s1 = .ok (true, s3) →
      Decode E st fuel next s1 = .ok (PostTask (Task.decode_cb DecoderStatus.kOk) s3)) := by
  obtain ⟨h1, h2, h3, h4, -⟩ := Decode_frame _ _ _ _ _ _ h
  refine ⟨h1, h2, h3, h4, ?_, ?_⟩
  · intro next hr s2 s3 heos hin hs hloop
    unfold Decode
    rw [if_neg (by rw [heos]; decide), hin]
    simp only []
    rw [if_pos hs, hloop]
    rfl
  · intro next s3 heos hdrain
    unfold Decode
    rw [if_pos heos, hdrain]
    rfl

theorem Decode_keeps_no_error_state_witness :
    ∃ s1 s2 s3,
      Decode pickyPlatform StreamType.AUDIO 4 (exampleBuffer [0] 100) exampleReady = .ok s1 ∧
      s1.tasks = [Task.decode_cb DecoderStatus.kPlatformDecodeFailure] ∧
      ProcessInput pickyPlatform StreamType.AUDIO (exampleBuffer [1] 200) s1 = .ok (S_OK, s2) ∧
      ProcessOutputLoop pickyPlatform StreamType.AUDIO 4 4 s2 = .ok (true, s3) ∧
      Decode pickyPlatform StreamType.AUDIO 4 (exampleBuffer [1] 200) s1 =
        .ok (PostTask (Task.decode_cb DecoderStatus.kOk) s3) := by
  refine ⟨_, _, _, rfl, by decide, rfl, rfl, ?_⟩
  exact (Decode_keeps_no_error_state pickyPlatform StreamType.AUDIO 4 (exampleBuffer [0] 100)
    exampleReady _ rfl).2.2.2.2.1 (exampleBuffer [1] 200) S_OK _ _ rfl rfl rfl rfl

/-- Claim C19, as stated, fails.  On `discardingPlatform`, with no output
callback set, a `Decode` whose input makes the transform produce a unit hands
that unit to the discard helper, which drops it; the drain loop goes on to
need-more-input and the `Decode` reports `kOk`. -/
theorem dropped_unit_skips_callback_check :
    exampleNoCallback.output_cb_ = none ∧
    ∃ s', Decode discardingPlatform StreamType.AUDIO 4 (exampleBuffer [1] 100)
        exampleNoCallback = .ok s' ∧
      pairedTimings s' = [(exampleBuffer [1] 100).time_info] ∧
      s'.tasks = [Task.decode_cb DecoderStatus.kOk] :=
  ⟨by decide, _, rfl, by decide, by decide⟩

/-- Claim C19, amended.  With no output callback set, when after some drain
steps that let the loop go on the transform answers `S_OK`, the unit is built
and `ProcessBuffer` accepts it, the step returns `E_ABORT` and the drain loop
returns `false`, so the enclosing `Decode` reports `kPlatformDecodeFailure`, or
`kMalformedBitstream` at end of stream.  For video `ProcessBuffer` accepts every
unit; for audio it accepts a unit only when the timing queue is not empty and
the discard helper returns `true`. -/
theorem accepted_unit_without_callback_aborts (E : Env) (st : StreamType) (fuel : Nat)
    (s sj s2 : Engine) (hrs : List HRESULT) (sample : IMFSample) (d : Nat)
    (output output' : OutputType st) (calls1 : List Call)
    (hcb : s.output_cb_ = none)
    (hsteps : pollSteps E st fuel hrs.length s = .ok (hrs, sj))
    (hcont : ∀ x ∈ hrs, loopContinues x = true)
    (hs : sj.output_sample_ = some sample) (hd : sj.decoder_ = some d)
    (h1 : FAILED (E.hr sj.calls Call.ConvertToContiguousBuffer) = false)
    (h2 : FAILED (E.hr (sj.calls ++ [Call.ConvertToContiguousBuffer])
      (Call.SetCurrentLength 0)) = false)
    (hok : pollAnswer E sj = S_OK)
    (hcob : CreateOutputBuffer E st (polled sj) (polled sj).output_sample_ (polled sj).calls =
      .ok (some output, calls1))
    (hpb : ProcessBuffer E st output { polled sj with calls := calls1 } =
      .ok (true, output', s2)) :
    ProcessOutput E st fuel sj = .ok (E_ABORT, s2) ∧
    (∀ n, hrs.length < n → ProcessOutputLoop E st fuel n s = .ok (false, s2)) ∧
    (∀ (buffer : DecoderBuffer) (s0 : Engine) (hr0 : HRESULT),
      buffer.end_of_stream = false → ProcessInput E st buffer s0 = .ok (hr0, s) →
      SUCCEEDED hr0 = true → hrs.length < fuel →
      Decode E st fuel buffer s0 =
        .ok (PostTask (Task.decode_cb DecoderStatus.kPlatformDecodeFailure) s2)) ∧
    (∀ (buffer : DecoderBuffer) (s0 : Engine) (d0 : Nat),
      buffer.end_of_stream = true → s0.decoder_ = some d0 →
      s = { s0 with calls := s0.calls ++
        [Call.ProcessMessage MFT_MESSAGE.MFT_MESSAGE_COMMAND_DRAIN] } →
      hrs.length < fuel →
      Decode E st fuel buffer s0 =
        .ok (PostTask (Task.decode_cb DecoderStatus.kMalformedBitstream) s2)) ∧
    (∀ (frame : VideoFrame) (s0 : Engine),
      ProcessBuffer E StreamType.VIDEO frame s0 = .ok (true, frame, s0)) ∧
    (∀ (unit unit' : AudioBuffer) (s0 s3 : Engine),
      ProcessBuffer E StreamType.AUDIO unit s0 = .ok (true, unit', s3) →
      ∃ t rest helper, s0.queued_input_timing_ = t :: rest ∧
        s0.discard_helper_ = some helper ∧ (E.ProcessBuffers helper t unit).1 = true) := by
  have hcbj : sj.output_cb_ = none := (pollSteps_frame _ _ _ _ _ _ _ hsteps).output_cb_.trans hcb
  have hcb2 : s2.output_cb_ = none :=
    (ProcessBuffer_frame _ _ _ _ _ _ _ hpb).1.output_cb_.trans hcbj
  have hstep : ProcessOutput E st fuel sj = .ok (E_ABORT, s2) := by
    rw [ProcessOutput_unit E st fuel sj s2 sample d output output' calls1 true hs hd h1 h2 hok
      hcob hpb]
    simp only [dispatchUnit, if_true, hcb2]
  have hloop : ∀ n, hrs.length < n → ProcessOutputLoop E st fuel n s = .ok (false, s2) := by
    intro n hn
    exact (ProcessOutputLoop_ok_iff E st fuel n s s2 false).mpr
      ⟨hrs, E_ABORT, hn, pollSteps_snoc _ _ _ _ _ _ _ _ _ hsteps hstep, hcont, by decide,
        by decide⟩
  refine ⟨hstep, hloop, ?_, ?_, fun _ _ => rfl, ?_⟩
  · intro buffer s0 hr0 heos hin hsucc hfuel
    unfold Decode
    rw [if_neg (by rw [heos]; decide), hin]
    simp only []
    rw [if_pos hsucc, hloop fuel hfuel]
    rfl
  · intro buffer s0 d0 heos hd0 hs0 hfuel
    subst hs0
    have hdr : Drain E st fuel s0 = .ok (false, s2) := by
      unfold Drain invoke
      split
      · rename_i hnone
        rw [hd0] at hnone
        cases hnone
      · exact hloop fuel hfuel
    unfold Decode
    rw [if_pos heos, hdr]
    rfl
  · intro unit unit' s0 s3 h
    rcases ProcessBuffer_audio _ _ _ _ _ _ h with ⟨-, hb, -, -⟩ | ⟨t, rest, helper, hq, hh, hres, -⟩
    · cases hb
    · exact ⟨t, rest, helper, hq, hh, by rw [← hres]⟩

theorem accepted_unit_without_callback_aborts_witness :
    (exampleNoCallbackSubmitted [1]).output_cb_ = none ∧
    pollAnswer examplePlatform (exampleNoCallbackSubmitted [1]) = S_OK ∧
    ProcessInput examplePlatform StreamType.AUDIO (exampleBuffer [1] 100) exampleNoCallback =
      .ok (S_OK, exampleNoCallbackSubmitted [1]) ∧
    ∃ s2, ProcessOutput examplePlatform StreamType.AUDIO 4 (exampleNoCallbackSubmitted [1]) =
        .ok (E_ABORT, s2) ∧
      Decode examplePlatform StreamType.AUDIO 4 (exampleBuffer [1] 100) exampleNoCallback =
        .ok (PostTask (Task.decode_cb DecoderStatus.kPlatformDecodeFailure) s2) := by
  have h := accepted_unit_without_callback_aborts examplePlatform StreamType.AUDIO 4
    (exampleNoCallbackSubmitted [1]) (exampleNoCallbackSubmitted [1]) _ [] _ 3 _ _ _
    rfl rfl (fun x hx => by cases hx) rfl rfl rfl rfl rfl rfl rfl
  exact ⟨rfl, rfl, rfl, _, h.1, h.2.2.1 (exampleBuffer [1] 100) exampleNoCallback S_OK rfl rfl
    rfl (by decide)⟩

/-- Claim C21.  When the candidate loop of output-type negotiation ends, it has
passed over some `k` candidates, each offered by the transform with a subtype
other than integer PCM (audio) or YV12 (video), by fetching each and asking for
its subtype only: none of them was set on the transform.  It ends in the round
on candidate `k`, after which no candidate is fetched and no other candidate is
set.  When it ends with a candidate accepted, that candidate `k` has the
accepted subtype, so it is the lowest-index one, and it was set on the
transform.  And when candidate `k` has the accepted subtype and the transform
refuses to have it set, the loop ends there with a failure and
`SetOutputMediaType` returns `false`: no later candidate is tried. -/
theorem first_matching_candidate_selected (E : Env) (st : StreamType) (fuel : Nat)
    (s s' : Engine) (x : TypeSearch) (hfuel : fuel ≤ UINT32_SIZE)
    (h : outputTypeLoop E st fuel 0 s = .ok (x, s')) :
    ∃ k tail, k < fuel ∧
      s'.calls = s.calls ++ skippedCalls 0 k ++ [Call.GetOutputAvailableType k] ++ tail ∧
      (∀ c ∈ skippedCalls 0 k, ∀ j, c ≠ Call.SetOutputType j) ∧
      (∀ c ∈ tail, (∀ j, c ≠ Call.GetOutputAvailableType j) ∧
        (∀ j, c = Call.SetOutputType j → j = k)) ∧
      (∀ j, j < k →
        SUCCEEDED (E.hr (s.calls ++ skippedCalls 0 j) (Call.GetOutputAvailableType j)) = true ∧
        FAILED (E.hr (s.calls ++ skippedCalls 0 j ++ [Call.GetOutputAvailableType j])
          (Call.GetGUID AttrKey.MF_MT_SUBTYPE)) = false ∧
        E.guid (s.calls ++ skippedCalls 0 j ++ [Call.GetOutputAvailableType j]) ≠
          acceptedSubtype st) ∧
      (x = TypeSearch.accepted →
        SUCCEEDED (E.hr (s.calls ++ skippedCalls 0 k) (Call.GetOutputAvailableType k)) = true ∧
        E.guid (s.calls ++ skippedCalls 0 k ++ [Call.GetOutputAvailableType k]) =
          acceptedSubtype st ∧
        FAILED (E.hr (s.calls ++ skippedCalls 0 k ++ [Call.GetOutputAvailableType k] ++
          [Call.GetGUID AttrKey.MF_MT_SUBTYPE]) (Call.SetOutputType k)) = false ∧
        ∃ rest, tail = [Call.GetGUID AttrKey.MF_MT_SUBTYPE] ++ [Call.SetOutputType k] ++ rest) ∧
      (SUCCEEDED (E.hr (s.calls ++ skippedCalls 0 k) (Call.GetOutputAvailableType k)) = true →
        FAILED (E.hr (s.calls ++ skippedCalls 0 k ++ [Call.GetOutputAvailableType k])
          (Call.GetGUID AttrKey.MF_MT_SUBTYPE)) = false →
        E.guid (s.calls ++ skippedCalls 0 k ++ [Call.GetOutputAvailableType k]) =
          acceptedSubtype st →
        FAILED (E.hr (s.calls ++ skippedCalls 0 k ++ [Call.GetOutputAvailableType k] ++
          [Call.GetGUID AttrKey.MF_MT_SUBTYPE]) (Call.SetOutputType k)) = true →
        x = TypeSearch.failed ∧
        tail = [Call.GetGUID AttrKey.MF_MT_SUBTYPE] ++ [Call.SetOutputType k] ∧
        SetOutputMediaType E st fuel s = .ok (false, s')) := by
  obtain ⟨k, hk, -, hall, hlast⟩ := outputTypeLoop_spec E st fuel 0 s s' x h (by omega)
  simp only [Nat.zero_add] at hall hlast
  obtain ⟨-, ⟨tail, hcalls, htail⟩, hacc, hfail⟩ := outputTypeStep_spec _ _ _ _ _ _ hlast
  have hskip : ∀ (i n : Nat), ∀ c ∈ skippedCalls i n, ∀ j, c ≠ Call.SetOutputType j := by
    intro i n
    induction n generalizing i with
    | zero => intro c hc; cases hc
    | succ n ih =>
      intro c hc j
      rw [skippedCalls] at hc
      simp only [List.mem_cons] at hc
      rcases hc with rfl | rfl | hc
      · intro hj; cases hj
      · intro hj; cases hj
      · exact ih _ c hc j
  refine ⟨k, tail, hk, hcalls, hskip 0 k, htail, hall, ?_, ?_⟩
  · intro hx
    obtain ⟨h1, -, h3, h4, rest, hrest⟩ := hacc hx
    refine ⟨h1, h3, h4, rest, ?_⟩
    rw [hcalls] at hrest
    simp only [List.append_assoc] at hrest
    have := List.append_cancel_left (List.append_cancel_left hrest)
    simpa using this
  · intro h1 h2 h3 h4
    obtain ⟨hx, hs'⟩ := hfail h1 h2 h3 h4
    refine ⟨hx, ?_, ?_⟩
    · have hc2 : s'.calls = s.calls ++ skippedCalls 0 k ++ [Call.GetOutputAvailableType k] ++
          [Call.GetGUID AttrKey.MF_MT_SUBTYPE] ++ [Call.SetOutputType k] := by rw [hs']
      rw [hcalls] at hc2
      simp only [List.append_assoc] at hc2
      have := List.append_cancel_left (List.append_cancel_left hc2)
      simpa using this
    · unfold SetOutputMediaType
      rw [h, hx]

theorem first_matching_candidate_selected_witness :
    (4 : Nat) ≤ UINT32_SIZE ∧
    ∃ s', outputTypeLoop mixedPlatform StreamType.AUDIO 4 0 exampleReady =
        .ok (TypeSearch.accepted, s') ∧
      s'.calls = exampleReady.calls ++
        [Call.GetOutputAvailableType 0, Call.GetGUID AttrKey.MF_MT_SUBTYPE,
          Call.GetOutputAvailableType 1, Call.GetGUID AttrKey.MF_MT_SUBTYPE,
          Call.SetOutputType 1,
          Call.GetUINT32 AttrKey.MF_MT_AUDIO_SAMPLES_PER_SECOND,
          Call.GetUINT32 AttrKey.MF_MT_AUDIO_NUM_CHANNELS,
          Call.GetUINT32 AttrKey.MF_MT_AUDIO_BITS_PER_SAMPLE] ∧
      ∃ k tail, k < 4 ∧
        s'.calls = exampleReady.calls ++ skippedCalls 0 k ++
          [Call.GetOutputAvailableType k] ++ tail ∧
        (∀ c ∈ skippedCalls 0 k, ∀ j, c ≠ Call.SetOutputType j) := by
  obtain ⟨k, tail, hk, hcalls, hskip, -⟩ := first_matching_candidate_selected mixedPlatform
    StreamType.AUDIO 4 exampleReady _ TypeSearch.accepted (by decide) rfl
  exact ⟨by decide, _, rfl, by decide, k, tail, hk, hcalls, hskip⟩

/-- Claim C22.  After an audio `Initialize` that reported `kOk`, either a
candidate was accepted or the candidate list ran out before any was.  In the
first case the accepted candidate `k` is integer PCM, it was set on the
transform and its three attributes were read, and the engine holds the rate the
candidate reported, an eighth (rounded down) of the bit depth it reported, and
the configured channel layout when the channel count it reported is the
configured channel count, `GuessChannelLayout` of the reported count otherwise.
In the second case the three values are those the engine had before. -/
theorem negotiated_audio_format (E : Env) (fuel : Nat) (config : DecoderConfig)
    (output_cb : Option OutputCB) (s s' : Engine) (hfuel : fuel ≤ UINT32_SIZE)
    (h : Initialize E StreamType.AUDIO fuel config output_cb s =
      .ok ([DecoderStatus.kOk], s')) :
    (∃ k pre,
      E.guid (pre ++ [Call.GetOutputAvailableType k]) = GUID.MFAudioFormat_PCM ∧
      pre ++ [Call.GetOutputAvailableType k] ++ [Call.GetGUID AttrKey.MF_MT_SUBTYPE] ++
        [Call.SetOutputType k] ++ [Call.GetUINT32 AttrKey.MF_MT_AUDIO_SAMPLES_PER_SECOND] ++
        [Call.GetUINT32 AttrKey.MF_MT_AUDIO_NUM_CHANNELS] ++
        [Call.GetUINT32 AttrKey.MF_MT_AUDIO_BITS_PER_SAMPLE] <+: s'.calls ∧
      s'.output_samples_per_second_ =
        dword (E.uint32 (pre ++ [Call.GetOutputAvailableType k] ++
          [Call.GetGUID AttrKey.MF_MT_SUBTYPE] ++ [Call.SetOutputType k])) ∧
      s'.output_sample_size_ =
        dword (E.uint32 (pre ++ [Call.GetOutputAvailableType k] ++
          [Call.GetGUID AttrKey.MF_MT_SUBTYPE] ++ [Call.SetOutputType k] ++
          [Call.GetUINT32 AttrKey.MF_MT_AUDIO_SAMPLES_PER_SECOND] ++
          [Call.GetUINT32 AttrKey.MF_MT_AUDIO_NUM_CHANNELS])) / 8 ∧
      s'.output_channel_layout_ =
        if (dword (E.uint32 (pre ++ [Call.GetOutputAvailableType k] ++
            [Call.GetGUID AttrKey.MF_MT_SUBTYPE] ++ [Call.SetOutputType k] ++
            [Call.GetUINT32 AttrKey.MF_MT_AUDIO_SAMPLES_PER_SECOND])) : Int) =
            config.channels then config.channel_layout
        else E.GuessChannelLayout (dword (E.uint32 (pre ++ [Call.GetOutputAvailableType k] ++
          [Call.GetGUID AttrKey.MF_MT_SUBTYPE] ++ [Call.SetOutputType k] ++
          [Call.GetUINT32 AttrKey.MF_MT_AUDIO_SAMPLES_PER_SECOND])))) ∨
    (∃ k pre, SUCCEEDED (E.hr pre (Call.GetOutputAvailableType k)) = false ∧
      pre ++ [Call.GetOutputAvailableType k] <+: s'.calls ∧
      s'.output_samples_per_second_ = s.output_samples_per_second_ ∧
      s'.output_sample_size_ = s.output_sample_size_ ∧
      s'.output_channel_layout_ = s.output_channel_layout_) := by
  obtain ⟨s2, x, s3, s4, hcfg, -, hr2, hl2, hz2, hloop, hx, hout, -, -, -, h1, h2, h3, -, hcalls, -⟩ :=
    Initialize_ok_negotiated _ _ _ _ _ _ _ h
  obtain ⟨x', s3', hloop', -, -, -, -, -, hpre, -⟩ := SetOutputMediaType_true _ _ _ _ _ hout
  rw [hloop] at hloop'
  simp only [Except.ok.injEq, Prod.mk.injEq] at hloop'
  obtain ⟨-, rfl⟩ := hloop'
  have hprefix : s3.calls <+: s'.calls := by
    rw [hcalls]
    exact ((List.prefix_append _ _).trans hpre).trans (List.prefix_append _ _)
  obtain ⟨k, -, hnext, -, hlast⟩ := outputTypeLoop_spec E StreamType.AUDIO fuel 0 s2 s3 x hloop
    (by omega)
  simp only [Nat.zero_add] at hlast
  cases x with
  | next => exact absurd rfl hnext
  | failed => exact absurd rfl hx
  | accepted =>
    left
    have hacc := outputTypeStep_accepted _ _ _ _ _ hlast
    obtain ⟨hg, hs3, -⟩ := SetOutputMediaTypeInternal_audio_ok _ _ _ _ _ hacc
    refine ⟨k, s2.calls ++ skippedCalls 0 k, hg, ?_, ?_, ?_, ?_⟩
    · have : s3.calls = s2.calls ++ skippedCalls 0 k ++ [Call.GetOutputAvailableType k] ++
          [Call.GetGUID AttrKey.MF_MT_SUBTYPE] ++ [Call.SetOutputType k] ++
          [Call.GetUINT32 AttrKey.MF_MT_AUDIO_SAMPLES_PER_SECOND] ++
          [Call.GetUINT32 AttrKey.MF_MT_AUDIO_NUM_CHANNELS] ++
          [Call.GetUINT32 AttrKey.MF_MT_AUDIO_BITS_PER_SAMPLE] := by rw [hs3]
      rw [← this]
      exact hprefix
    · rw [h1, hs3]
    · rw [h3, hs3]
    · rw [h2, hs3]
      show (if _ = s2.config_.channels then s2.config_.channel_layout else _) = _
      rw [hcfg]
  | exhausted =>
    right
    obtain ⟨hans, hs3⟩ := outputTypeStep_exhausted_state _ _ _ _ _ hlast
    refine ⟨k, s2.calls ++ skippedCalls 0 k, hans, ?_, ?_, ?_, ?_⟩
    · have : s3.calls = s2.calls ++ skippedCalls 0 k ++ [Call.GetOutputAvailableType k] := by
        rw [hs3]
      rw [← this]
      exact hprefix
    · rw [h1, hs3]
      exact hr2
    · rw [h3, hs3]
      exact hz2
    · rw [h2, hs3]
      exact hl2

theorem negotiated_audio_format_witness :
    (4 : Nat) ≤ UINT32_SIZE ∧
    ∃ s', Initialize mixedPlatform StreamType.AUDIO 4 exampleConfig (some 7) WMFDecoderImpl =
        .ok ([DecoderStatus.kOk], s') ∧
      s'.output_samples_per_second_ = 44100 ∧ s'.output_sample_size_ = 2 ∧
      s'.output_channel_layout_ = 3 ∧
      ((∃ k pre,
      mixedPlatform.guid (pre ++ [Call.GetOutputAvailableType k]) = GUID.MFAudioFormat_PCM ∧
      pre ++ [Call.GetOutputAvailableType k] ++ [Call.GetGUID AttrKey.MF_MT_SUBTYPE] ++
        [Call.SetOutputType k] ++ [Call.GetUINT32 AttrKey.MF_MT_AUDIO_SAMPLES_PER_SECOND] ++
        [Call.GetUINT32 AttrKey.MF_MT_AUDIO_NUM_CHANNELS] ++
        [Call.GetUINT32 AttrKey.MF_MT_AUDIO_BITS_PER_SAMPLE] <+: s'.calls ∧
      s'.output_samples_per_second_ =
        dword (mixedPlatform.uint32 (pre ++ [Call.GetOutputAvailableType k] ++
          [Call.GetGUID AttrKey.MF_MT_SUBTYPE] ++ [Call.SetOutputType k])) ∧
      s'.output_sample_size_ =
        dword (mixedPlatform.uint32 (pre ++ [Call.GetOutputAvailableType k] ++
          [Call.GetGUID AttrKey.MF_MT_SUBTYPE] ++ [Call.SetOutputType k] ++
          [Call.GetUINT32 AttrKey.MF_MT_AUDIO_SAMPLES_PER_SECOND] ++
          [Call.GetUINT32 AttrKey.MF_MT_AUDIO_NUM_CHANNELS])) / 8 ∧
      s'.output_channel_layout_ =
        if (dword (mixedPlatform.uint32 (pre ++ [Call.GetOutputAvailableType k] ++
            [Call.GetGUID AttrKey.MF_MT_SUBTYPE] ++ [Call.SetOutputType k] ++
            [Call.GetUINT32 AttrKey.MF_MT_AUDIO_SAMPLES_PER_SECOND])) : Int) =
            exampleConfig.channels then exampleConfig.channel_layout
        else mixedPlatform.GuessChannelLayout (dword (mixedPlatform.uint32 (pre ++ [Call.GetOutputAvailableType k] ++
          [Call.GetGUID AttrKey.MF_MT_SUBTYPE] ++ [Call.SetOutputType k] ++
          [Call.GetUINT32 AttrKey.MF_MT_AUDIO_SAMPLES_PER_SECOND])))) ∨
    (∃ k pre, SUCCEEDED (mixedPlatform.hr pre (Call.GetOutputAvailableType k)) = false ∧
      pre ++ [Call.GetOutputAvailableType k] <+: s'.calls ∧
      s'.output_samples_per_second_ = WMFDecoderImpl.output_samples_per_second_ ∧
      s'.output_sample_size_ = WMFDecoderImpl.output_sample_size_ ∧
      s'.output_channel_layout_ = WMFDecoderImpl.output_channel_layout_)) :=
  ⟨by decide, _, rfl, by decide, by decide, by decide,
    negotiated_audio_format mixedPlatform 4 exampleConfig (some 7) WMFDecoderImpl _
      (by decide) rfl⟩

/-- Claim C23.  Write `S` for the raw stride and `R` for the coded height, each
rounded up to a multiple of 16 (the raw value plus 15 fitting a `LONG`), and let
`R * S` and `R * S + R * S / 4` fit a `LONG`.  The frame made by the video
`CreateOutputBufferInternal` has its Y plane at offset 0 with stride `S`, its V
plane at `R * S` and its U plane at `R * S + R * S / 4`, both with stride
`S / 2`; the divisions are exact; the U offset less the V offset is
`(R / 2) * (S / 2)`, one chroma plane, so each plane starts where the one before
it ends; for a stride and a height that are not negative the planes follow one
another in the order Y, V, U; and the frame has the timestamp passed in. -/
theorem video_plane_layout (E : Env) (s : Engine) (data : List Nat) (data_size : Nat)
    (timestamp : Int) (calls calls' : List Call) (frame : VideoFrame)
    (h : CreateOutputBufferInternal E StreamType.VIDEO s data data_size timestamp calls =
      .ok (some frame, calls'))
    (hS : long (E.stride calls) + 15 < 2147483648)
    (hR : long s.config_.coded_height + 15 < 2147483648)
    (hRS : fitsLong (alignUp16 (long s.config_.coded_height) *
      alignUp16 (long (E.stride calls))))
    (hU : fitsLong (alignUp16 (long s.config_.coded_height) *
        alignUp16 (long (E.stride calls)) +
      alignUp16 (long s.config_.coded_height) * alignUp16 (long (E.stride calls)) / 4)) :
    ∃ R S : Int,
      R = alignUp16 (long s.config_.coded_height) ∧ S = alignUp16 (long (E.stride calls)) ∧
      R % 16 = 0 ∧ long s.config_.coded_height ≤ R ∧ R < long s.config_.coded_height + 16 ∧
      S % 16 = 0 ∧ long (E.stride calls) ≤ S ∧ S < long (E.stride calls) + 16 ∧
      frame.y_offset = 0 ∧ frame.y_stride = S ∧
      frame.v_offset = R * S ∧ frame.u_offset = R * S + R * S / 4 ∧
      frame.u_stride = S / 2 ∧ frame.v_stride = S / 2 ∧
      2 * (S / 2) = S ∧ 2 * (R / 2) = R ∧ 4 * (R * S / 4) = R * S ∧
      frame.u_offset - frame.v_offset = (R / 2) * (S / 2) ∧
      frame.y_offset + R * frame.y_stride = frame.v_offset ∧
      frame.v_offset + (R / 2) * frame.v_stride = frame.u_offset ∧
      (0 ≤ long (E.stride calls) → 0 ≤ long s.config_.coded_height →
        frame.y_offset ≤ frame.v_offset ∧ frame.v_offset ≤ frame.u_offset) ∧
      frame.timestamp = timestamp := by
  have hf := CreateOutputBufferInternal_video _ _ _ _ _ _ _ _ h
  have hRm := alignUp16_emod (long s.config_.coded_height)
  have hSm := alignUp16_emod (long (E.stride calls))
  obtain ⟨hR1, hR2⟩ := alignUp16_least _ (long_range s.config_.coded_height).1 hR
  obtain ⟨hS1, hS2⟩ := alignUp16_least _ (long_range (E.stride calls)).1 hS
  obtain ⟨a1, a2, a3, a4, a5⟩ := plane_arith _ _ hRm hSm
  have l1 := long_of_range _ hRS.1 hRS.2
  have l2 := long_of_range _ hU.1 hU.2
  have hu : frame.u_offset = alignUp16 (long s.config_.coded_height) *
        alignUp16 (long (E.stride calls)) +
      alignUp16 (long s.config_.coded_height) * alignUp16 (long (E.stride calls)) / 4 := by
    rw [hf]
    show long (long _ + Int.tdiv (long _) 4) = _
    rw [l1, a1, l2]
  have hv : frame.v_offset = alignUp16 (long s.config_.coded_height) *
      alignUp16 (long (E.stride calls)) := by
    rw [hf]
    exact l1
  have hus : frame.u_stride = alignUp16 (long (E.stride calls)) / 2 := by
    rw [hf]
    exact a4
  have hvs : frame.v_stride = alignUp16 (long (E.stride calls)) / 2 := by
    rw [hf]
    exact a4
  have hys : frame.y_stride = alignUp16 (long (E.stride calls)) := by rw [hf]
  have hyo : frame.y_offset = 0 := by rw [hf]
  refine ⟨_, _, rfl, rfl, hRm, hR1, hR2, hSm, hS1, hS2, hyo, hys, hv, hu, hus, hvs, a5,
    by omega, a2, ?_, ?_, ?_, ?_, by rw [hf]⟩
  · rw [hu, hv, a3]
    omega
  · rw [hyo, hys, hv]
    omega
  · rw [hv, hvs, hu, a3]
  · intro h0 h1
    have hSn : 0 ≤ alignUp16 (long (E.stride calls)) := by omega
    have hRn : 0 ≤ alignUp16 (long s.config_.coded_height) := by omega
    have hprod := mul_nonneg hRn hSn
    rw [hyo, hv, hu]
    constructor
    · exact hprod
    · have : 0 ≤ alignUp16 (long s.config_.coded_height) *
          alignUp16 (long (E.stride calls)) / 4 := Int.ediv_nonneg hprod (by decide)
      omega

theorem video_plane_layout_witness :
    ∃ frame calls, CreateOutputBufferInternal examplePlatform StreamType.VIDEO
        exampleVideoReady [1, 2, 3] 3 100 [] = .ok (some frame, calls) ∧
      frame.v_offset = 208 * 304 ∧ frame.u_offset = 208 * 304 + 208 * 304 / 4 ∧
      frame.u_offset - frame.v_offset = 104 * 152 ∧ frame.timestamp = 100 := by
  obtain ⟨R, S, hR, hS, -, -, -, -, -, -, -, -, hv, hu, -, -, -, -, -, hd, -, -, -, ht⟩ :=
    video_plane_layout examplePlatform exampleVideoReady [1, 2, 3] 3 100 [] _ _ rfl
      (by decide) (by decide) ⟨by decide, by decide⟩ ⟨by decide, by decide⟩
  have hR' : R = 208 := by rw [hR]; decide
  have hS' : S = 304 := by rw [hS]; decide
  subst hR' hS'
  exact ⟨_, _, rfl, hv, hu, hd, ht⟩

/-- Claim C24.  For a stored bytes-per-sample `b > 0` and a channel count `c > 0`
(an `int`) of the stored layout, the audio `CreateOutputBufferInternal` returns a
buffer for every byte count `n`: the quotient it computes, `n / b / c` in
unsigned division, is `n / (b * c)` rounded down; the frame count of the buffer
is that quotient as an `int`, so the quotient itself whenever it is at most
`INT_MAX`; and the buffer has no timestamp of its own (`kNoTimestamp`). -/
theorem audio_frame_count (E : Env) (s : Engine) (data : List Nat) (data_size : Nat)
    (timestamp : Int) (calls : List Call)
    (hb : 0 < s.output_sample_size_)
    (hc : 0 < E.ChannelLayoutToChannelCount s.output_channel_layout_)
    (hc' : E.ChannelLayoutToChannelCount s.output_channel_layout_ ≤ INT_MAX) :
    ∃ buffer : AudioBuffer,
      CreateOutputBufferInternal E StreamType.AUDIO s data data_size timestamp calls =
        .ok (some buffer, calls) ∧
      data_size / s.output_sample_size_ /
          (E.ChannelLayoutToChannelCount s.output_channel_layout_).toNat =
        data_size / (s.output_sample_size_ *
          (E.ChannelLayoutToChannelCount s.output_channel_layout_).toNat) ∧
      buffer.frame_count = wrapSigned 32 ((data_size / (s.output_sample_size_ *
        (E.ChannelLayoutToChannelCount s.output_channel_layout_).toNat) : Nat) : Int) ∧
      (data_size / (s.output_sample_size_ *
          (E.ChannelLayoutToChannelCount s.output_channel_layout_).toNat) ≤ INT_MAX →
        buffer.frame_count = ((data_size / (s.output_sample_size_ *
          (E.ChannelLayoutToChannelCount s.output_channel_layout_).toNat) : Nat) : Int)) ∧
      buffer.timestamp = kNoTimestamp ∧ buffer.data = data := by
  have hdiv : (E.ChannelLayoutToChannelCount s.output_channel_layout_ % UINT32_SIZE).toNat =
      (E.ChannelLayoutToChannelCount s.output_channel_layout_).toNat := by
    have : E.ChannelLayoutToChannelCount s.output_channel_layout_ % UINT32_SIZE =
        E.ChannelLayoutToChannelCount s.output_channel_layout_ := by
      apply Int.emod_eq_of_lt (by omega)
      unfold INT_MAX at hc'
      unfold UINT32_SIZE
      omega
    rw [this]
  have hpos : 0 < (E.ChannelLayoutToChannelCount s.output_channel_layout_).toNat := by omega
  have hq := Nat.div_div_eq_div_mul data_size s.output_sample_size_
    (E.ChannelLayoutToChannelCount s.output_channel_layout_).toNat
  have buffer : AudioBuffer :=
    { sample_format := ConvertToSampleFormat s.output_sample_size_,
      channel_layout := s.output_channel_layout_,
      channel_count := E.ChannelLayoutToChannelCount s.output_channel_layout_,
      sample_rate := s.output_samples_per_second_,
      frame_count := 0, data := data, timestamp := kNoTimestamp }
  refine ⟨{ buffer with
    sample_format := ConvertToSampleFormat s.output_sample_size_,
    channel_layout := s.output_channel_layout_,
    channel_count := E.ChannelLayoutToChannelCount s.output_channel_layout_,
    sample_rate := s.output_samples_per_second_,
    frame_count := wrapSigned 32 ((data_size / s.output_sample_size_ /
      (E.ChannelLayoutToChannelCount s.output_channel_layout_).toNat : Nat) : Int),
    data := data, timestamp := kNoTimestamp }, ?_, hq, ?_, ?_, ?_, ?_⟩
  · unfold CreateOutputBufferInternal
    simp only []
    rw [if_neg (by omega), hdiv, if_neg (by omega)]
  · simp only [hq]
  · intro hle
    simp only [hq]
    exact long_of_range _ (le_trans (by decide) (Int.natCast_nonneg _))
      (lt_of_le_of_lt (Int.ofNat_le.mpr hle) (by decide))
  · rfl
  · rfl

theorem audio_frame_count_witness :
    0 < exampleReady.output_sample_size_ ∧
    0 < examplePlatform.ChannelLayoutToChannelCount exampleReady.output_channel_layout_ ∧
    ∃ buffer : AudioBuffer,
      CreateOutputBufferInternal examplePlatform StreamType.AUDIO exampleReady
        [1, 2, 3, 4, 5, 6, 7, 8, 9, 10] 10 100 [] = .ok (some buffer, []) ∧
      buffer.frame_count = 2 ∧ buffer.timestamp = kNoTimestamp := by
  obtain ⟨buffer, h, -, -, hf, ht, -⟩ := audio_frame_count examplePlatform exampleReady
    [1, 2, 3, 4, 5, 6, 7, 8, 9, 10] 10 100 [] (by decide) (by decide) (by decide)
  exact ⟨by decide, by decide, buffer, h, hf (by decide), ht⟩

/-- Claim C25.  An input whose timestamp is `t` microseconds, with `10 * t`
fitting 64 bits, is submitted in a sample whose time is `10 * t`, set by
`SetSampleTime`.  A video unit built from a sample whose time is `s` has the
timestamp `s / 10` rounded towards zero; so a unit built from a sample with the
time of that input has the timestamp `t`, and of two units the one built from
the earlier sample time never has the later timestamp. -/
theorem timestamp_round_trip (E : Env) (s : Engine) (input : DecoderBuffer)
    (calls calls1 : List Call) (sample : IMFSample)
    (hprep : PrepareInputSample E s input calls = (some sample, calls1))
    (hlo : -9223372036854775808 ≤ input.time_info.timestamp * 10)
    (hhi : input.time_info.timestamp * 10 < 9223372036854775808) :
    sample.sample_time = 10 * input.time_info.timestamp ∧
    Call.SetSampleTime (10 * input.time_info.timestamp) ∈ calls1 ∧
    Int.tdiv sample.sample_time 10 = input.time_info.timestamp ∧
    (∀ (s2 : Engine) (pSample : Option IMFSample) (calls2 calls3 : List Call)
        (frame : VideoFrame),
      CreateOutputBuffer E StreamType.VIDEO s2 pSample calls2 = .ok (some frame, calls3) →
      frame.timestamp = Int.tdiv (wrapSigned 64 (E.sample_time calls2)) 10 ∧
      (E.sample_time calls2 = sample.sample_time →
        frame.timestamp = input.time_info.timestamp)) ∧
    (∀ (s2 s3 : Engine) (p2 p3 : Option IMFSample) (calls2 calls2' calls3 calls3' : List Call)
        (frame2 frame3 : VideoFrame),
      CreateOutputBuffer E StreamType.VIDEO s2 p2 calls2 = .ok (some frame2, calls2') →
      CreateOutputBuffer E StreamType.VIDEO s3 p3 calls3 = .ok (some frame3, calls3') →
      wrapSigned 64 (E.sample_time calls2) ≤ wrapSigned 64 (E.sample_time calls3) →
      frame2.timestamp ≤ frame3.timestamp) := by
  obtain ⟨ht, -, -, hcall⟩ := PrepareInputSample_some _ _ _ _ _ _ hprep
  have hw := wrapSigned_64_of_range _ hlo hhi
  have hst : sample.sample_time = 10 * input.time_info.timestamp := by
    rw [ht, hw, Int.mul_comm]
  have hback : Int.tdiv sample.sample_time 10 = input.time_info.timestamp := by
    rw [hst]
    exact Int.mul_tdiv_cancel_left _ (by decide)
  have hframe : ∀ (s2 : Engine) (pSample : Option IMFSample) (calls2 calls3 : List Call)
      (frame : VideoFrame),
      CreateOutputBuffer E StreamType.VIDEO s2 pSample calls2 = .ok (some frame, calls3) →
      frame.timestamp = Int.tdiv (wrapSigned 64 (E.sample_time calls2)) 10 := by
    intro s2 pSample calls2 calls3 frame h
    obtain ⟨c1, hint⟩ := CreateOutputBuffer_some _ _ _ _ _ _ _ h
    rw [CreateOutputBufferInternal_video _ _ _ _ _ _ _ _ hint]
  refine ⟨hst, ?_, hback, ?_, ?_⟩
  · rw [← hst, ht]
    exact hcall
  · intro s2 pSample calls2 calls3 frame h
    refine ⟨hframe _ _ _ _ _ h, fun heq => ?_⟩
    rw [hframe _ _ _ _ _ h, heq, hst,
      wrapSigned_64_of_range _ (by omega) (by omega)]
    exact Int.mul_tdiv_cancel_left _ (by decide)
  · intro s2 s3 p2 p3 calls2 calls2' calls3 calls3' frame2 frame3 h2 h3 hle
    rw [hframe _ _ _ _ _ h2, hframe _ _ _ _ _ h3]
    exact tdiv_ten_mono _ _ hle

theorem timestamp_round_trip_witness :
    ∃ sample calls1 frame calls3,
      PrepareInputSample examplePlatform exampleVideoReady (exampleBuffer [1] 100) [] =
        (some sample, calls1) ∧
      sample.sample_time = 1000 ∧
      CreateOutputBuffer examplePlatform StreamType.VIDEO exampleVideoReady
        exampleVideoReady.output_sample_ [] = .ok (some frame, calls3) ∧
      examplePlatform.sample_time [] = sample.sample_time ∧
      frame.timestamp = (exampleBuffer [1] 100).time_info.timestamp := by
  have h := timestamp_round_trip examplePlatform exampleVideoReady (exampleBuffer [1] 100) []
    _ _ rfl (by decide) (by decide)
  exact ⟨_, _, _, _, rfl, h.1, rfl, rfl,
    (h.2.2.2.1 exampleVideoReady exampleVideoReady.output_sample_ [] _ _ rfl).2 rfl⟩

/-- Claim C26. When the audio `SetInputMediaType` succeeds for an AAC config, the media type
handed to `SetInputType` carries exactly one `MF_MT_USER_DATA` value, the blob of the config.
Writing `H` for the offset of `pbAudioSpecificConfig` minus the offset of `wfInfo.wPayloadType`:
for a stream that did not come from the FFmpeg demuxer the blob has length `H`, its payload type
is 1 and every other byte is zero, and `MF_MT_AAC_PAYLOAD_TYPE` is set to 1; for a stream that
did, the blob has length `H + |extra_data|`, its `H` header bytes (payload type included) are
zero, its tail is `extra_data`, and `MF_MT_AAC_PAYLOAD_TYPE` is not set. -/
theorem audio_user_data_blob (E : Env) (s s' : Engine)
    (hc : s.config_.audio_codec = AudioCodec.kAAC)
    (h : SetInputMediaType E StreamType.AUDIO s = .ok (true, s')) :
    ∃ mt, s'.calls.getLast? = some (Call.SetInputType mt) ∧
      (∀ v, (AttrKey.MF_MT_USER_DATA, v) ∈ mt ↔ v = AttrValue.blob (userDataBlob s.config_)) ∧
      (s.config_.platform_media_ffmpeg_demuxer_ = false →
        userDataBlob s.config_ =
          1 :: List.replicate (offsetof_pbAudioSpecificConfig - offsetof_wPayloadType - 1) 0 ∧
        (userDataBlob s.config_).length = offsetof_pbAudioSpecificConfig - offsetof_wPayloadType ∧
        ∀ v, (AttrKey.MF_MT_AAC_PAYLOAD_TYPE, v) ∈ mt ↔ v = AttrValue.uint32 1) ∧
      (s.config_.platform_media_ffmpeg_demuxer_ = true →
        userDataBlob s.config_ =
          List.replicate (offsetof_pbAudioSpecificConfig - offsetof_wPayloadType) 0 ++
            s.config_.extra_data ∧
        (userDataBlob s.config_).length =
          offsetof_pbAudioSpecificConfig - offsetof_wPayloadType + s.config_.extra_data.length ∧
        ∀ v, (AttrKey.MF_MT_AAC_PAYLOAD_TYPE, v) ∉ mt) := by
  obtain ⟨mt, calls1, hb, hcalls⟩ := SetInputMediaType_true E _ s s' h
  have hmt := buildInputMediaType_audio E s.config_ s.calls calls1 mt hc hb
  refine ⟨mt, by rw [hcalls]; simp, ?_, ?_, ?_⟩
  · intro v
    rw [hmt]
    cases s.config_.platform_media_ffmpeg_demuxer_ <;> simp
  · intro hf
    refine ⟨userDataBlob_adts _ hf, ?_, ?_⟩
    · rw [userDataBlob_adts _ hf]; rfl
    · intro v
      rw [hmt, hf]
      simp
  · intro hf
    refine ⟨userDataBlob_raw _ hf, ?_, ?_⟩
    · rw [userDataBlob_raw _ hf]; simp
    · intro v
      rw [hmt, hf]
      simp

/-- The statement of `audio_user_data_blob` at both kinds of stream: the example AAC config on the
example platform, and the same config marked as coming from the FFmpeg demuxer (blob of
12 zero bytes followed by the extra data 18, 16). -/
theorem audio_user_data_blob_witness :
    (∃ s', SetInputMediaType examplePlatform StreamType.AUDIO exampleReady = .ok (true, s') ∧
      ∃ mt, s'.calls.getLast? = some (Call.SetInputType mt) ∧
        (AttrKey.MF_MT_USER_DATA, AttrValue.blob [1, 0, 0, 0, 0, 0, 0, 0, 0, 0, 0, 0]) ∈ mt ∧
        (AttrKey.MF_MT_AAC_PAYLOAD_TYPE, AttrValue.uint32 1) ∈ mt) ∧
    (∃ s', SetInputMediaType examplePlatform StreamType.AUDIO
        { exampleReady with
          config_ := { exampleConfig with platform_media_ffmpeg_demuxer_ := true } } =
          .ok (true, s') ∧
      ∃ mt, s'.calls.getLast? = some (Call.SetInputType mt) ∧
        (AttrKey.MF_MT_USER_DATA,
          AttrValue.blob [0, 0, 0, 0, 0, 0, 0, 0, 0, 0, 0, 0, 18, 16]) ∈ mt ∧
        ∀ v, (AttrKey.MF_MT_AAC_PAYLOAD_TYPE, v) ∉ mt) := by
  refine ⟨⟨_, rfl, ?_⟩, ⟨_, rfl, ?_⟩⟩
  · obtain ⟨mt, h1, h2, h3, -⟩ := audio_user_data_blob examplePlatform exampleReady _ rfl rfl
    exact ⟨mt, h1, (h2 _).2 rfl, ((h3 rfl).2.2 _).2 rfl⟩
  · obtain ⟨mt, h1, h2, -, h4⟩ := audio_user_data_blob examplePlatform
      { exampleReady with config_ := { exampleConfig with platform_media_ffmpeg_demuxer_ := true } }
      _ rfl rfl
    exact ⟨mt, h1, (h2 _).2 rfl, (h4 rfl).2.2⟩

/-- Claim C27. When `SetOutputMediaType` succeeds, with `s1` the engine as the candidate loop left
it and `info` the stream info the transform then reports: the engine holds an output sample
exactly when the flags of `info` contain neither `PROVIDES_SAMPLES` nor `CAN_PROVIDE_SAMPLES`; a
sample held is the fresh one of size `info.cbSize` (for audio and for video), empty, whichever
sample the engine held before, and it was requested by `MFCreateAlignedMemoryBuffer` with that
size and the alignment argument `info.cbAlignment - 1` when `info.cbAlignment > 1` and 0
otherwise; when no sample is held, none was requested. -/
theorem output_sample_preallocated (E : Env) (st : StreamType) (fuel : Nat) (s s' : Engine)
    (h : SetOutputMediaType E st fuel s = .ok (true, s')) :
    ∃ x s1, outputTypeLoop E st fuel 0 s = .ok (x, s1) ∧
      (s'.output_sample_.isSome = true ↔
        (outputStreamInfo E s1.calls).dwFlags &&& MFT_OUTPUT_STREAM_PROVIDES_SAMPLES = 0 ∧
        (outputStreamInfo E s1.calls).dwFlags &&& MFT_OUTPUT_STREAM_CAN_PROVIDE_SAMPLES = 0) ∧
      (∀ sample, s'.output_sample_ = some sample →
        sample.buffer_size = (outputStreamInfo E s1.calls).cbSize ∧
        sample.data = [] ∧
        s'.calls = s1.calls ++ [Call.GetOutputStreamInfo, Call.MFCreateSample,
          Call.MFCreateAlignedMemoryBuffer (outputStreamInfo E s1.calls).cbSize
            (if (outputStreamInfo E s1.calls).cbAlignment > 1
              then (outputStreamInfo E s1.calls).cbAlignment - 1 else 0),
          Call.AddBuffer]) ∧
      (s'.output_sample_ = none → s'.calls = s1.calls ++ [Call.GetOutputStreamInfo]) := by
  obtain ⟨x, s1, hloop, -, -, -, -, -, -, hyes, hno⟩ := SetOutputMediaType_true E st fuel s s' h
  have hsize : CalculateOutputBufferSize st (outputStreamInfo E s1.calls) =
      (outputStreamInfo E s1.calls).cbSize := by
    cases st <;> rfl
  refine ⟨x, s1, hloop, ?_, ?_, ?_⟩
  · rw [← createsSamples_false_iff]
    cases hcr : createsSamples (outputStreamInfo E s1.calls) with
    | true => rw [(hyes hcr).1]; simp
    | false => rw [(hno hcr).1]; simp
  · intro sample hs
    cases hcr : createsSamples (outputStreamInfo E s1.calls) with
    | true =>
      rw [(hyes hcr).1] at hs
      cases hs
    | false =>
      obtain ⟨h1, h2⟩ := hno hcr
      rw [h1] at hs
      simp only [Option.some.injEq] at hs
      subst hs
      refine ⟨hsize, rfl, ?_⟩
      rw [h2, hsize, CalculateBufferAlignment_argument _ (outputStreamInfo_cbAlignment_lt E _)]
      simp
  · intro hs
    cases hcr : createsSamples (outputStreamInfo E s1.calls) with
    | true => exact (hyes hcr).2
    | false =>
      rw [(hno hcr).1] at hs
      cases hs

/-- The statement of `output_sample_preallocated` on the example platform (no flag, size 4096,
alignment 16), from an engine that already holds a sample. -/
theorem output_sample_preallocated_witness :
    exampleReady.output_sample_.isSome = true ∧
    ∃ s', SetOutputMediaType examplePlatform StreamType.AUDIO 4 exampleReady = .ok (true, s') ∧
      ∃ sample, s'.output_sample_ = some sample ∧ sample.buffer_size = 4096 ∧ sample.data = [] ∧
        Call.MFCreateAlignedMemoryBuffer 4096 15 ∈ s'.calls := by
  obtain ⟨s', hs'⟩ : ∃ s', SetOutputMediaType examplePlatform StreamType.AUDIO 4 exampleReady =
      .ok (true, s') := ⟨_, rfl⟩
  obtain ⟨x, s1, -, hiff, h2, -⟩ :=
    output_sample_preallocated examplePlatform StreamType.AUDIO 4 exampleReady s' hs'
  have hflags : (outputStreamInfo examplePlatform s1.calls).dwFlags = 0 := rfl
  obtain ⟨sample, hsample⟩ := Option.isSome_iff_exists.mp
    (hiff.2 ⟨by rw [hflags]; rfl, by rw [hflags]; rfl⟩)
  obtain ⟨hsize, hdata, hcalls⟩ := h2 sample hsample
  refine ⟨rfl, s', hs', sample, hsample, hsize, hdata, ?_⟩
  rw [hcalls]
  exact List.mem_append_right _ (List.mem_cons_of_mem _ (List.mem_cons_of_mem _
    (List.mem_cons_self _ _)))

/-- Claim C28, which the code does not meet. Whenever `Initialize` reports `kOk` on a transform
whose output stream info always carries `PROVIDES_SAMPLES` or `CAN_PROVIDE_SAMPLES`, the engine
holds no output sample, and every drain step from that engine dereferences the absent sample:
`ProcessOutput` faults before it makes any call. -/
theorem provided_samples_leave_no_output_sample (E : Env) (st : StreamType) (fuel : Nat)
    (config : DecoderConfig) (output_cb : Option OutputCB) (s s' : Engine)
    (h : Initialize E st fuel config output_cb s = .ok ([DecoderStatus.kOk], s'))
    (hflags : ∀ calls, createsSamples (outputStreamInfo E calls) = true) :
    s'.output_sample_ = none ∧
    ∀ fuel', ProcessOutput E st fuel' s' = .error Fault.nullDeref := by
  obtain ⟨s2, x, s3, s4, -, -, -, -, -, -, -, hout, -, -, -, -, -, -, hsample, -⟩ :=
    Initialize_ok_negotiated E st fuel config output_cb s s' h
  obtain ⟨x', s1, -, -, -, -, -, -, -, hyes, -⟩ := SetOutputMediaType_true E st fuel s2 s4 hout
  have hnone : s'.output_sample_ = none := by
    rw [hsample]
    exact (hyes (hflags _)).1
  refine ⟨hnone, fun fuel' => ?_⟩
  unfold ProcessOutput
  rw [hnone]

/-- The statement of `provided_samples_leave_no_output_sample` on a transform that provides its
own samples: `Initialize` reports `kOk`, for audio and for video, and the `Decode` of the first
input faults in its first drain step. -/
theorem provided_samples_leave_no_output_sample_witness :
    (∃ s', Initialize providingPlatform StreamType.AUDIO 4 exampleConfig (some 7)
        WMFDecoderImpl = .ok ([DecoderStatus.kOk], s') ∧
      s'.output_sample_ = none ∧
      ProcessOutput providingPlatform StreamType.AUDIO 4 s' = .error Fault.nullDeref ∧
      Decode providingPlatform StreamType.AUDIO 4 (exampleBuffer [1] 100) s' =
        .error Fault.nullDeref) ∧
    (∃ s', Initialize { providingPlatform with guid := fun _ => GUID.MFVideoFormat_YV12 }
        StreamType.VIDEO 4 exampleVideoConfig (some 7) WMFDecoderImpl =
          .ok ([DecoderStatus.kOk], s') ∧
      Decode { providingPlatform with guid := fun _ => GUID.MFVideoFormat_YV12 }
        StreamType.VIDEO 4 (exampleBuffer [1] 100) s' = .error Fault.nullDeref) := by
  have hflags : ∀ calls, createsSamples (outputStreamInfo providingPlatform calls) = true := by
    intro calls
    show createsSamples { dwFlags := 256, cbSize := 4096, cbAlignment := 16 } = true
    decide
  obtain ⟨s', hs'⟩ : ∃ s', Initialize providingPlatform StreamType.AUDIO 4 exampleConfig (some 7)
      WMFDecoderImpl = .ok ([DecoderStatus.kOk], s') := ⟨_, rfl⟩
  have hthm := provided_samples_leave_no_output_sample providingPlatform StreamType.AUDIO 4
    exampleConfig (some 7) WMFDecoderImpl s' hs' hflags
  refine ⟨⟨s', hs', hthm.1, hthm.2 4, ?_⟩, ⟨_, rfl, rfl⟩⟩
  have hs'' : s' = (match Initialize providingPlatform StreamType.AUDIO 4 exampleConfig (some 7)
      WMFDecoderImpl with
    | .ok (_, t) => t
    | .error _ => WMFDecoderImpl) := by rw [hs']
  rw [hs'']
  rfl

/-- Claim C29, which the code does not meet, evaluated on three transforms. On each, the audio
`Initialize` reports `kOk` and the first unit the transform then produces is divided by zero. With
no output type offered, no candidate is accepted and the bytes-per-sample is still the
constructor's 0. With an accepted PCM type that reports 4 bits per sample, the bytes-per-sample is
`4 / 8 = 0`. With an accepted PCM type that reports 9 channels, the layout is that of
`GuessChannelLayout`, here one of no channel, and the second divisor is 0. -/
theorem zero_divisor_after_initialize :
    (∃ s', Initialize exhaustedPlatform StreamType.AUDIO 4 exampleConfig (some 7)
        WMFDecoderImpl = .ok ([DecoderStatus.kOk], s') ∧
      s'.calls.filter Call.isOutputNegotiation =
        [Call.GetOutputAvailableType 0, Call.GetOutputStreamInfo, Call.MFCreateSample,
         Call.MFCreateAlignedMemoryBuffer 4096 15, Call.AddBuffer] ∧
      s'.output_sample_size_ = 0 ∧
      Decode exhaustedPlatform StreamType.AUDIO 4 (exampleBuffer [1] 100) s' =
        .error Fault.divByZero) ∧
    (∃ s', Initialize fourBitPlatform StreamType.AUDIO 4 exampleConfig (some 7)
        WMFDecoderImpl = .ok ([DecoderStatus.kOk], s') ∧
      s'.calls.any (fun c => match c with
        | Call.SetOutputType _ => true
        | _ => false) = true ∧
      s'.output_sample_size_ = 0 ∧
      Decode fourBitPlatform StreamType.AUDIO 4 (exampleBuffer [1] 100) s' =
        .error Fault.divByZero) ∧
    (∃ s', Initialize nineChannelPlatform StreamType.AUDIO 4 exampleConfig (some 7)
        WMFDecoderImpl = .ok ([DecoderStatus.kOk], s') ∧
      s'.calls.any (fun c => match c with
        | Call.SetOutputType _ => true
        | _ => false) = true ∧
      s'.output_sample_size_ = 2 ∧
      s'.output_channel_layout_ = nineChannelPlatform.GuessChannelLayout 9 ∧
      nineChannelPlatform.ChannelLayoutToChannelCount s'.output_channel_layout_ = 0 ∧
      Decode nineChannelPlatform StreamType.AUDIO 4 (exampleBuffer [1] 100) s' =
        .error Fault.divByZero) :=
  ⟨⟨_, rfl, by decide, by decide, rfl⟩,
    ⟨_, rfl, by decide, by decide, rfl⟩,
    ⟨_, rfl, by decide, by decide, by decide, by decide, rfl⟩⟩

/-- Claim C30, as stated, fails.  On a platform whose transform hands back 8 bytes for a unit of
a 300 x 200 stream with raw stride 300, the video `Decode` dispatches a frame that holds those
8 bytes, with its V plane at offset `208 * 304 = 63232` and its U plane at offset 79040: no
plane lies inside the copied buffer. -/
theorem video_planes_outside_buffer :
    ∃ s' frame, Decode exampleVideoPlatform StreamType.VIDEO 4 (exampleBuffer [1] 100)
        exampleVideoReady = .ok s' ∧
      s'.tasks = [Task.output_cb 7 (OutputBuffer.video frame),
        Task.decode_cb DecoderStatus.kOk] ∧
      frame.data.length = 8 ∧ frame.y_stride = 304 ∧
      frame.v_offset = 63232 ∧ frame.u_offset = 79040 ∧
      208 * 304 * 3 / 2 = 94848 ∧ planesWithin frame 208 = false :=
  ⟨_, _, rfl, rfl, by decide, by decide, by decide, by decide, by decide, by decide⟩

/-- Claim C30, amended.  The frame made by the video `CreateOutputBufferInternal` holds the first
`data_size` bytes of the data, and its planes are placed by the coded height and the raw stride
alone.  With `S` and `R` the stride and the coded height rounded up to a multiple of 16 (neither
negative, the plane offsets fitting a `LONG`), the last plane ends at `R * S * 3 / 2`, and the
three planes lie inside the bytes the frame holds exactly when `R * S * 3 / 2` is at most the
number of those bytes. -/
theorem video_planes_within_iff (E : Env) (s : Engine) (data : List Nat) (data_size : Nat)
    (timestamp : Int) (calls calls' : List Call) (frame : VideoFrame)
    (h : CreateOutputBufferInternal E StreamType.VIDEO s data data_size timestamp calls =
      .ok (some frame, calls'))
    (hS0 : 0 ≤ long (E.stride calls)) (hR0 : 0 ≤ long s.config_.coded_height)
    (hS : long (E.stride calls) + 15 < 2147483648)
    (hR : long s.config_.coded_height + 15 < 2147483648)
    (hRS : fitsLong (alignUp16 (long s.config_.coded_height) *
      alignUp16 (long (E.stride calls))))
    (hU : fitsLong (alignUp16 (long s.config_.coded_height) *
        alignUp16 (long (E.stride calls)) +
      alignUp16 (long s.config_.coded_height) * alignUp16 (long (E.stride calls)) / 4)) :
    ∃ R S : Int,
      R = alignUp16 (long s.config_.coded_height) ∧ S = alignUp16 (long (E.stride calls)) ∧
      frame.data = data.take data_size ∧
      frame.data.length = min data_size data.length ∧
      frame.u_offset + R / 2 * frame.u_stride = R * S * 3 / 2 ∧
      (planesWithin frame R = true ↔ R * S * 3 / 2 ≤ (min data_size data.length : Nat)) := by
  have hf := CreateOutputBufferInternal_video _ _ _ _ _ _ _ _ h
  have hRm := alignUp16_emod (long s.config_.coded_height)
  have hSm := alignUp16_emod (long (E.stride calls))
  obtain ⟨hR1, hR2⟩ := alignUp16_least _ (long_range s.config_.coded_height).1 hR
  obtain ⟨hS1, hS2⟩ := alignUp16_least _ (long_range (E.stride calls)).1 hS
  obtain ⟨a1, a2, a3, a4, a5⟩ := plane_arith _ _ hRm hSm
  have l1 := long_of_range _ hRS.1 hRS.2
  have l2 := long_of_range _ hU.1 hU.2
  have hu : frame.u_offset = alignUp16 (long s.config_.coded_height) *
        alignUp16 (long (E.stride calls)) +
      alignUp16 (long s.config_.coded_height) * alignUp16 (long (E.stride calls)) / 4 := by
    rw [hf]
    show long (long _ + Int.tdiv (long _) 4) = _
    rw [l1, a1, l2]
  have hv : frame.v_offset = alignUp16 (long s.config_.coded_height) *
      alignUp16 (long (E.stride calls)) := by
    rw [hf]
    exact l1
  have hus : frame.u_stride = alignUp16 (long (E.stride calls)) / 2 := by
    rw [hf]
    exact a4
  have hvs : frame.v_stride = alignUp16 (long (E.stride calls)) / 2 := by
    rw [hf]
    exact a4
  have hys : frame.y_stride = alignUp16 (long (E.stride calls)) := by rw [hf]
  have hyo : frame.y_offset = 0 := by rw [hf]
  have hd : frame.data = data.take data_size := by rw [hf]
  have hlen : frame.data.length = min data_size data.length := by
    rw [hd, List.length_take]
  have hSn : 0 ≤ alignUp16 (long (E.stride calls)) := by omega
  have hRn : 0 ≤ alignUp16 (long s.config_.coded_height) := by omega
  have hprod := mul_nonneg hRn hSn
  have hend : alignUp16 (long s.config_.coded_height) * alignUp16 (long (E.stride calls)) * 3 / 2 =
      alignUp16 (long s.config_.coded_height) * alignUp16 (long (E.stride calls)) +
        2 * (alignUp16 (long s.config_.coded_height) *
          alignUp16 (long (E.stride calls)) / 4) := by
    omega
  refine ⟨_, _, rfl, rfl, hd, hlen, ?_, ?_⟩
  · rw [hu, hus, a3, hend]
    omega
  · unfold planesWithin
    rw [decide_eq_true_iff, hyo, hys, hv, hvs, hu, hus, a3, hend, hlen]
    constructor
    · intro hp
      omega
    · intro hp
      omega

/-- The statement of `video_planes_within_iff` for a 16 x 16 stream with raw stride 16 and a
unit of 384 bytes: the last plane ends at `16 * 16 * 3 / 2 = 384`, inside the frame. -/
theorem video_planes_within_iff_witness :
    ∃ frame calls, CreateOutputBufferInternal { examplePlatform with stride := fun _ => 16 }
        StreamType.VIDEO { exampleVideoReady with config_ := smallVideoConfig }
        (List.replicate 400 0) 384 100 [] = .ok (some frame, calls) ∧
      frame.data.length = 384 ∧ frame.u_offset + 16 / 2 * frame.u_stride = 384 ∧
      planesWithin frame 16 = true := by
  obtain ⟨frame, calls, hfr⟩ : ∃ frame calls,
      CreateOutputBufferInternal { examplePlatform with stride := fun _ => 16 }
        StreamType.VIDEO { exampleVideoReady with config_ := smallVideoConfig }
        (List.replicate 400 0) 384 100 [] = .ok (some frame, calls) := ⟨_, _, rfl⟩
  obtain ⟨R, S, hR, hS, -, hlen, hend, hiff⟩ :=
    video_planes_within_iff _ _ _ _ _ _ _ _ hfr (by decide) (by decide) (by decide) (by decide)
      ⟨by decide, by decide⟩ ⟨by decide, by decide⟩
  have hR' : R = 16 := by rw [hR]; decide
  have hS' : S = 16 := by rw [hS]; decide
  subst hR' hS'
  have hl : (List.replicate 400 0 : List Nat).length = 400 := List.length_replicate _ _
  rw [hl] at hlen hiff
  exact ⟨frame, calls, hfr, hlen, hend, hiff.2 (by decide)⟩

end WMF
